import Mathlib

/-!
# require-modules (UnrealIRCd): module inventory exchange and policy decisions

A shallow embedding of `src/modules/require-modules.c`.

* A C string is modelled by the list of its characters before the
  terminating NUL (`CStr`); one `Char` stands for one byte, and a `CStr`
  holds no NUL.
* The broadcaster `reqmods_hook_serverconnect` is a state machine over the
  local variables `sendbuf`, `len`, `count`, with the payloads handed to
  `sendto_one` collected in emission order.
* The reconciler `require_modules` returns the operator notifications and the
  `exit_client` call it makes, in order, together with its return value.
* `BUFSIZE` and `HOSTLEN` come from a header that is not part of the sources
  at hand; they are parameters.
* The configuration hooks work on the three globals `DenyModList`, `Modules` and
  `cfg`; a function that would use a NULL pointer as a string returns `none`.
-/

namespace ReqMods

/-! ## Data model -/

/-- The content of a NUL-terminated C string. -/
abbrev CStr := List Char

/-- Modelled from the spec: the `Module` struct of `unrealircd.h` (not among the
sources), read through `mod->header->name`, `mod->header->version`,
`mod->options & MOD_OPT_GLOBAL` and `mod->flags & MODFLAG_LOADED`; the spec's
catalog entry is `{name, version, scope: Local|Global, loaded: bool}`. -/
structure Module where
  name : CStr
  version : CStr
  global : Bool
  loaded : Bool
deriving DecidableEq, Repr

/-- The `struct _denymod` of the source, without its list links: the list
`DenyModList` is a Lean list, head first. -/
structure DenyMod where
  name : CStr
  reason : CStr
deriving DecidableEq, Repr

/-- The `struct cfgstruct` of the source: three C ints used as truth values. -/
structure cfgstruct where
  squit_on_deny : Int
  squit_on_missing : Int
  squit_on_mismatch : Int
deriving DecidableEq, Repr

/-- Modelled from the spec: the part of the `Client` struct (`unrealircd.h`, not
among the sources) that this module reads: `sptr->name`, `MyConnect(sptr)` (a
directly connected peer) and `IsServer(sptr)` (a server-type link). -/
structure Client where
  name : CStr
  MyConnect : Bool
  IsServer : Bool
deriving DecidableEq, Repr

/-- The texts handed to `sendto_umode` and `sendto_umode_global`, one
constructor per format string of `require_modules`, with the format's
arguments in order. `theirs` is the `version` pointer, which may be NULL. -/
inductive Notice where
  /-- Format "Server %s is using module '%s' which is specified in a deny module
  config block (reason: %s)". -/
  | denied (server name reason : CStr)
  /-- Format "ABORTING LINK: %s <=> %s (reason: %s)". -/
  | abortingReason (me server reason : CStr)
  /-- Format "Globally required module '%s' wasn't (fully) loaded or is missing
  entirely". -/
  | missing (name : CStr)
  /-- Format "ABORTING LINK: %s <=> %s". -/
  | aborting (me server : CStr)
  /-- Format "Version mismatch for module '%s' (ours: %s, theirs: %s)". -/
  | mismatch (name ours : CStr) (theirs : Option CStr)
deriving DecidableEq, Repr

/-- The calls `require_modules` makes to its collaborators: `sendto_umode`
reaches the local operators, `sendto_umode_global` the operators of the whole
network, `exit_client` terminates the link to `sptr` with a comment. -/
inductive Event where
  | sendto_umode (n : Notice)
  | sendto_umode_global (n : Notice)
  | exit_client (sptr : Client) (comment : CStr)
deriving DecidableEq, Repr

/-- The value `require_modules` returns: the literal 0, or whatever
`exit_client` returned. -/
inductive RetVal where
  | zero
  | ofExitClient
deriving DecidableEq, Repr

/-! ## Library routines used by the module -/

/-- The C library `tolower` in the C locale. -/
def tolower (c : Char) : Char :=
  if 'A'.toNat ≤ c.toNat ∧ c.toNat ≤ 'Z'.toNat then Char.ofNat (c.toNat + 32) else c

/-- The C library `strcasecmp`: the difference of the first pair of bytes that
differ after `tolower`, the end of a string counting as byte 0. -/
def strcasecmp : CStr → CStr → Int
  | [], [] => 0
  | [], b :: _ => 0 - ((tolower b).toNat : Int)
  | a :: _, [] => ((tolower a).toNat : Int)
  | a :: as, b :: bs =>
    if tolower a = tolower b then strcasecmp as bs
    else ((tolower a).toNat : Int) - ((tolower b).toNat : Int)

/-- Modelled from the spec: `ircsnprintf` (declared in `unrealircd.h`, not among
the sources) with the already formatted text `s`: a bounded write into a
buffer of `size` bytes, which keeps the first `size - 1` bytes and the NUL
("names exceeding this bound are truncated"). -/
def ircsnprintf (size : Nat) (s : CStr) : CStr := s.take (size - 1)

/-- Modelled from the spec: `strlcpy` into a buffer of `size` bytes: the first
`size - 1` bytes of the source are kept ("a single fixed-capacity name buffer
per parsed token ... names exceeding this bound are truncated"). -/
def strlcpy (size : Nat) (src : CStr) : CStr := src.take (size - 1)

/-- The loop of `strtoken_all`: `tok` is the token being read. -/
def strtoken_loop : CStr → CStr → List CStr
  | [], tok => if tok = [] then [] else [tok]
  | c :: cs, tok =>
    if c = ' ' then
      (if tok = [] then strtoken_loop cs [] else tok :: strtoken_loop cs [])
    else strtoken_loop cs (tok ++ [c])

/-- Modelled from the spec: the successive results of `strtoken(&p, buf, " ")`,
`strtoken(&p, NULL, " ")`, ... until NULL (`strtoken` is not among the
sources): the "space-separated tokens" of the parameter, that is its maximal
runs of non-space characters, in order; runs of spaces separate tokens and no
token is empty. -/
def strtoken_all (buf : CStr) : List CStr := strtoken_loop buf []

/-! ## Lookups -/

/-- The source's `find_modptr_byname(name, strict)` over the list `Modules`. -/
def find_modptr_byname (Modules : List Module) (name : CStr) (strict : Nat) : Option Module :=
  match Modules with
  | [] => none
  | mod :: rest =>
    if strcasecmp mod.name name = 0 then
      (if strict ≠ 0 ∧ mod.loaded = false then none else some mod)
    else find_modptr_byname rest name strict

/-- The source's `find_denymod_byname(name)` over the list `DenyModList`. -/
def find_denymod_byname (DenyModList : List DenyMod) (name : CStr) : Option DenyMod :=
  match DenyModList with
  | [] => none
  | dmod :: rest =>
    if strcasecmp dmod.name name = 0 then some dmod
    else find_denymod_byname rest name

/-! ## The Inventory Broadcaster: `reqmods_hook_serverconnect` -/

/-- The size `sizeof(modbuf)` of `char modbuf[64]`. -/
def modsize : Nat := 64

/-- The size `sizeof(sendbuf)` of `char sendbuf[BUFSIZE - HOSTLEN - 4]`. -/
def sendbufSize (BUFSIZE HOSTLEN : Nat) : Nat := BUFSIZE - HOSTLEN - 4

/-- The scope flag written for a module: `(mod->options & MOD_OPT_GLOBAL) ? 'G' : 'L'`. -/
def modflag (mod : Module) : Char := if mod.global then 'G' else 'L'

/-- The text the format "%c%s:%s" produces for a module, before any bound. -/
def modtext (mod : Module) : CStr := modflag mod :: (mod.name ++ ':' :: mod.version)

/-- The content of `modbuf` after
`ircsnprintf(modbuf, modsize, "%c%s:%s", flag, name, version)`. -/
def modbuf_of (mod : Module) : CStr := ircsnprintf modsize (modtext mod)

/-- The local variables of `reqmods_hook_serverconnect` that live across loop
iterations, and the payloads passed to `sendto_one` so far (oldest first). -/
structure SendState where
  sendbuf : CStr
  len : Nat
  count : Nat
  sent : List CStr
deriving DecidableEq, Repr

/-- The state before the loop: `sendbuf[0] = 0; len = 0; count = 0`. -/
def SendState.init : SendState := { sendbuf := [], len := 0, count := 0, sent := [] }

/-- The flush test and flush of the loop body:
`if ((len + modlen + 2) > bufsize) { sendto_one(.. sendbuf); sendbuf[0] = 0; len = 0; count = 0; }`. -/
def serverconnect_flush (bufsize : Nat) (st : SendState) (modlen : Nat) : SendState :=
  if st.len + modlen + 2 > bufsize then
    { sendbuf := [], len := 0, count := 0, sent := st.sent ++ [st.sendbuf] }
  else st

/-- The text `ircsnprintf(sendbuf + len, bufsize - len, "%s%s", (len > 0 ? " " : ""), modbuf)`
is asked to write. -/
def append_text (len : Nat) (modbuf : CStr) : CStr :=
  (if len > 0 then [' '] else []) ++ modbuf

/-- The append of the loop body: the bounded write at offset `len`, then
`if (len) len++; len += modlen; count++`. The first `len` bytes of `sendbuf`
stay, the write follows them. (Exact as long as `len` is the length of
`sendbuf` and `len < bufsize`.) -/
def serverconnect_append (bufsize : Nat) (st : SendState) (modbuf : CStr) : SendState :=
  { sendbuf := st.sendbuf.take st.len ++ ircsnprintf (bufsize - st.len) (append_text st.len modbuf),
    len := (if st.len ≠ 0 then st.len + 1 else st.len) + modbuf.length,
    count := st.count + 1,
    sent := st.sent }

/-- One iteration of `for (mod = Modules; mod; mod = mod->next)`. -/
def serverconnect_step (bufsize : Nat) (st : SendState) (mod : Module) : SendState :=
  let modbuf := modbuf_of mod
  let modlen := modbuf.length
  serverconnect_append bufsize (serverconnect_flush bufsize st modlen) modbuf

/-- The state when the loop has run over `Modules`. -/
def serverconnect_run (bufsize : Nat) (Modules : List Module) : SendState :=
  Modules.foldl (serverconnect_step bufsize) SendState.init

/-- The source's `reqmods_hook_serverconnect(sptr)`: the payloads of the REQMODS
messages sent to `sptr`, in emission order. Nothing is sent to a client
that is not `MyConnect`; after the loop a non-empty `sendbuf` is sent. -/
def reqmods_hook_serverconnect (BUFSIZE HOSTLEN : Nat) (sptr : Client)
    (Modules : List Module) : List CStr :=
  if sptr.MyConnect = false then []
  else
    let st := serverconnect_run (sendbufSize BUFSIZE HOSTLEN) Modules
    if st.sendbuf ≠ [] then st.sent ++ [st.sendbuf] else st.sent

/-! ## The Inventory Reconciler: `require_modules` -/

/-- The split `if ((version = strstr(name, ":"))) *version++ = 0;`: the text before
the first ':' and, when there is one, the text after it. -/
def split_colon : CStr → CStr × Option CStr
  | [] => ([], none)
  | c :: cs =>
    if c = ':' then ([], some cs)
    else ((c :: (split_colon cs).1), (split_colon cs).2)

/-- The size `sizeof(name)` of `char name[64]`. -/
def namesize : Nat := 64

/-- The parse of one token in `require_modules`:
`flag = *modbuf++; strlcpy(name, modbuf, sizeof(name)); if ((version = strstr(name, ":"))) *version++ = 0;`.
`strtoken` returns no empty token; for the empty list the flag read is the NUL. -/
def parse_token (modbuf : CStr) : Char × CStr × Option CStr :=
  match modbuf with
  | [] => (Char.ofNat 0, [], none)
  | flag :: rest =>
    let name := strlcpy namesize rest
    (flag, (split_colon name).1, (split_colon name).2)

/-- The body of the token loop of `require_modules` once the token is parsed: the
calls it makes, and whether it leaves the function (`return exit_client(..)`)
or goes on with the next token (`continue`). -/
def require_modules_decide (cfg : cfgstruct) (DenyModList : List DenyMod)
    (Modules : List Module) (me : CStr) (sptr : Client)
    (flag : Char) (name : CStr) (version : Option CStr) : List Event × Bool :=
  match find_denymod_byname DenyModList name with
  | some dmod =>
    if cfg.squit_on_deny ≠ 0 then
      ([Event.sendto_umode (Notice.denied sptr.name name dmod.reason),
        Event.sendto_umode_global (Notice.abortingReason me sptr.name dmod.reason),
        Event.exit_client sptr dmod.reason], true)
    else ([Event.sendto_umode (Notice.denied sptr.name name dmod.reason)], false)
  | none =>
    match find_modptr_byname Modules name 1 with
    | none =>
      if flag = 'G' then
        if cfg.squit_on_missing ≠ 0 then
          ([Event.sendto_umode_global (Notice.missing name),
            Event.sendto_umode_global (Notice.aborting me sptr.name),
            Event.exit_client sptr "Missing globally required module".toList], true)
        else ([Event.sendto_umode_global (Notice.missing name)], false)
      else ([], false)
    | some mod =>
      if version = none ∨ ¬ (strcasecmp mod.version (version.getD []) = 0) then
        if cfg.squit_on_mismatch ≠ 0 then
          ([Event.sendto_umode (Notice.mismatch name mod.version version),
            Event.sendto_umode_global (Notice.aborting me sptr.name),
            Event.exit_client sptr "Module version mismatch".toList], true)
        else ([Event.sendto_umode (Notice.mismatch name mod.version version)], false)
      else ([], false)

/-- One iteration of the token loop of `require_modules`: parse, then decide. -/
def require_modules_entry (cfg : cfgstruct) (DenyModList : List DenyMod)
    (Modules : List Module) (me : CStr) (sptr : Client) (modbuf : CStr) : List Event × Bool :=
  require_modules_decide cfg DenyModList Modules me sptr
    (parse_token modbuf).1 (parse_token modbuf).2.1 (parse_token modbuf).2.2

/-- The token loop of `require_modules` over the tokens `strtoken` yields: the
calls made, in order, and the value returned. -/
def require_modules_loop (cfg : cfgstruct) (DenyModList : List DenyMod)
    (Modules : List Module) (me : CStr) (sptr : Client) : List CStr → List Event × RetVal
  | [] => ([], RetVal.zero)
  | modbuf :: rest =>
    if (require_modules_entry cfg DenyModList Modules me sptr modbuf).2 then
      ((require_modules_entry cfg DenyModList Modules me sptr modbuf).1, RetVal.ofExitClient)
    else
      ((require_modules_entry cfg DenyModList Modules me sptr modbuf).1 ++
        (require_modules_loop cfg DenyModList Modules me sptr rest).1,
       (require_modules_loop cfg DenyModList Modules me sptr rest).2)

/-- The tokens `require_modules` iterates over for the parameter `parv[1]`:
`strlcpy(buf, parv[1], sizeof(buf))` with `char buf[BUFSIZE]`, then `strtoken`
on spaces. -/
def reqmods_tokens (BUFSIZE : Nat) (parv1 : CStr) : List CStr :=
  strtoken_all (strlcpy BUFSIZE parv1)

/-- The source's `CMD_FUNC(require_modules)`; `parv1` is `parv[1]`, `none` for a
NULL pointer, and `me` is `me.name`. -/
def require_modules (BUFSIZE : Nat) (cfg : cfgstruct) (DenyModList : List DenyMod)
    (Modules : List Module) (me : CStr) (sptr : Client) (parv1 : Option CStr) :
    List Event × RetVal :=
  match parv1 with
  | none => ([], RetVal.zero)
  | some p =>
    if sptr.MyConnect = false ∨ sptr.IsServer = false ∨ p = [] then ([], RetVal.zero)
    else require_modules_loop cfg DenyModList Modules me sptr (reqmods_tokens BUFSIZE p)

/-- The inventory entries `require_modules` reads from one message. -/
def parse_message (BUFSIZE : Nat) (parv1 : CStr) : List (Char × CStr × Option CStr) :=
  (reqmods_tokens BUFSIZE parv1).map parse_token

/-! ## Specification-side notions used to state the chunking properties -/

/-- The tokens of a group joined by single spaces. -/
def joinSp (g : List CStr) : CStr := List.intercalate [' '] g

/-- The greedy grouping of a token sequence: `cur` is the group being filled; a
token that does not fit next to it (`len + modlen + 2 > bufsize`) closes
the group and opens a new one. -/
def greedy_groups (bufsize : Nat) : List CStr → List CStr → List (List CStr)
  | cur, [] => if cur = [] then [] else [cur]
  | cur, t :: ts =>
    if (joinSp cur).length + t.length + 2 > bufsize then cur :: greedy_groups bufsize [t] ts
    else greedy_groups bufsize (cur ++ [t]) ts

/-- The number of messages the loop sends from a buffer holding `len` bytes when
the remaining tokens have the lengths `ms` (the last, non-empty buffer
counted). -/
def msg_count (bufsize : Nat) : Nat → List Nat → Nat
  | len, [] => if len = 0 then 0 else 1
  | len, m :: ms =>
    if len + m + 2 > bufsize then 1 + msg_count bufsize m ms
    else msg_count bufsize ((if len ≠ 0 then len + 1 else len) + m) ms

/-- The length of a buffer holding `len` bytes after the tokens of lengths `g`
are appended to it, each preceded by a space unless the buffer is empty. -/
def ext_len (len : Nat) (g : List Nat) : Nat :=
  g.foldl (fun l m => (if l ≠ 0 then l + 1 else l) + m) len

/-- The payloads a final state stands for: those sent, then the non-empty
buffer. -/
def SendState.output (st : SendState) : List CStr :=
  if st.sendbuf ≠ [] then st.sent ++ [st.sendbuf] else st.sent

/-- The loop invariant of `reqmods_hook_serverconnect`: `len` is the length of the
string in `sendbuf`, and the string with its NUL fits the buffer. -/
def SendInv (bufsize : Nat) (st : SendState) : Prop :=
  st.len = st.sendbuf.length ∧ st.len + 1 ≤ bufsize

/-! ## Configuration: data model and library routines -/

/-- Modelled from the spec: the part of a `ConfigEntry` (struct of `unrealircd.h`,
not among the sources) that this module reads from a directive `cep` of a
block: `cep->ce_varname` and `cep->ce_vardata`, the latter NULL for a directive
without value. -/
structure ConfigDirective where
  ce_varname : CStr
  ce_vardata : Option CStr
deriving DecidableEq, Repr

/-- Modelled from the spec: the part of a `ConfigEntry` that this module reads from
the block `ce` handed to its hooks: `ce->ce_varname`, `ce->ce_vardata` (the word
after `deny` or `require`; NULL when there is none) and the directives
`ce->ce_entries`, in file order. -/
structure ConfigEntry where
  ce_varname : CStr
  ce_vardata : Option CStr
  ce_entries : List ConfigDirective
deriving DecidableEq, Repr

/-- Modelled from the spec: the `type` argument of the configuration hooks, the
constants `CONFIG_DENY`, `CONFIG_REQUIRE`, `CONFIG_SET` of `unrealircd.h` and any
other block type. -/
inductive ConfigType where
  | CONFIG_DENY
  | CONFIG_REQUIRE
  | CONFIG_SET
  | CONFIG_OTHER
deriving DecidableEq, Repr

/-- The C library `strcmp`: the difference of the first pair of bytes that differ,
the end of a string counting as byte 0. -/
def strcmp : CStr → CStr → Int
  | [], [] => 0
  | [], b :: _ => 0 - (b.toNat : Int)
  | a :: _, [] => (a.toNat : Int)
  | a :: as, b :: bs =>
    if a = b then strcmp as bs else (a.toNat : Int) - (b.toNat : Int)

/-- The three globals the configuration hooks read and write: `DenyModList`, the
catalog `Modules` and `cfg`. -/
structure ReqState where
  DenyModList : List DenyMod
  Modules : List Module
  cfg : cfgstruct
deriving DecidableEq, Repr

/-! ## Configuration: validation -/

/-- One iteration of the directive loop of `reqmods_configtest_deny`; the state is
`(errors, has_name)`. -/
def configtest_deny_step (Modules : List Module) (st : Int × Int) (cep : ConfigDirective) :
    Int × Int :=
  if cep.ce_varname.length = 0 then (st.1 + 1, st.2)
  else
    match cep.ce_vardata with
    | none => (st.1 + 1, st.2)
    | some v =>
      if v.length = 0 then (st.1 + 1, st.2)
      else if strcmp cep.ce_varname "name".toList = 0 then
        ((if (find_modptr_byname Modules v 0).isSome then st.1 + 1 else st.1), 1)
      else if strcmp cep.ce_varname "reason".toList = 0 then st
      else (st.1 + 1, st.2)

/-- The source's `reqmods_configtest_deny(cf, ce, type, errs)`: the value returned and
the value left in `*errs`; `none` when `ce->ce_vardata` is NULL, which `strcmp`
would dereference. -/
def reqmods_configtest_deny (Modules : List Module) (ce : ConfigEntry) (errs : Int) :
    Option (Int × Int) :=
  match ce.ce_vardata with
  | none => none
  | some v =>
    if strcmp v "module".toList ≠ 0 then some (0, errs)
    else
      let st := ce.ce_entries.foldl (configtest_deny_step Modules) (0, 0)
      let errors := if st.2 = 0 then st.1 + 1 else st.1
      some ((if errors ≠ 0 then -1 else 1), errors)

/-- One iteration of the directive loop of `reqmods_configtest_require`; the state
is `(errors, has_name)`. -/
def configtest_require_step (Modules : List Module) (st : Int × Int) (cep : ConfigDirective) :
    Int × Int :=
  if cep.ce_varname.length = 0 then (st.1 + 1, st.2)
  else
    match cep.ce_vardata with
    | none => (st.1 + 1, st.2)
    | some v =>
      if v.length = 0 then (st.1 + 1, st.2)
      else if strcmp cep.ce_varname "name".toList = 0 then
        ((if (find_modptr_byname Modules v 0).isSome then st.1 else st.1 + 1), 1)
      else (st.1 + 1, st.2)

/-- The source's `reqmods_configtest_require(cf, ce, type, errs)`: the value returned
and the value left in `*errs`; `none` when `ce->ce_vardata` is NULL. -/
def reqmods_configtest_require (Modules : List Module) (ce : ConfigEntry) (errs : Int) :
    Option (Int × Int) :=
  match ce.ce_vardata with
  | none => none
  | some v =>
    if strcmp v "module".toList ≠ 0 then some (0, errs)
    else
      let st := ce.ce_entries.foldl (configtest_require_step Modules) (0, 0)
      let errors := if st.2 = 0 then st.1 + 1 else st.1
      some ((if errors ≠ 0 then -1 else 1), errors)

/-- One iteration of the directive loop of `reqmods_configtest_set`: the new value
of `errors`. -/
def configtest_set_step (errors : Int) (cep : ConfigDirective) : Int :=
  if cep.ce_varname.length = 0 then errors + 1
  else
    match cep.ce_vardata with
    | none => errors + 1
    | some v =>
      if v.length = 0 then errors + 1
      else if strcmp cep.ce_varname "squit-on-deny".toList = 0
          ∨ strcmp cep.ce_varname "squit-on-missing".toList = 0
          ∨ strcmp cep.ce_varname "squit-on-mismatch".toList = 0 then errors
      else errors + 1

/-- The source's `reqmods_configtest_set(cf, ce, type, errs)`: the value returned and
the value left in `*errs`. -/
def reqmods_configtest_set (ce : ConfigEntry) (errs : Int) : Int × Int :=
  if strcmp ce.ce_varname "require-modules".toList ≠ 0 then (0, errs)
  else
    let errors := ce.ce_entries.foldl configtest_set_step 0
    ((if errors ≠ 0 then -1 else 1), errors)

/-- The source's `reqmods_configtest(cf, ce, type, errs)`. -/
def reqmods_configtest (Modules : List Module) (ce : ConfigEntry) (type : ConfigType)
    (errs : Int) : Option (Int × Int) :=
  match type with
  | ConfigType.CONFIG_DENY => reqmods_configtest_deny Modules ce errs
  | ConfigType.CONFIG_REQUIRE => reqmods_configtest_require Modules ce errs
  | ConfigType.CONFIG_SET => some (reqmods_configtest_set ce errs)
  | ConfigType.CONFIG_OTHER => some (0, errs)

/-! ## Configuration: apply -/

/-- The reason used when the block gives none. -/
def default_reason : CStr := "A forbidden module is being used".toList

/-- One iteration of the directive loop of `reqmods_configrun_deny`; the state is
`(dmod->name, dmod->reason)` of the rule being built, both NULL at the start
(`MyMallocEx` zeroes the struct); `safestrdup` copies the value, NULL for
NULL. -/
def configrun_deny_step (d : Option CStr × Option CStr) (cep : ConfigDirective) :
    Option CStr × Option CStr :=
  if strcmp cep.ce_varname "name".toList = 0 then (cep.ce_vardata, d.2)
  else if strcmp cep.ce_varname "reason".toList = 0 then (d.1, cep.ce_vardata)
  else d

/-- The reason of the new rule: `if (!dmod->reason || !strlen(dmod->reason))` the
default reason, else the one given. -/
def deny_reason (r : Option CStr) : CStr :=
  match r with
  | none => default_reason
  | some t => if t.length = 0 then default_reason else t

/-- Modelled from the spec: the list macro `AddListItem(item, list)` of the core
headers (not among the sources). It links the item at the head of the
list, so that the rule added last is the one a lookup meets first; the
spec's `addDenyRule` "inserts or overwrites the rule keyed by
case-insensitive name". -/
def AddListItem (item : DenyMod) (list : List DenyMod) : List DenyMod := item :: list

/-- The source's `reqmods_configrun_deny(cf, ce, type)`: the value returned and the
new `DenyModList`. The result is `none` when `ce->ce_vardata` is NULL, and when
the new rule would be linked with a NULL name (no `name` directive with a
value), a rule every later lookup would hand to `strcasecmp` as NULL. -/
def reqmods_configrun_deny (DenyModList : List DenyMod) (ce : ConfigEntry) :
    Option (Int × List DenyMod) :=
  match ce.ce_vardata with
  | none => none
  | some v =>
    if strcmp v "module".toList ≠ 0 then some (0, DenyModList)
    else
      let d := ce.ce_entries.foldl configrun_deny_step (none, none)
      match d.1 with
      | none => none
      | some name => some (1, AddListItem { name := name, reason := deny_reason d.2 } DenyModList)

/-- The assignment `mod->options |= MOD_OPT_GLOBAL` on the module
`find_modptr_byname(name, 0)` points at: the first module of the list whose
name compares equal; the list is unchanged when there is none. -/
def mark_global_byname : List Module → CStr → List Module
  | [], _ => []
  | mod :: rest, name =>
    if strcasecmp mod.name name = 0 then { mod with global := true } :: rest
    else mod :: mark_global_byname rest name

/-- One iteration of the directive loop of `reqmods_configrun_require`; the state
is the catalog and the names reported by the "[BUG?] Passed
configtest_require() but not configrun_require()" `config_error`, oldest first.
The result is `none` for a `name` directive whose value is NULL, which is
used as a string. -/
def configrun_require_step (st : Option (List Module × List CStr)) (cep : ConfigDirective) :
    Option (List Module × List CStr) :=
  match st with
  | none => none
  | some (Modules, bugs) =>
    if strcmp cep.ce_varname "name".toList = 0 then
      match cep.ce_vardata with
      | none => none
      | some v =>
        match find_modptr_byname Modules v 0 with
        | none => some (Modules, bugs ++ [v])
        | some _ => some (mark_global_byname Modules v, bugs)
    else some (Modules, bugs)

/-- The source's `reqmods_configrun_require(cf, ce, type)`: the value returned, the
catalog afterwards and the names reported as not found; `none` when a NULL
pointer is used as a string. -/
def reqmods_configrun_require (Modules : List Module) (ce : ConfigEntry) :
    Option (Int × List Module × List CStr) :=
  match ce.ce_vardata with
  | none => none
  | some v =>
    if strcmp v "module".toList ≠ 0 then some (0, Modules, [])
    else
      match ce.ce_entries.foldl configrun_require_step (some (Modules, [])) with
      | none => none
      | some (Modules2, bugs) => some (1, Modules2, bugs)

/-- One iteration of the directive loop of `reqmods_configrun_set`.
`config_checkval` stands for `config_checkval(value, CFG_YESNO)`, a function of
the core that is not among the sources. -/
def configrun_set_step (config_checkval : Option CStr → Int) (cfg : cfgstruct)
    (cep : ConfigDirective) : cfgstruct :=
  if strcmp cep.ce_varname "squit-on-deny".toList = 0 then
    { cfg with squit_on_deny := config_checkval cep.ce_vardata }
  else if strcmp cep.ce_varname "squit-on-missing".toList = 0 then
    { cfg with squit_on_missing := config_checkval cep.ce_vardata }
  else if strcmp cep.ce_varname "squit-on-mismatch".toList = 0 then
    { cfg with squit_on_mismatch := config_checkval cep.ce_vardata }
  else cfg

/-- The source's `reqmods_configrun_set(cf, ce, type)`: the value returned and the
new `cfg`. -/
def reqmods_configrun_set (config_checkval : Option CStr → Int) (cfg : cfgstruct)
    (ce : ConfigEntry) : Int × cfgstruct :=
  (1, ce.ce_entries.foldl (configrun_set_step config_checkval) cfg)

/-- The source's `reqmods_configrun(cf, ce, type)` on the three globals. -/
def reqmods_configrun (config_checkval : Option CStr → Int) (st : ReqState) (ce : ConfigEntry)
    (type : ConfigType) : Option (Int × ReqState) :=
  match type with
  | ConfigType.CONFIG_DENY =>
    (reqmods_configrun_deny st.DenyModList ce).map
      (fun r => (r.1, { st with DenyModList := r.2 }))
  | ConfigType.CONFIG_REQUIRE =>
    (reqmods_configrun_require st.Modules ce).map
      (fun r => (r.1, { st with Modules := r.2.1 }))
  | ConfigType.CONFIG_SET =>
    some ((reqmods_configrun_set config_checkval st.cfg ce).1,
      { st with cfg := (reqmods_configrun_set config_checkval st.cfg ce).2 })
  | ConfigType.CONFIG_OTHER => some (0, st)

/-- The effect of `MOD_TEST(require_modules)` on the globals: `memset(&cfg, 0, sizeof(cfg))`. -/
def MOD_TEST (st : ReqState) : ReqState :=
  { st with cfg := { squit_on_deny := 0, squit_on_missing := 0, squit_on_mismatch := 0 } }

/-- The effect of `MOD_UNLOAD(require_modules)` on the globals: every rule is freed
and `DenyModList = NULL`. -/
def MOD_UNLOAD (st : ReqState) : ReqState :=
  { st with DenyModList := [] }

/-- Applying a configuration: `reqmods_configrun` on each of its blocks, in file
order. -/
def apply_config (config_checkval : Option CStr → Int) :
    ReqState → List (ConfigEntry × ConfigType) → Option ReqState
  | st, [] => some st
  | st, b :: rest =>
    match reqmods_configrun config_checkval st b.1 b.2 with
    | none => none
    | some r => apply_config config_checkval r.2 rest

/-- The last directive of a block whose name `strcmp` finds equal to `name`. -/
def last_directive (name : CStr) : List ConfigDirective → Option ConfigDirective
  | [] => none
  | cep :: rest =>
    match last_directive name rest with
    | some d => some d
    | none => if strcmp cep.ce_varname name = 0 then some cep else none

/-- The index `i` holds the first module of the list whose name `strcasecmp` finds
equal to `name`. -/
def FirstMatch (Modules : List Module) (name : CStr) (i : Nat) : Prop :=
  (∃ m, Modules[i]? = some m ∧ strcasecmp m.name name = 0) ∧
    ∀ j, j < i → ∀ mj, Modules[j]? = some mj → strcasecmp mj.name name ≠ 0

/-! ## Specification-side notions used to state the validation properties -/

/-- A directive with a blank name or a blank value: `!strlen(cep->ce_varname)`, or
`!cep->ce_vardata || !strlen(cep->ce_vardata)`. -/
def directive_blank (cep : ConfigDirective) : Bool :=
  decide (cep.ce_varname = []) ||
    (match cep.ce_vardata with
      | none => true
      | some v => decide (v = []))

/-- A directive that violates the rules of a `deny module` block: blank, or a `name`
whose value the loose catalog lookup finds, or neither `name` nor `reason`. -/
def deny_directive_error (Modules : List Module) (cep : ConfigDirective) : Bool :=
  directive_blank cep ||
    (if strcmp cep.ce_varname "name".toList = 0 then
      (match cep.ce_vardata with
        | some v => (find_modptr_byname Modules v 0).isSome
        | none => true)
    else decide (strcmp cep.ce_varname "reason".toList ≠ 0))

/-- A directive that violates the rules of a `require module` block: blank, or a
`name` whose value the loose catalog lookup does not find, or not `name`. -/
def require_directive_error (Modules : List Module) (cep : ConfigDirective) : Bool :=
  directive_blank cep ||
    (if strcmp cep.ce_varname "name".toList = 0 then
      (match cep.ce_vardata with
        | some v => (find_modptr_byname Modules v 0).isNone
        | none => true)
    else true)

/-- A `name` directive that is not blank. -/
def directive_gives_name (cep : ConfigDirective) : Bool :=
  !directive_blank cep && decide (strcmp cep.ce_varname "name".toList = 0)

/-- The index `i` holds the first module of the list whose name equals up to case
the value of some `name` directive among `entries`. -/
def RequiredAt (Modules : List Module) (entries : List ConfigDirective) (i : Nat) : Prop :=
  ∃ cep ∈ entries, strcmp cep.ce_varname "name".toList = 0 ∧
    ∃ val, cep.ce_vardata = some val ∧ FirstMatch Modules val i

/-! ## Concrete inputs -/

/-- A directly connected server peer. -/
def ex_peer : Client := { name := "hub.example.net".toList, MyConnect := true, IsServer := true }

/-- A Global, fully loaded module. -/
def ex_chanfilter : Module :=
  { name := "chanfilter".toList, version := "3.2".toList, global := true, loaded := true }

/-- A Local module whose name alone is 70 bytes long. -/
def ex_longname : Module :=
  { name := List.replicate 70 'x', version := "1.0".toList, global := false, loaded := true }

/-- A Local module whose name holds a space. -/
def ex_spacename : Module :=
  { name := "my mod".toList, version := "1.0".toList, global := false, loaded := true }

/-- A Local, fully loaded module. -/
def ex_bar : Module :=
  { name := "bar".toList, version := "3.0.0".toList, global := false, loaded := true }

/-- The module `bar` at a pre-release version. -/
def ex_bar_alpha : Module :=
  { name := "bar".toList, version := "3.0.0-alpha".toList, global := false, loaded := true }

/-- A Local module whose name holds a colon. -/
def ex_colonname : Module :=
  { name := "third:mod".toList, version := "1.0".toList, global := false, loaded := true }

/-- The deny rule of the spec's scenarios A and B. -/
def ex_deny : DenyMod := { name := "chanfilter".toList, reason := "banned".toList }

/-- All three switches off. -/
def ex_cfg_warn : cfgstruct := { squit_on_deny := 0, squit_on_missing := 0, squit_on_mismatch := 0 }

/-- All three switches on. -/
def ex_cfg_squit : cfgstruct := { squit_on_deny := 1, squit_on_missing := 1, squit_on_mismatch := 1 }

/-- The name of this server, `me.name`. -/
def ex_me : CStr := "leaf.example.net".toList

/-- A token whose first colon comes after the 63rd byte behind the flag. -/
def ex_token_late_colon : CStr := 'G' :: (List.replicate 63 'a' ++ ":1".toList)

/-- A token whose version runs past the 63rd byte behind the flag. -/
def ex_token_long_version : CStr := 'G' :: ("a:".toList ++ List.replicate 70 'b')

/-- A module named `foo` that is in the list but not fully loaded. -/
def ex_foo_testing : Module :=
  { name := "foo".toList, version := "1.0".toList, global := false, loaded := false }

/-- A fully loaded module named `foo`. -/
def ex_foo_loaded : Module :=
  { name := "foo".toList, version := "1.0".toList, global := false, loaded := true }

/-- The block `deny module { name chanfilter; reason banned; }`. -/
def ex_deny_block : ConfigEntry :=
  { ce_varname := "deny".toList, ce_vardata := some "module".toList,
    ce_entries := [{ ce_varname := "name".toList, ce_vardata := some "chanfilter".toList },
                   { ce_varname := "reason".toList, ce_vardata := some "banned".toList }] }

/-- The block `require module { name bar; }`. -/
def ex_require_block : ConfigEntry :=
  { ce_varname := "require".toList, ce_vardata := some "module".toList,
    ce_entries := [{ ce_varname := "name".toList, ce_vardata := some "bar".toList }] }

/-- The entry `require-modules { squit-on-deny yes; squit-on-missing no; }` of a set
block. -/
def ex_set_block : ConfigEntry :=
  { ce_varname := "require-modules".toList, ce_vardata := none,
    ce_entries := [{ ce_varname := "squit-on-deny".toList, ce_vardata := some "yes".toList },
                   { ce_varname := "squit-on-missing".toList, ce_vardata := some "no".toList }] }

/-- An entry of a set block that belongs to another module,
`anti-flood { squit-on-deny yes; }`. -/
def ex_set_other : ConfigEntry :=
  { ce_varname := "anti-flood".toList, ce_vardata := none,
    ce_entries := [{ ce_varname := "squit-on-deny".toList, ce_vardata := some "yes".toList }] }

/-- An entry of a set block that belongs to another module,
`antirandom { threshold 7; }`. -/
def ex_set_antirandom : ConfigEntry :=
  { ce_varname := "antirandom".toList, ce_vardata := none,
    ce_entries := [{ ce_varname := "threshold".toList, ce_vardata := some "7".toList }] }

/-- A yes/no reading of a value: 1 for `yes`, 0 otherwise. -/
def ex_checkval (v : Option CStr) : Int := if v = some "yes".toList then 1 else 0

/-- Globals with an empty rule list, the catalog `[bar]` and all switches off. -/
def ex_state : ReqState := { DenyModList := [], Modules := [ex_bar], cfg := ex_cfg_warn }

/-! ## Lemmas: tokenizer -/

theorem strtoken_loop_space (a b tok : CStr) :
    strtoken_loop (a ++ ' ' :: b) tok = strtoken_loop a tok ++ strtoken_loop b [] := by
  induction a generalizing tok with
  | nil =>
    by_cases ht : tok = []
    · simp [strtoken_loop, ht]
    · simp [strtoken_loop, ht]
  | cons c a ih =>
    simp only [List.cons_append, strtoken_loop]
    by_cases hc : c = ' '
    · simp only [hc, if_true]
      by_cases ht : tok = []
      · simp [ht, ih]
      · simp [ht, ih]
    · simp only [hc, if_false]; exact ih _

theorem strtoken_loop_nospace (a tok : CStr) (h : ' ' ∉ a) :
    strtoken_loop a tok = if tok ++ a = [] then [] else [tok ++ a] := by
  induction a generalizing tok with
  | nil => simp [strtoken_loop]
  | cons c a ih =>
    have hc : c ≠ ' ' := fun e => h (by simp [e])
    have ha : ' ' ∉ a := fun e => h (List.mem_cons_of_mem _ e)
    simp only [strtoken_loop, hc, if_false]
    rw [ih _ ha]
    simp

theorem strtoken_all_token (t : CStr) (hne : t ≠ []) (h : ' ' ∉ t) : strtoken_all t = [t] := by
  unfold strtoken_all
  rw [strtoken_loop_nospace _ _ h]
  simp [hne]

theorem strtoken_all_space (a b : CStr) :
    strtoken_all (a ++ ' ' :: b) = strtoken_all a ++ strtoken_all b :=
  strtoken_loop_space a b []

/-- No token returned by the tokenizer is empty. -/
theorem strtoken_loop_ne_nil (a tok : CStr) : ∀ t ∈ strtoken_loop a tok, t ≠ [] := by
  induction a generalizing tok with
  | nil =>
    intro t ht
    simp only [strtoken_loop] at ht
    split at ht
    · simp at ht
    · simp only [List.mem_singleton] at ht; subst ht; assumption
  | cons c a ih =>
    intro t ht
    simp only [strtoken_loop] at ht
    split at ht
    · split at ht
      · exact ih _ t ht
      · rcases List.mem_cons.1 ht with h | h
        · subst h; assumption
        · exact ih _ t h
    · exact ih _ t ht

/-! ## Lemmas: space-joined groups -/

theorem joinSp_nil : joinSp [] = [] := rfl

theorem joinSp_singleton (t : CStr) : joinSp [t] = t := by
  simp [joinSp, List.intercalate, List.intersperse]

theorem joinSp_cons_cons (t u : CStr) (g : List CStr) :
    joinSp (t :: u :: g) = t ++ ' ' :: joinSp (u :: g) := by
  simp [joinSp, List.intercalate, List.intersperse]

theorem joinSp_eq_nil (g : List CStr) (hne : ∀ t ∈ g, t ≠ []) : joinSp g = [] ↔ g = [] := by
  cases g with
  | nil => simp [joinSp_nil]
  | cons t g =>
    have ht : t ≠ [] := hne t (by simp)
    cases g with
    | nil => simp [joinSp_singleton, ht]
    | cons u g => simp [joinSp_cons_cons, ht]

theorem joinSp_snoc (g : List CStr) (t : CStr) (hg : g ≠ []) :
    joinSp (g ++ [t]) = joinSp g ++ ' ' :: t := by
  induction g with
  | nil => exact absurd rfl hg
  | cons a g ih =>
    cases g with
    | nil => simp [joinSp_cons_cons, joinSp_singleton]
    | cons b g =>
      have := ih (by simp)
      simp only [List.cons_append] at this ⊢
      rw [joinSp_cons_cons, this, joinSp_cons_cons]
      simp

theorem strtoken_all_joinSp (g : List CStr) (hne : ∀ t ∈ g, t ≠ []) (hsp : ∀ t ∈ g, ' ' ∉ t) :
    strtoken_all (joinSp g) = g := by
  induction g with
  | nil => simp [joinSp_nil, strtoken_all, strtoken_loop]
  | cons t g ih =>
    have ht := strtoken_all_token t (hne t (by simp)) (hsp t (by simp))
    cases g with
    | nil => simpa [joinSp_singleton] using ht
    | cons u g =>
      rw [joinSp_cons_cons, strtoken_all_space, ht,
        ih (fun x hx => hne x (List.mem_cons_of_mem _ hx))
          (fun x hx => hsp x (List.mem_cons_of_mem _ hx))]
      rfl

/-! ## Lemmas: the broadcaster loop -/

theorem modbuf_of_length_le (mod : Module) : (modbuf_of mod).length + 1 ≤ modsize := by
  simp only [modbuf_of, ircsnprintf, modsize, List.length_take]
  omega

theorem modbuf_of_length_ge (mod : Module) : 2 ≤ (modbuf_of mod).length := by
  simp only [modbuf_of, ircsnprintf, modsize, modtext, List.length_take, List.length_cons,
    List.length_append]
  omega

theorem modbuf_of_ne_nil (mod : Module) : modbuf_of mod ≠ [] := by
  intro h
  have := modbuf_of_length_ge mod
  rw [h] at this
  simp at this

theorem sendInv_init (bufsize : Nat) (hB : 1 ≤ bufsize) : SendInv bufsize SendState.init := by
  simp [SendInv, SendState.init]; omega

theorem serverconnect_flush_inv (bufsize : Nat) (st : SendState) (modlen : Nat)
    (hB : modlen + 2 ≤ bufsize) (h : SendInv bufsize st) :
    SendInv bufsize (serverconnect_flush bufsize st modlen) ∧
      (serverconnect_flush bufsize st modlen).len + modlen + 2 ≤ bufsize := by
  unfold serverconnect_flush
  split
  · refine ⟨⟨rfl, ?_⟩, ?_⟩
    · show 0 + 1 ≤ bufsize
      omega
    · show 0 + modlen + 2 ≤ bufsize
      omega
  · exact ⟨h, by omega⟩

theorem ircsnprintf_fits (size : Nat) (s : CStr) (h : s.length + 1 ≤ size) :
    ircsnprintf size s = s := by
  unfold ircsnprintf
  exact List.take_of_length_le (by omega)

theorem append_text_length (len : Nat) (modbuf : CStr) :
    (append_text len modbuf).length = (if len ≠ 0 then 1 else 0) + modbuf.length := by
  unfold append_text
  by_cases h : len = 0
  · simp [h]
  · have : len > 0 := Nat.pos_of_ne_zero h
    simp [h, this]
    omega

/-- Under the invariant, with room left for the token, the bounded write of the
append keeps the whole text. -/
theorem serverconnect_append_exact (bufsize : Nat) (st : SendState) (modbuf : CStr)
    (h : SendInv bufsize st) (hfit : st.len + modbuf.length + 2 ≤ bufsize) :
    (serverconnect_append bufsize st modbuf).sendbuf = st.sendbuf ++ append_text st.len modbuf ∧
      SendInv bufsize (serverconnect_append bufsize st modbuf) := by
  obtain ⟨hlen, _⟩ := h
  have hl := append_text_length st.len modbuf
  have hfull : ircsnprintf (bufsize - st.len) (append_text st.len modbuf)
      = append_text st.len modbuf := by
    apply ircsnprintf_fits
    rw [hl]
    split <;> omega
  have htake : st.sendbuf.take st.len = st.sendbuf := by
    rw [hlen]; exact List.take_of_length_le (Nat.le_refl _)
  have hbuf : (serverconnect_append bufsize st modbuf).sendbuf
      = st.sendbuf ++ append_text st.len modbuf := by
    simp only [serverconnect_append, hfull, htake]
  refine ⟨hbuf, ?_, ?_⟩
  · rw [hbuf, List.length_append, hl, ← hlen]
    simp only [serverconnect_append]
    split <;> omega
  · simp only [serverconnect_append]
    split <;> omega

theorem serverconnect_step_inv (bufsize : Nat) (hB : modsize + 1 ≤ bufsize) (st : SendState)
    (mod : Module) (h : SendInv bufsize st) : SendInv bufsize (serverconnect_step bufsize st mod) := by
  have hm := modbuf_of_length_le mod
  obtain ⟨h1, h2⟩ := serverconnect_flush_inv bufsize st (modbuf_of mod).length (by omega) h
  exact (serverconnect_append_exact bufsize _ _ h1 h2).2

theorem serverconnect_foldl_inv (bufsize : Nat) (hB : modsize + 1 ≤ bufsize) (mods : List Module)
    (st : SendState) (h : SendInv bufsize st) :
    SendInv bufsize (mods.foldl (serverconnect_step bufsize) st) := by
  induction mods generalizing st with
  | nil => exact h
  | cons m mods ih => exact ih _ (serverconnect_step_inv bufsize hB st m h)

theorem serverconnect_run_inv (bufsize : Nat) (hB : modsize + 1 ≤ bufsize) (mods : List Module) :
    SendInv bufsize (serverconnect_run bufsize mods) :=
  serverconnect_foldl_inv bufsize hB mods _ (sendInv_init bufsize (by omega))

/-- The loop sends the space-joined greedy groups of the `modbuf` contents. -/
theorem serverconnect_foldl_output (bufsize : Nat) (hB : modsize + 1 ≤ bufsize)
    (mods : List Module) (st : SendState) (cur : List CStr)
    (hinv : SendInv bufsize st) (hcur : st.sendbuf = joinSp cur) (hne : ∀ t ∈ cur, t ≠ []) :
    (mods.foldl (serverconnect_step bufsize) st).output
      = st.sent ++ (greedy_groups bufsize cur (mods.map modbuf_of)).map joinSp := by
  induction mods generalizing st cur with
  | nil =>
    simp only [List.foldl_nil, SendState.output, List.map_nil, greedy_groups]
    by_cases hc : cur = []
    · simp [hc, hcur, joinSp_nil]
    · have : joinSp cur ≠ [] := fun e => hc ((joinSp_eq_nil cur hne).1 e)
      simp [hc, hcur, this]
  | cons m mods ih =>
    have hm := modbuf_of_length_le m
    have hlen : st.len = (joinSp cur).length := by rw [← hcur]; exact hinv.1
    obtain ⟨h1, h2⟩ := serverconnect_flush_inv bufsize st (modbuf_of m).length (by omega) hinv
    obtain ⟨h3, h4⟩ := serverconnect_append_exact bufsize _ _ h1 h2
    simp only [List.foldl_cons, List.map_cons, greedy_groups]
    by_cases hf : st.len + (modbuf_of m).length + 2 > bufsize
    · have hfl : serverconnect_flush bufsize st (modbuf_of m).length
          = { sendbuf := [], len := 0, count := 0, sent := st.sent ++ [st.sendbuf] } := by
        simp [serverconnect_flush, hf]
      rw [ih (serverconnect_step bufsize st m) [modbuf_of m] h4]
      · have hs : (serverconnect_step bufsize st m).sent = st.sent ++ [st.sendbuf] := by
          simp only [serverconnect_step, serverconnect_append, hfl]
        rw [hs, if_pos (by rw [← hlen]; exact hf), hcur]
        simp
      · show (serverconnect_append bufsize _ _).sendbuf = _
        rw [h3, hfl]
        simp [append_text, joinSp_singleton]
      · intro t ht
        simp only [List.mem_singleton] at ht
        subst ht
        exact modbuf_of_ne_nil m
    · have hfl : serverconnect_flush bufsize st (modbuf_of m).length = st := by
        simp [serverconnect_flush, hf]
      rw [ih (serverconnect_step bufsize st m) (cur ++ [modbuf_of m]) h4]
      · have hs : (serverconnect_step bufsize st m).sent = st.sent := by
          simp only [serverconnect_step, serverconnect_append, hfl]
        rw [hs, if_neg (by rw [← hlen]; exact hf)]
      · show (serverconnect_append bufsize _ _).sendbuf = _
        rw [h3, hfl]
        by_cases hc : cur = []
        · have h0 : st.len = 0 := by rw [hlen, hc]; rfl
          simp [hc, hcur, h0, append_text, joinSp_singleton, joinSp_nil]
        · have hj : joinSp cur ≠ [] := fun e => hc ((joinSp_eq_nil cur hne).1 e)
          have hp : st.len > 0 := by
            rw [hlen]; exact List.length_pos.2 hj
          rw [joinSp_snoc _ _ hc, hcur]
          simp [append_text, hp]
      · intro t ht
        rcases List.mem_append.1 ht with h | h
        · exact hne t h
        · simp only [List.mem_singleton] at h
          subst h
          exact modbuf_of_ne_nil m

/-- What the hook sends to a directly connected peer. -/
theorem reqmods_hook_serverconnect_eq (BUFSIZE HOSTLEN : Nat) (sptr : Client)
    (Modules : List Module) (hc : sptr.MyConnect = true)
    (hB : modsize + 1 ≤ sendbufSize BUFSIZE HOSTLEN) :
    reqmods_hook_serverconnect BUFSIZE HOSTLEN sptr Modules
      = (greedy_groups (sendbufSize BUFSIZE HOSTLEN) [] (Modules.map modbuf_of)).map joinSp := by
  have h := serverconnect_foldl_output (sendbufSize BUFSIZE HOSTLEN) hB Modules SendState.init []
    (sendInv_init _ (by omega)) rfl (by simp)
  simp only [SendState.init, List.nil_append] at h
  rw [← h]
  simp [reqmods_hook_serverconnect, hc, SendState.output, serverconnect_run, SendState.init]

/-! ## Lemmas: the greedy grouping -/

theorem joinSp_snoc_length (cur : List CStr) (t : CStr) (hne : ∀ u ∈ cur, u ≠ []) :
    (joinSp (cur ++ [t])).length
      = (if (joinSp cur).length ≠ 0 then (joinSp cur).length + 1 else (joinSp cur).length)
        + t.length := by
  by_cases hc : cur = []
  · simp [hc, joinSp_nil, joinSp_singleton]
  · have hj : joinSp cur ≠ [] := fun e => hc ((joinSp_eq_nil cur hne).1 e)
    have hp : (joinSp cur).length ≠ 0 := fun e => hj (List.length_eq_zero.1 e)
    rw [joinSp_snoc _ _ hc, if_pos hp]
    simp only [List.length_append, List.length_cons]
    omega

theorem greedy_groups_flatten (bufsize : Nat) (toks cur : List CStr) :
    (greedy_groups bufsize cur toks).flatten = cur ++ toks := by
  induction toks generalizing cur with
  | nil =>
    simp only [greedy_groups]
    by_cases hc : cur = []
    · simp [hc]
    · simp [hc]
  | cons t ts ih =>
    simp only [greedy_groups]
    split
    · simp [ih]
    · rw [ih]; simp

theorem greedy_groups_fit (bufsize : Nat) (toks cur : List CStr)
    (hcur : (joinSp cur).length + 1 ≤ bufsize) (hne : ∀ u ∈ cur, u ≠ [])
    (htne : ∀ t ∈ toks, t ≠ []) (ht : ∀ t ∈ toks, t.length + 2 ≤ bufsize) :
    ∀ g ∈ greedy_groups bufsize cur toks, (joinSp g).length + 1 ≤ bufsize := by
  induction toks generalizing cur with
  | nil =>
    intro g hg
    simp only [greedy_groups] at hg
    split at hg
    · simp at hg
    · simp only [List.mem_singleton] at hg; subst hg; exact hcur
  | cons t ts ih =>
    intro g hg
    have ht1 := ht t (by simp)
    have hts : ∀ u ∈ ts, u.length + 2 ≤ bufsize := fun u hu => ht u (List.mem_cons_of_mem _ hu)
    have htsne : ∀ u ∈ ts, u ≠ [] := fun u hu => htne u (List.mem_cons_of_mem _ hu)
    simp only [greedy_groups] at hg
    split at hg
    · rcases List.mem_cons.1 hg with h | h
      · subst h; exact hcur
      · refine ih [t] ?_ ?_ htsne hts g h
        · rw [joinSp_singleton]; omega
        · intro u hu
          simp only [List.mem_singleton] at hu
          subst hu
          exact htne _ (by simp)
    · rename_i hnf
      refine ih (cur ++ [t]) ?_ ?_ htsne hts g hg
      · rw [joinSp_snoc_length _ _ hne]
        split <;> omega
      · intro u hu
        rcases List.mem_append.1 hu with h | h
        · exact hne u h
        · simp only [List.mem_singleton] at h
          subst h
          exact htne _ (by simp)

theorem greedy_groups_ne_nil (bufsize : Nat) (toks cur : List CStr)
    (ht : ∀ t ∈ toks, t.length + 2 ≤ bufsize) :
    ∀ g ∈ greedy_groups bufsize cur toks, g ≠ [] := by
  induction toks generalizing cur with
  | nil =>
    intro g hg
    simp only [greedy_groups] at hg
    split at hg
    · simp at hg
    · simp only [List.mem_singleton] at hg; subst hg; assumption
  | cons t ts ih =>
    intro g hg
    have ht1 := ht t (by simp)
    have hts : ∀ u ∈ ts, u.length + 2 ≤ bufsize := fun u hu => ht u (List.mem_cons_of_mem _ hu)
    simp only [greedy_groups] at hg
    split at hg
    · rename_i hf
      rcases List.mem_cons.1 hg with h | h
      · subst h
        intro hc
        rw [hc, joinSp_nil] at hf
        simp only [List.length_nil] at hf
        omega
      · exact ih [t] hts g h
    · exact ih (cur ++ [t]) hts g hg

theorem greedy_groups_length (bufsize : Nat) (toks cur : List CStr)
    (hne : ∀ u ∈ cur, u ≠ []) (htne : ∀ t ∈ toks, t ≠ []) :
    (greedy_groups bufsize cur toks).length
      = msg_count bufsize (joinSp cur).length (toks.map List.length) := by
  induction toks generalizing cur with
  | nil =>
    simp only [greedy_groups, List.map_nil, msg_count]
    by_cases hc : cur = []
    · simp [hc, joinSp_nil]
    · have hj : joinSp cur ≠ [] := fun e => hc ((joinSp_eq_nil cur hne).1 e)
      have hp : (joinSp cur).length ≠ 0 := fun e => hj (List.length_eq_zero.1 e)
      simp [hc, hp]
  | cons t ts ih =>
    have htsne : ∀ u ∈ ts, u ≠ [] := fun u hu => htne u (List.mem_cons_of_mem _ hu)
    have ht1 : ∀ u ∈ [t], u ≠ [] := by
      intro u hu
      simp only [List.mem_singleton] at hu
      subst hu
      exact htne _ (by simp)
    simp only [greedy_groups, List.map_cons, msg_count]
    split
    · rw [List.length_cons, ih [t] ht1 htsne, joinSp_singleton]; omega
    · rw [ih (cur ++ [t]) _ htsne, joinSp_snoc_length _ _ hne]
      intro u hu
      rcases List.mem_append.1 hu with h | h
      · exact hne u h
      · exact ht1 u h

/-! ## Lemmas: the greedy count is minimal -/

theorem msg_count_mono_and_step (bufsize : Nat) (ms : List Nat) :
    (∀ x y, x ≤ y → msg_count bufsize x ms ≤ msg_count bufsize y ms) ∧
      (∀ x y, msg_count bufsize x ms ≤ 1 + msg_count bufsize y ms) := by
  induction ms with
  | nil =>
    refine ⟨?_, ?_⟩
    · intro x y hxy
      simp only [msg_count]
      split <;> split <;> omega
    · intro x y
      simp only [msg_count]
      split <;> split <;> omega
  | cons m ms ih =>
    obtain ⟨ihm, ihs⟩ := ih
    refine ⟨?_, ?_⟩
    · intro x y hxy
      simp only [msg_count]
      by_cases hx : x + m + 2 > bufsize
      · have hy : y + m + 2 > bufsize := by omega
        rw [if_pos hx, if_pos hy]
      · rw [if_neg hx]
        by_cases hy : y + m + 2 > bufsize
        · rw [if_pos hy]
          exact ihs _ _
        · rw [if_neg hy]
          apply ihm
          split <;> split <;> omega
    · intro x y
      simp only [msg_count]
      have hmy : msg_count bufsize m ms
          ≤ msg_count bufsize ((if y ≠ 0 then y + 1 else y) + m) ms := by
        apply ihm
        split <;> omega
      have h1 := ihs ((if x ≠ 0 then x + 1 else x) + m) m
      have h2 := ihs ((if x ≠ 0 then x + 1 else x) + m) ((if y ≠ 0 then y + 1 else y) + m)
      by_cases hx : x + m + 2 > bufsize
      · rw [if_pos hx]
        by_cases hy : y + m + 2 > bufsize
        · rw [if_pos hy]; omega
        · rw [if_neg hy]; omega
      · rw [if_neg hx]
        by_cases hy : y + m + 2 > bufsize
        · rw [if_pos hy]; omega
        · rw [if_neg hy]; omega

theorem ext_len_ge (g : List Nat) (len : Nat) : len ≤ ext_len len g := by
  induction g generalizing len with
  | nil => simp [ext_len]
  | cons m g ih =>
    have := ih ((if len ≠ 0 then len + 1 else len) + m)
    have hle : len ≤ (if len ≠ 0 then len + 1 else len) + m := by
      split <;> omega
    simp only [ext_len, List.foldl_cons] at this ⊢
    exact Nat.le_trans hle this

/-- Greedy stays ahead: with the first group `g` of a fitting split appended to a
buffer of `len` bytes, the loop sends at most one message more than the
split has further groups. -/
theorem msg_count_le_split (bufsize : Nat) (gs : List (List Nat)) :
    ∀ (g : List Nat) (len : Nat), (∀ m ∈ g, m + 2 ≤ bufsize) →
      (∀ h ∈ gs, ∀ m ∈ h, m + 2 ≤ bufsize) → ext_len len g + 1 ≤ bufsize →
      (∀ h ∈ gs, ext_len 0 h + 1 ≤ bufsize) →
      msg_count bufsize len (g ++ gs.flatten) ≤ 1 + gs.length := by
  induction gs with
  | nil =>
    intro g
    induction g with
    | nil =>
      intro len _ _ _ _
      simp only [List.flatten_nil, List.append_nil, msg_count, List.length_nil]
      split <;> omega
    | cons m g ihg =>
      intro len hm hgs hfit hfits
      have hm1 := hm m (by simp)
      have hge := ext_len_ge g ((if len ≠ 0 then len + 1 else len) + m)
      have hfit2 : ext_len ((if len ≠ 0 then len + 1 else len) + m) g + 1 ≤ bufsize := hfit
      have hnf : ¬ (len + m + 2 > bufsize) := by
        by_cases hl : len = 0
        · subst hl; omega
        · have key : (if len ≠ 0 then len + 1 else len) + m = len + 1 + m := by
            rw [if_pos hl]
          rw [key] at hge hfit2
          omega
      simp only [List.cons_append, msg_count, if_neg hnf]
      exact ihg _ (fun x hx => hm x (List.mem_cons_of_mem _ hx)) hgs hfit2 hfits
  | cons h gs ih =>
    intro g
    induction g with
    | nil =>
      intro len _ hgs _ hfits
      have h1 := (msg_count_mono_and_step bufsize (h ++ gs.flatten)).2 len 0
      have h2 := ih h 0 (hgs h (by simp))
        (fun k hk => hgs k (List.mem_cons_of_mem _ hk)) (hfits h (by simp))
        (fun k hk => hfits k (List.mem_cons_of_mem _ hk))
      simp only [List.flatten_cons, List.nil_append, List.length_cons]
      omega
    | cons m g ihg =>
      intro len hm hgs hfit hfits
      have hm1 := hm m (by simp)
      have hge := ext_len_ge g ((if len ≠ 0 then len + 1 else len) + m)
      have hfit2 : ext_len ((if len ≠ 0 then len + 1 else len) + m) g + 1 ≤ bufsize := hfit
      have hnf : ¬ (len + m + 2 > bufsize) := by
        by_cases hl : len = 0
        · subst hl; omega
        · have key : (if len ≠ 0 then len + 1 else len) + m = len + 1 + m := by
            rw [if_pos hl]
          rw [key] at hge hfit2
          omega
      simp only [List.cons_append, msg_count, if_neg hnf]
      exact ihg _ (fun x hx => hm x (List.mem_cons_of_mem _ hx)) hgs hfit2 hfits

theorem msg_count_le_groups (bufsize : Nat) (gs : List (List Nat))
    (hgs : ∀ h ∈ gs, ∀ m ∈ h, m + 2 ≤ bufsize) (hfits : ∀ h ∈ gs, ext_len 0 h + 1 ≤ bufsize) :
    msg_count bufsize 0 gs.flatten ≤ gs.length := by
  cases gs with
  | nil => simp [msg_count]
  | cons g gs =>
    have := msg_count_le_split bufsize gs g 0 (hgs g (by simp))
      (fun k hk => hgs k (List.mem_cons_of_mem _ hk)) (hfits g (by simp))
      (fun k hk => hfits k (List.mem_cons_of_mem _ hk))
    simp only [List.flatten_cons, List.length_cons]
    omega

theorem ext_len_joinSp (g cur : List CStr) (hne : ∀ u ∈ cur, u ≠ []) (hg : ∀ t ∈ g, t ≠ []) :
    ext_len (joinSp cur).length (g.map List.length) = (joinSp (cur ++ g)).length := by
  induction g generalizing cur with
  | nil => simp [ext_len]
  | cons t g ih =>
    have hcur : ∀ u ∈ cur ++ [t], u ≠ [] := by
      intro u hu
      rcases List.mem_append.1 hu with h | h
      · exact hne u h
      · simp only [List.mem_singleton] at h
        subst h
        exact hg _ (by simp)
    have := ih (cur ++ [t]) hcur (fun u hu => hg u (List.mem_cons_of_mem _ hu))
    rw [joinSp_snoc_length _ _ hne] at this
    simp only [List.append_assoc, List.singleton_append] at this
    simpa [ext_len] using this

theorem modbuf_of_tokens_bound (bufsize : Nat) (hB : modsize + 1 ≤ bufsize)
    (Modules : List Module) :
    (∀ t ∈ Modules.map modbuf_of, t ≠ []) ∧
      (∀ t ∈ Modules.map modbuf_of, t.length + 2 ≤ bufsize) := by
  refine ⟨?_, ?_⟩
  · intro t ht
    obtain ⟨m, _, rfl⟩ := List.mem_map.1 ht
    exact modbuf_of_ne_nil m
  · intro t ht
    obtain ⟨m, _, rfl⟩ := List.mem_map.1 ht
    have := modbuf_of_length_le m
    omega

theorem modtext_no_space (mod : Module) (hn : ' ' ∉ mod.name) (hv : ' ' ∉ mod.version) :
    ' ' ∉ modtext mod := by
  unfold modtext modflag
  intro h
  rcases List.mem_cons.1 h with h | h
  · split at h <;> exact absurd h (by decide)
  · rcases List.mem_append.1 h with h | h
    · exact hn h
    · rcases List.mem_cons.1 h with h | h
      · exact absurd h (by decide)
      · exact hv h

theorem modbuf_of_no_space (mod : Module) (hn : ' ' ∉ mod.name) (hv : ' ' ∉ mod.version) :
    ' ' ∉ modbuf_of mod := by
  intro h
  exact modtext_no_space mod hn hv (List.mem_of_mem_take h)

/-- The tokens of the payloads sent, when no token holds a space. -/
theorem hook_tokens (BUFSIZE HOSTLEN : Nat) (sptr : Client) (Modules : List Module)
    (hc : sptr.MyConnect = true) (hB : modsize + 1 ≤ sendbufSize BUFSIZE HOSTLEN)
    (hsp : ∀ m ∈ Modules, ' ' ∉ m.name ∧ ' ' ∉ m.version) :
    (reqmods_hook_serverconnect BUFSIZE HOSTLEN sptr Modules).map strtoken_all
      = greedy_groups (sendbufSize BUFSIZE HOSTLEN) [] (Modules.map modbuf_of) := by
  rw [reqmods_hook_serverconnect_eq BUFSIZE HOSTLEN sptr Modules hc hB, List.map_map]
  have hfl := greedy_groups_flatten (sendbufSize BUFSIZE HOSTLEN) (Modules.map modbuf_of) []
  have key : ∀ g ∈ greedy_groups (sendbufSize BUFSIZE HOSTLEN) [] (Modules.map modbuf_of),
      (strtoken_all ∘ joinSp) g = id g := by
    intro g hg
    have hsub : ∀ t ∈ g, t ∈ Modules.map modbuf_of := by
      intro t ht
      have : t ∈ (greedy_groups (sendbufSize BUFSIZE HOSTLEN) [] (Modules.map modbuf_of)).flatten :=
        List.mem_flatten.2 ⟨g, hg, ht⟩
      rw [hfl] at this
      simpa using this
    apply strtoken_all_joinSp
    · intro t ht
      exact (modbuf_of_tokens_bound _ hB Modules).1 t (hsub t ht)
    · intro t ht
      obtain ⟨m, hm, rfl⟩ := List.mem_map.1 (hsub t ht)
      exact modbuf_of_no_space m (hsp m hm).1 (hsp m hm).2
  rw [List.map_congr_left key, List.map_id]

theorem hook_payload_bound (BUFSIZE HOSTLEN : Nat) (sptr : Client) (Modules : List Module)
    (hB : modsize + 1 ≤ sendbufSize BUFSIZE HOSTLEN) :
    ∀ msg ∈ reqmods_hook_serverconnect BUFSIZE HOSTLEN sptr Modules,
      msg.length + 1 ≤ sendbufSize BUFSIZE HOSTLEN := by
  intro msg hmsg
  by_cases hc : sptr.MyConnect = true
  · rw [reqmods_hook_serverconnect_eq BUFSIZE HOSTLEN sptr Modules hc hB] at hmsg
    obtain ⟨g, hg, rfl⟩ := List.mem_map.1 hmsg
    have hb := modbuf_of_tokens_bound _ hB Modules
    refine greedy_groups_fit _ _ [] ?_ (by simp) hb.1 hb.2 g hg
    rw [joinSp_nil]
    simp only [List.length_nil]
    omega
  · have hf : sptr.MyConnect = false := by simpa using hc
    simp [reqmods_hook_serverconnect, hf] at hmsg

/-! ## Lemmas: parsing a token back -/

theorem split_colon_append (name version : CStr) (hn : ':' ∉ name) :
    split_colon (name ++ ':' :: version) = (name, some version) := by
  induction name with
  | nil => simp [split_colon]
  | cons c cs ih =>
    have hc : c ≠ ':' := fun e => hn (by simp [e])
    have hcs : ':' ∉ cs := fun e => hn (List.mem_cons_of_mem _ e)
    simp [split_colon, hc, ih hcs]

theorem split_colon_no_colon (name : CStr) (hn : ':' ∉ name) :
    split_colon name = (name, none) := by
  induction name with
  | nil => simp [split_colon]
  | cons c cs ih =>
    have hc : c ≠ ':' := fun e => hn (by simp [e])
    have hcs : ':' ∉ cs := fun e => hn (List.mem_cons_of_mem _ e)
    simp [split_colon, hc, ih hcs]

theorem parse_token_modbuf_of (mod : Module) (hn : ':' ∉ mod.name)
    (hlen : (modtext mod).length + 1 ≤ modsize) :
    parse_token (modbuf_of mod) = (modflag mod, mod.name, some mod.version) := by
  have h1 : modbuf_of mod = modtext mod := ircsnprintf_fits _ _ hlen
  have h2 : strlcpy namesize (mod.name ++ ':' :: mod.version) = mod.name ++ ':' :: mod.version := by
    unfold strlcpy
    apply List.take_of_length_le
    simp only [modtext, modsize, List.length_cons] at hlen
    simp only [namesize]
    omega
  rw [h1]
  simp only [modtext, parse_token, h2, split_colon_append _ _ hn]

theorem reqmods_tokens_fits (BUFSIZE : Nat) (msg : CStr) (h : msg.length + 1 ≤ BUFSIZE) :
    reqmods_tokens BUFSIZE msg = strtoken_all msg := by
  unfold reqmods_tokens strlcpy
  rw [List.take_of_length_le (by omega)]

/-- Parsing what the hook sends gives, token by token, the parse of the `modbuf`
contents, when no name or version holds a space. -/
theorem hook_parse (BUFSIZE HOSTLEN : Nat) (sptr : Client) (Modules : List Module)
    (hc : sptr.MyConnect = true) (hB : modsize + 1 ≤ sendbufSize BUFSIZE HOSTLEN)
    (hsp : ∀ m ∈ Modules, ' ' ∉ m.name ∧ ' ' ∉ m.version) :
    (reqmods_hook_serverconnect BUFSIZE HOSTLEN sptr Modules).flatMap (parse_message BUFSIZE)
      = Modules.map (fun m => parse_token (modbuf_of m)) := by
  have hb := hook_payload_bound BUFSIZE HOSTLEN sptr Modules hB
  have hle : sendbufSize BUFSIZE HOSTLEN ≤ BUFSIZE := by
    unfold sendbufSize; omega
  have h1 : (reqmods_hook_serverconnect BUFSIZE HOSTLEN sptr Modules).flatMap
        (parse_message BUFSIZE)
      = ((reqmods_hook_serverconnect BUFSIZE HOSTLEN sptr Modules).map strtoken_all).flatten.map
        parse_token := by
    rw [List.map_flatten, List.map_map, List.flatMap_def]
    congr 1
    apply List.map_congr_left
    intro msg hmsg
    have := hb msg hmsg
    simp only [parse_message, Function.comp]
    rw [reqmods_tokens_fits BUFSIZE msg (by omega)]
  rw [h1, hook_tokens BUFSIZE HOSTLEN sptr Modules hc hB hsp, greedy_groups_flatten]
  simp [List.map_map, Function.comp]

/-- Round trip for a well-formed catalog. -/
theorem hook_roundtrip (BUFSIZE HOSTLEN : Nat) (sptr : Client) (Modules : List Module)
    (hc : sptr.MyConnect = true) (hB : modsize + 1 ≤ sendbufSize BUFSIZE HOSTLEN)
    (hname : ∀ m ∈ Modules, ' ' ∉ m.name ∧ ':' ∉ m.name)
    (hver : ∀ m ∈ Modules, ' ' ∉ m.version)
    (hlen : ∀ m ∈ Modules, 1 + m.name.length + 1 + m.version.length ≤ 63) :
    (reqmods_hook_serverconnect BUFSIZE HOSTLEN sptr Modules).flatMap (parse_message BUFSIZE)
      = Modules.map (fun m => (modflag m, m.name, some m.version)) := by
  rw [hook_parse BUFSIZE HOSTLEN sptr Modules hc hB (fun m hm => ⟨(hname m hm).1, hver m hm⟩)]
  apply List.map_congr_left
  intro m hm
  apply parse_token_modbuf_of m (hname m hm).2
  have := hlen m hm
  simp only [modtext, modsize, List.length_cons, List.length_append]
  omega

/-! ## Lemmas: lookups and the token loop of the reconciler -/

theorem find_denymod_byname_some (DenyModList : List DenyMod) (name : CStr) (dmod : DenyMod)
    (h : find_denymod_byname DenyModList name = some dmod) :
    dmod ∈ DenyModList ∧ strcasecmp dmod.name name = 0 := by
  induction DenyModList with
  | nil => simp [find_denymod_byname] at h
  | cons d rest ih =>
    simp only [find_denymod_byname] at h
    split at h
    · rename_i hd
      simp only [Option.some.injEq] at h
      subst h
      exact ⟨by simp, hd⟩
    · obtain ⟨h1, h2⟩ := ih h
      exact ⟨List.mem_cons_of_mem _ h1, h2⟩

theorem find_denymod_byname_eq_none_iff (DenyModList : List DenyMod) (name : CStr) :
    find_denymod_byname DenyModList name = none ↔
      ∀ d ∈ DenyModList, strcasecmp d.name name ≠ 0 := by
  induction DenyModList with
  | nil => simp [find_denymod_byname]
  | cons d rest ih =>
    simp only [find_denymod_byname]
    by_cases hd : strcasecmp d.name name = 0
    · simp [hd]
    · simp [hd, ih]

theorem find_denymod_byname_of_match (DenyModList : List DenyMod) (name : CStr)
    (h : ∃ d ∈ DenyModList, strcasecmp d.name name = 0) :
    ∃ dmod, find_denymod_byname DenyModList name = some dmod := by
  cases hf : find_denymod_byname DenyModList name with
  | some dmod => exact ⟨dmod, rfl⟩
  | none =>
    obtain ⟨d, hd, hz⟩ := h
    exact absurd hz ((find_denymod_byname_eq_none_iff DenyModList name).1 hf d hd)

theorem require_modules_loop_continue (cfg : cfgstruct) (DenyModList : List DenyMod)
    (Modules : List Module) (me : CStr) (sptr : Client) (modbuf : CStr) (rest : List CStr)
    (evs : List Event)
    (h : require_modules_entry cfg DenyModList Modules me sptr modbuf = (evs, false)) :
    require_modules_loop cfg DenyModList Modules me sptr (modbuf :: rest)
      = (evs ++ (require_modules_loop cfg DenyModList Modules me sptr rest).1,
         (require_modules_loop cfg DenyModList Modules me sptr rest).2) := by
  simp [require_modules_loop, h]

theorem require_modules_loop_exit (cfg : cfgstruct) (DenyModList : List DenyMod)
    (Modules : List Module) (me : CStr) (sptr : Client) (modbuf : CStr) (rest : List CStr)
    (evs : List Event)
    (h : require_modules_entry cfg DenyModList Modules me sptr modbuf = (evs, true)) :
    require_modules_loop cfg DenyModList Modules me sptr (modbuf :: rest)
      = (evs, RetVal.ofExitClient) := by
  simp [require_modules_loop, h]

theorem require_modules_entry_eq (cfg : cfgstruct) (DenyModList : List DenyMod)
    (Modules : List Module) (me : CStr) (sptr : Client) (modbuf : CStr)
    (flag : Char) (name : CStr) (version : Option CStr)
    (hp : parse_token modbuf = (flag, name, version)) :
    require_modules_entry cfg DenyModList Modules me sptr modbuf
      = require_modules_decide cfg DenyModList Modules me sptr flag name version := by
  simp [require_modules_entry, hp]

/-- Where the loop stops: the calls made are those of the entries up to and
including the first one that returns. -/
theorem require_modules_loop_upto (cfg : cfgstruct) (DenyModList : List DenyMod)
    (Modules : List Module) (me : CStr) (sptr : Client) (pre : List CStr) (t : CStr)
    (post : List CStr)
    (hpre : ∀ u ∈ pre, (require_modules_entry cfg DenyModList Modules me sptr u).2 = false)
    (ht : (require_modules_entry cfg DenyModList Modules me sptr t).2 = true) :
    require_modules_loop cfg DenyModList Modules me sptr (pre ++ t :: post)
      = ((pre ++ [t]).flatMap
          (fun u => (require_modules_entry cfg DenyModList Modules me sptr u).1),
         RetVal.ofExitClient) := by
  induction pre with
  | nil => simp [require_modules_loop, ht]
  | cons u pre ih =>
    have hu := hpre u (by simp)
    have := ih (fun v hv => hpre v (List.mem_cons_of_mem _ hv))
    simp [require_modules_loop, hu, this]

theorem require_modules_loop_all (cfg : cfgstruct) (DenyModList : List DenyMod)
    (Modules : List Module) (me : CStr) (sptr : Client) (toks : List CStr)
    (h : ∀ u ∈ toks, (require_modules_entry cfg DenyModList Modules me sptr u).2 = false) :
    require_modules_loop cfg DenyModList Modules me sptr toks
      = (toks.flatMap (fun u => (require_modules_entry cfg DenyModList Modules me sptr u).1),
         RetVal.zero) := by
  induction toks with
  | nil => simp [require_modules_loop]
  | cons u toks ih =>
    have hu := h u (by simp)
    have := ih (fun v hv => h v (List.mem_cons_of_mem _ hv))
    simp [require_modules_loop, hu, this]

/-- Entries that do not return are passed: the loop makes their calls and goes on
with what follows them. -/
theorem require_modules_loop_append (cfg : cfgstruct) (DenyModList : List DenyMod)
    (Modules : List Module) (me : CStr) (sptr : Client) (pre toks : List CStr)
    (hpre : ∀ u ∈ pre, (require_modules_entry cfg DenyModList Modules me sptr u).2 = false) :
    require_modules_loop cfg DenyModList Modules me sptr (pre ++ toks)
      = (pre.flatMap (fun u => (require_modules_entry cfg DenyModList Modules me sptr u).1) ++
          (require_modules_loop cfg DenyModList Modules me sptr toks).1,
         (require_modules_loop cfg DenyModList Modules me sptr toks).2) := by
  induction pre with
  | nil => simp
  | cons u pre ih =>
    have hu := hpre u (by simp)
    have := ih (fun v hv => hpre v (List.mem_cons_of_mem _ hv))
    simp [require_modules_loop, hu, this]

/-- For a message the sender guard accepts, `require_modules` is the token loop over
the tokens of the parameter. -/
theorem require_modules_accepted (BUFSIZE : Nat) (cfg : cfgstruct) (DenyModList : List DenyMod)
    (Modules : List Module) (me : CStr) (sptr : Client) (p : CStr)
    (hc : sptr.MyConnect = true) (hs : sptr.IsServer = true) (hne : p ≠ []) :
    require_modules BUFSIZE cfg DenyModList Modules me sptr (some p)
      = require_modules_loop cfg DenyModList Modules me sptr (reqmods_tokens BUFSIZE p) := by
  simp [require_modules, hc, hs, hne]

/-- The outcome of a received message in terms of one of its entries: the calls of
the entries before it, none of which returns, and then the loop from that
entry on. -/
theorem require_modules_at_entry (BUFSIZE : Nat) (cfg : cfgstruct) (DenyModList : List DenyMod)
    (Modules : List Module) (me : CStr) (sptr : Client) (p : CStr) (pre : List CStr)
    (modbuf : CStr) (rest : List CStr)
    (hc : sptr.MyConnect = true) (hs : sptr.IsServer = true) (hne : p ≠ [])
    (htok : reqmods_tokens BUFSIZE p = pre ++ modbuf :: rest)
    (hpre : ∀ u ∈ pre, (require_modules_entry cfg DenyModList Modules me sptr u).2 = false) :
    require_modules BUFSIZE cfg DenyModList Modules me sptr (some p)
      = (pre.flatMap (fun u => (require_modules_entry cfg DenyModList Modules me sptr u).1) ++
          (require_modules_loop cfg DenyModList Modules me sptr (modbuf :: rest)).1,
         (require_modules_loop cfg DenyModList Modules me sptr (modbuf :: rest)).2) := by
  rw [require_modules_accepted BUFSIZE cfg DenyModList Modules me sptr p hc hs hne, htok,
    require_modules_loop_append cfg DenyModList Modules me sptr pre (modbuf :: rest) hpre]

/-- An entry returns from the function exactly when it calls `exit_client`. -/
theorem require_modules_decide_exit_iff (cfg : cfgstruct) (DenyModList : List DenyMod)
    (Modules : List Module) (me : CStr) (sptr : Client) (flag : Char) (name : CStr)
    (version : Option CStr) :
    (require_modules_decide cfg DenyModList Modules me sptr flag name version).2 = true ↔
      ∃ c, Event.exit_client sptr c ∈
        (require_modules_decide cfg DenyModList Modules me sptr flag name version).1 := by
  unfold require_modules_decide
  split
  · split <;> simp
  · split
    · split
      · split <;> simp
      · simp
    · split
      · split <;> simp
      · simp

/-! ## Lemmas: case-insensitive comparison and the colon split -/

theorem tolower_ne_nul (c : Char) (h : c.toNat ≠ 0) : (tolower c).toNat ≠ 0 := by
  unfold tolower
  split
  · rename_i hc
    obtain ⟨h1, h2⟩ := hc
    have h1' : 65 ≤ c.toNat := h1
    have h2' : c.toNat ≤ 90 := h2
    generalize c.toNat = n at *
    interval_cases n <;> decide
  · exact h

theorem char_toNat_diff_ne_zero (x y : Char) (h : x ≠ y) :
    ((x.toNat : Int) - (y.toNat : Int)) ≠ 0 := by
  intro e
  have h1 : x.toNat = y.toNat := by omega
  have h2 : Char.ofNat x.toNat = Char.ofNat y.toNat := by rw [h1]
  rw [Char.ofNat_toNat, Char.ofNat_toNat] at h2
  exact h h2

/-- For strings without NUL, `strcasecmp` returns 0 exactly when the two strings are
equal byte for byte after `tolower`. -/
theorem strcasecmp_eq_zero_iff (a b : CStr) (ha : ∀ c ∈ a, c.toNat ≠ 0)
    (hb : ∀ c ∈ b, c.toNat ≠ 0) :
    strcasecmp a b = 0 ↔ a.map tolower = b.map tolower := by
  induction a generalizing b with
  | nil =>
    cases b with
    | nil => simp [strcasecmp]
    | cons y ys =>
      have := tolower_ne_nul y (hb y (by simp))
      simp only [strcasecmp, List.map_nil, List.map_cons]
      constructor
      · intro e; omega
      · intro e; simp at e
  | cons x xs ih =>
    cases b with
    | nil =>
      have := tolower_ne_nul x (ha x (by simp))
      simp only [strcasecmp, List.map_nil, List.map_cons]
      constructor
      · intro e; omega
      · intro e; simp at e
    | cons y ys =>
      simp only [strcasecmp, List.map_cons, List.cons.injEq]
      by_cases hxy : tolower x = tolower y
      · simp only [hxy, if_true, true_and]
        exact ih ys (fun c hc => ha c (List.mem_cons_of_mem _ hc))
          (fun c hc => hb c (List.mem_cons_of_mem _ hc))
      · simp only [hxy, if_false, false_and, iff_false]
        exact char_toNat_diff_ne_zero _ _ hxy

/-- A string that continues after the whole of the other one differs from it. -/
theorem strcasecmp_longer_ne_zero (v s : CStr) (c : Char) (hc : c.toNat ≠ 0) :
    strcasecmp (v ++ c :: s) v ≠ 0 ∧ strcasecmp v (v ++ c :: s) ≠ 0 := by
  have := tolower_ne_nul c hc
  induction v with
  | nil =>
    simp only [List.nil_append, strcasecmp]
    constructor <;> omega
  | cons x xs ih => simpa [strcasecmp] using ih

theorem split_colon_fst (s : CStr) : (split_colon s).1 = s.takeWhile (fun c => c != ':') := by
  induction s with
  | nil => simp [split_colon]
  | cons c cs ih =>
    by_cases hc : c = ':'
    · simp [split_colon, hc]
    · simp [split_colon, hc, ih, List.takeWhile_cons]

theorem split_colon_snd (s : CStr) :
    (split_colon s).2
      = if ':' ∈ s then some ((s.dropWhile (fun c => c != ':')).tail) else none := by
  induction s with
  | nil => simp [split_colon]
  | cons c cs ih =>
    by_cases hc : c = ':'
    · simp [split_colon, hc, List.dropWhile_cons]
    · have hc' : ¬ (':' = c) := fun e => hc e.symm
      simp [split_colon, hc, hc', ih, List.dropWhile_cons]

/-! ## Lemmas: cut tokens and strict lookups -/

theorem joinSp_map_take_length_le (n : Nat) (g : List CStr) :
    (joinSp (g.map (List.take n))).length ≤ (joinSp g).length := by
  induction g with
  | nil => simp [joinSp_nil]
  | cons t g ih =>
    cases g with
    | nil =>
      simp only [List.map_cons, List.map_nil, joinSp_singleton, List.length_take]
      omega
    | cons u g =>
      simp only [List.map_cons] at ih ⊢
      rw [joinSp_cons_cons, joinSp_cons_cons]
      simp only [List.length_append, List.length_cons, List.length_take]
      omega

theorem map_modbuf_of_eq (Modules : List Module) :
    Modules.map modbuf_of = (Modules.map modtext).map (List.take 63) := by
  rw [List.map_map]
  rfl

theorem find_modptr_byname_some (Modules : List Module) (name : CStr) (strict : Nat)
    (mod : Module) (h : find_modptr_byname Modules name strict = some mod) :
    mod ∈ Modules ∧ strcasecmp mod.name name = 0 ∧ (strict ≠ 0 → mod.loaded = true) := by
  induction Modules with
  | nil => simp [find_modptr_byname] at h
  | cons m rest ih =>
    simp only [find_modptr_byname] at h
    split at h
    · rename_i hm
      split at h
      · simp at h
      · rename_i hl
        simp only [Option.some.injEq] at h
        subst h
        refine ⟨by simp, hm, ?_⟩
        intro hs
        cases hld : m.loaded with
        | true => rfl
        | false => exact absurd ⟨hs, hld⟩ hl
    · obtain ⟨h1, h2⟩ := ih h
      exact ⟨List.mem_cons_of_mem _ h1, h2⟩

/-- The strict lookup finds nothing in a catalog that holds no fully loaded module
of the name. -/
theorem find_modptr_byname_strict_none (Modules : List Module) (name : CStr)
    (h : ∀ m ∈ Modules, strcasecmp m.name name = 0 → m.loaded = false) :
    find_modptr_byname Modules name 1 = none := by
  induction Modules with
  | nil => simp [find_modptr_byname]
  | cons m rest ih =>
    simp only [find_modptr_byname]
    split
    · rename_i hm
      simp [h m (by simp) hm]
    · exact ih (fun k hk => h k (List.mem_cons_of_mem _ hk))

/-! ## Claims on the Inventory Broadcaster -/

/-- C1, as stated, fails: a catalog entry whose token is longer than the 63 bytes
of `modbuf` is cut on sending (here the version and the colon are lost), a
name holding a space is read back as two entries, and a name holding a
colon is read back split at that colon. -/
theorem C1_roundtrip_fails :
    (reqmods_hook_serverconnect 512 63 ex_peer [ex_longname]).flatMap (parse_message 512)
        ≠ [ex_longname].map (fun m => (modflag m, m.name, some m.version)) ∧
      ((reqmods_hook_serverconnect 512 63 ex_peer [ex_spacename]).flatMap
        (parse_message 512)).length ≠ [ex_spacename].length ∧
      (reqmods_hook_serverconnect 512 63 ex_peer [ex_colonname]).flatMap (parse_message 512)
        ≠ [ex_colonname].map (fun m => (modflag m, m.name, some m.version)) := by
  decide

/-- C1, amended: for a directly connected peer and a catalog of N entries in which
no name holds a space or a colon, no version holds a space and every token
`flag name : version` is at most 63 bytes long, parsing the messages sent by
`reqmods_hook_serverconnect` the way `require_modules` does yields exactly N
entries, whose flag ('G' for Global, 'L' for Local), name and version are
those of the catalog entries, in the catalog's order. -/
theorem C1_roundtrip_wellformed (BUFSIZE HOSTLEN : Nat) (sptr : Client)
    (Modules : List Module) (hc : sptr.MyConnect = true)
    (hB : modsize + 1 ≤ sendbufSize BUFSIZE HOSTLEN)
    (hname : ∀ m ∈ Modules, ' ' ∉ m.name ∧ ':' ∉ m.name)
    (hver : ∀ m ∈ Modules, ' ' ∉ m.version)
    (hlen : ∀ m ∈ Modules, 1 + m.name.length + 1 + m.version.length ≤ 63) :
    ((reqmods_hook_serverconnect BUFSIZE HOSTLEN sptr Modules).flatMap
        (parse_message BUFSIZE)).length = Modules.length ∧
      (reqmods_hook_serverconnect BUFSIZE HOSTLEN sptr Modules).flatMap (parse_message BUFSIZE)
        = Modules.map (fun m => ((if m.global then 'G' else 'L'), m.name, some m.version)) := by
  have h := hook_roundtrip BUFSIZE HOSTLEN sptr Modules hc hB hname hver hlen
  refine ⟨?_, ?_⟩
  · rw [h, List.length_map]
  · rw [h]; rfl

/-- C1, amended, at a two-module catalog with `BUFSIZE = 512`, `HOSTLEN = 63`. -/
theorem C1_roundtrip_wellformed_witness :
    (ex_peer.MyConnect = true ∧ modsize + 1 ≤ sendbufSize 512 63) ∧
      ((reqmods_hook_serverconnect 512 63 ex_peer [ex_chanfilter, ex_bar]).flatMap
          (parse_message 512)).length = [ex_chanfilter, ex_bar].length ∧
      (reqmods_hook_serverconnect 512 63 ex_peer [ex_chanfilter, ex_bar]).flatMap
          (parse_message 512)
        = [ex_chanfilter, ex_bar].map
            (fun m => ((if m.global then 'G' else 'L'), m.name, some m.version)) :=
  ⟨by decide, C1_roundtrip_wellformed 512 63 ex_peer [ex_chanfilter, ex_bar] (by decide)
    (by decide) (by decide) (by decide) (by decide)⟩

/-- C2, as stated, fails: the token of a catalog entry longer than 63 bytes is
sent cut to 63 bytes, and a name holding a space makes two space-separated
tokens of one entry. -/
theorem C2_tokens_differ :
    (reqmods_hook_serverconnect 512 63 ex_peer [ex_longname]).flatMap strtoken_all
        ≠ [ex_longname].map modtext ∧
      (reqmods_hook_serverconnect 512 63 ex_peer [ex_spacename]).flatMap strtoken_all
        ≠ [ex_spacename].map modtext := by
  decide

/-- C2, amended: for a directly connected peer and a catalog in which no name and
no version holds a space, the space-separated tokens of all messages sent by
`reqmods_hook_serverconnect`, concatenated in emission order, are exactly the
per-entry tokens `flag name : version` of the catalog, each cut to its first
63 bytes, in catalog order; so they are the per-entry tokens themselves when
none is longer than 63 bytes. -/
theorem C2_tokens_in_order (BUFSIZE HOSTLEN : Nat) (sptr : Client)
    (Modules : List Module) (hc : sptr.MyConnect = true)
    (hB : modsize + 1 ≤ sendbufSize BUFSIZE HOSTLEN)
    (hsp : ∀ m ∈ Modules, ' ' ∉ m.name ∧ ' ' ∉ m.version) :
    (reqmods_hook_serverconnect BUFSIZE HOSTLEN sptr Modules).flatMap strtoken_all
        = Modules.map (fun m => (modtext m).take 63) ∧
      ((∀ m ∈ Modules, (modtext m).length ≤ 63) →
        (reqmods_hook_serverconnect BUFSIZE HOSTLEN sptr Modules).flatMap strtoken_all
          = Modules.map modtext) := by
  have h : (reqmods_hook_serverconnect BUFSIZE HOSTLEN sptr Modules).flatMap strtoken_all
      = Modules.map (fun m => (modtext m).take 63) := by
    rw [List.flatMap_def, hook_tokens BUFSIZE HOSTLEN sptr Modules hc hB hsp,
      greedy_groups_flatten]
    rfl
  refine ⟨h, ?_⟩
  intro hlen
  rw [h]
  apply List.map_congr_left
  intro m hm
  exact List.take_of_length_le (hlen m hm)

/-- C2, amended, at a catalog with one entry longer than 63 bytes. -/
theorem C2_tokens_in_order_witness :
    (ex_peer.MyConnect = true ∧ modsize + 1 ≤ sendbufSize 512 63 ∧
        ∀ m ∈ [ex_chanfilter, ex_longname, ex_bar], ' ' ∉ m.name ∧ ' ' ∉ m.version) ∧
      ((reqmods_hook_serverconnect 512 63 ex_peer
            [ex_chanfilter, ex_longname, ex_bar]).flatMap strtoken_all
          = [ex_chanfilter, ex_longname, ex_bar].map (fun m => (modtext m).take 63) ∧
        ((∀ m ∈ [ex_chanfilter, ex_longname, ex_bar], (modtext m).length ≤ 63) →
          (reqmods_hook_serverconnect 512 63 ex_peer
              [ex_chanfilter, ex_longname, ex_bar]).flatMap strtoken_all
            = [ex_chanfilter, ex_longname, ex_bar].map modtext)) :=
  ⟨by decide, C2_tokens_in_order 512 63 ex_peer [ex_chanfilter, ex_longname, ex_bar]
    (by decide) (by decide) (by decide)⟩

/-- C3: no message sent by `reqmods_hook_serverconnect` exceeds the bound. With
`sendbuf` of `BUFSIZE - HOSTLEN - 4` bytes, large enough for one `modbuf` and a
separator (65 bytes), every payload is at most `sizeof(sendbuf) - 1` bytes
long; after any number of iterations `len` is the length of the string in
`sendbuf` and `len + 1 <= bufsize`; and in every iteration the bounded write
into `sendbuf` keeps the whole text it is given. -/
theorem C3_no_message_exceeds_bound (BUFSIZE HOSTLEN : Nat) (sptr : Client)
    (Modules : List Module) (hB : modsize + 1 ≤ sendbufSize BUFSIZE HOSTLEN) :
    (∀ msg ∈ reqmods_hook_serverconnect BUFSIZE HOSTLEN sptr Modules,
        msg.length ≤ sendbufSize BUFSIZE HOSTLEN - 1) ∧
      (∀ k : Nat,
        (serverconnect_run (sendbufSize BUFSIZE HOSTLEN) (Modules.take k)).len
            = (serverconnect_run (sendbufSize BUFSIZE HOSTLEN) (Modules.take k)).sendbuf.length ∧
          (serverconnect_run (sendbufSize BUFSIZE HOSTLEN) (Modules.take k)).len + 1
            ≤ sendbufSize BUFSIZE HOSTLEN) ∧
      (∀ (k : Nat) (mod : Module), Modules[k]? = some mod →
        ircsnprintf
            (sendbufSize BUFSIZE HOSTLEN -
              (serverconnect_flush (sendbufSize BUFSIZE HOSTLEN)
                (serverconnect_run (sendbufSize BUFSIZE HOSTLEN) (Modules.take k))
                (modbuf_of mod).length).len)
            (append_text
              (serverconnect_flush (sendbufSize BUFSIZE HOSTLEN)
                (serverconnect_run (sendbufSize BUFSIZE HOSTLEN) (Modules.take k))
                (modbuf_of mod).length).len
              (modbuf_of mod))
          = append_text
              (serverconnect_flush (sendbufSize BUFSIZE HOSTLEN)
                (serverconnect_run (sendbufSize BUFSIZE HOSTLEN) (Modules.take k))
                (modbuf_of mod).length).len
              (modbuf_of mod)) := by
  refine ⟨?_, ?_, ?_⟩
  · intro msg hmsg
    have := hook_payload_bound BUFSIZE HOSTLEN sptr Modules hB msg hmsg
    omega
  · intro k
    exact serverconnect_run_inv _ hB (Modules.take k)
  · intro k mod _
    have hinv := serverconnect_run_inv _ hB (Modules.take k)
    have hm := modbuf_of_length_le mod
    obtain ⟨h1, h2⟩ := serverconnect_flush_inv (sendbufSize BUFSIZE HOSTLEN) _
      (modbuf_of mod).length (by omega) hinv
    apply ircsnprintf_fits
    rw [append_text_length]
    split <;> omega

/-- C3 at `BUFSIZE = 512`, `HOSTLEN = 63` and a catalog of forty modules. -/
theorem C3_no_message_exceeds_bound_witness :
    modsize + 1 ≤ sendbufSize 512 63 ∧
      ∀ msg ∈ reqmods_hook_serverconnect 512 63 ex_peer (List.replicate 40 ex_chanfilter),
        msg.length ≤ sendbufSize 512 63 - 1 :=
  ⟨by decide, (C3_no_message_exceeds_bound 512 63 ex_peer (List.replicate 40 ex_chanfilter)
    (by decide)).1⟩

/-- C4: the number of messages sent by `reqmods_hook_serverconnect` to a directly
connected peer is the minimum over all splits of the catalog's token
sequence (the `modbuf` contents, in catalog order) into consecutive groups
whose space-joined length is at most `sizeof(sendbuf) - 1`: the messages
sent are the space-joined groups of such a split, every split of that kind
has at least as many groups, and no message sent is empty. Nor does a
split of the uncut token texts `flag name : version` into fewer groups fit
the bound; the two token sequences are the same when no text is longer than
63 bytes. -/
theorem C4_message_count_minimal (BUFSIZE HOSTLEN : Nat) (sptr : Client)
    (Modules : List Module) (hc : sptr.MyConnect = true)
    (hB : modsize + 1 ≤ sendbufSize BUFSIZE HOSTLEN) :
    (∃ gs : List (List CStr), gs.flatten = Modules.map modbuf_of ∧ (∀ g ∈ gs, g ≠ []) ∧
        (∀ g ∈ gs, (joinSp g).length ≤ sendbufSize BUFSIZE HOSTLEN - 1) ∧
        gs.map joinSp = reqmods_hook_serverconnect BUFSIZE HOSTLEN sptr Modules) ∧
      (∀ gs : List (List CStr), gs.flatten = Modules.map modbuf_of →
        (∀ g ∈ gs, (joinSp g).length ≤ sendbufSize BUFSIZE HOSTLEN - 1) →
        (reqmods_hook_serverconnect BUFSIZE HOSTLEN sptr Modules).length ≤ gs.length) ∧
      (∀ msg ∈ reqmods_hook_serverconnect BUFSIZE HOSTLEN sptr Modules, msg ≠ []) ∧
      (∀ gs : List (List CStr), gs.flatten = Modules.map modtext →
        (∀ g ∈ gs, (joinSp g).length ≤ sendbufSize BUFSIZE HOSTLEN - 1) →
        (reqmods_hook_serverconnect BUFSIZE HOSTLEN sptr Modules).length ≤ gs.length) ∧
      ((∀ m ∈ Modules, (modtext m).length ≤ 63) → Modules.map modbuf_of = Modules.map modtext) := by
  have heq := reqmods_hook_serverconnect_eq BUFSIZE HOSTLEN sptr Modules hc hB
  have hb := modbuf_of_tokens_bound _ hB Modules
  have hfit := greedy_groups_fit (sendbufSize BUFSIZE HOSTLEN) (Modules.map modbuf_of) []
    (by rw [joinSp_nil]; simp only [List.length_nil]; omega) (by simp) hb.1 hb.2
  have hnn := greedy_groups_ne_nil (sendbufSize BUFSIZE HOSTLEN) (Modules.map modbuf_of) [] hb.2
  have hfl := greedy_groups_flatten (sendbufSize BUFSIZE HOSTLEN) (Modules.map modbuf_of) []
  have hlow : ∀ gs : List (List CStr), gs.flatten = Modules.map modbuf_of →
      (∀ g ∈ gs, (joinSp g).length ≤ sendbufSize BUFSIZE HOSTLEN - 1) →
      (reqmods_hook_serverconnect BUFSIZE HOSTLEN sptr Modules).length ≤ gs.length := by
    intro gs hgs hfits
    have hmem : ∀ g ∈ gs, ∀ t ∈ g, t ∈ Modules.map modbuf_of := by
      intro g hg t ht
      rw [← hgs]
      exact List.mem_flatten.2 ⟨g, hg, ht⟩
    rw [heq, List.length_map, greedy_groups_length _ _ [] (by simp) hb.1, joinSp_nil, ← hgs,
      List.map_flatten]
    have := msg_count_le_groups (sendbufSize BUFSIZE HOSTLEN) (gs.map (List.map List.length))
      (by
        intro h hh m hm
        obtain ⟨g, hg, rfl⟩ := List.mem_map.1 hh
        obtain ⟨t, ht, rfl⟩ := List.mem_map.1 hm
        exact hb.2 t (hmem g hg t ht))
      (by
        intro h hh
        obtain ⟨g, hg, rfl⟩ := List.mem_map.1 hh
        have he := ext_len_joinSp g [] (by simp) (fun t ht => hb.1 t (hmem g hg t ht))
        rw [joinSp_nil] at he
        simp only [List.length_nil, List.nil_append] at he
        rw [he]
        have := hfits g hg
        omega)
    simpa using this
  refine ⟨⟨_, by simpa using hfl, hnn, ?_, heq.symm⟩, hlow, ?_, ?_, ?_⟩
  · intro g hg
    have := hfit g hg
    omega
  rotate_left
  · intro gs hgs hfits
    have := hlow (gs.map (List.map (List.take 63)))
      (by rw [← List.map_flatten, hgs, map_modbuf_of_eq])
      (by
        intro h hh
        obtain ⟨g, hg, rfl⟩ := List.mem_map.1 hh
        exact Nat.le_trans (joinSp_map_take_length_le 63 g) (hfits g hg))
    simpa using this
  · intro hlen
    apply List.map_congr_left
    intro m hm
    exact List.take_of_length_le (hlen m hm)
  · intro msg hmsg
    rw [heq] at hmsg
    obtain ⟨g, hg, rfl⟩ := List.mem_map.1 hmsg
    intro he
    have hgne : ∀ t ∈ g, t ≠ [] := by
      intro t ht
      apply hb.1 t
      have : t ∈ (greedy_groups (sendbufSize BUFSIZE HOSTLEN) [] (Modules.map modbuf_of)).flatten :=
        List.mem_flatten.2 ⟨g, hg, ht⟩
      rw [hfl] at this
      simpa using this
    exact hnn g hg ((joinSp_eq_nil g hgne).1 he)

/-- C4 at `BUFSIZE = 512`, `HOSTLEN = 63` and a catalog of forty modules: any
fitting split has at least as many groups as messages were sent. -/
theorem C4_message_count_minimal_witness :
    (ex_peer.MyConnect = true ∧ modsize + 1 ≤ sendbufSize 512 63) ∧
      ∀ gs : List (List CStr), gs.flatten = (List.replicate 40 ex_chanfilter).map modbuf_of →
        (∀ g ∈ gs, (joinSp g).length ≤ sendbufSize 512 63 - 1) →
        (reqmods_hook_serverconnect 512 63 ex_peer (List.replicate 40 ex_chanfilter)).length
          ≤ gs.length :=
  ⟨by decide, (C4_message_count_minimal 512 63 ex_peer (List.replicate 40 ex_chanfilter)
    (by decide) (by decide)).2.1⟩

/-! ## Claims on the Inventory Reconciler -/

/-- C5: a received entry whose name matches a deny rule case-insensitively,
whatever its flag, its version and the local catalog. The message comes from
a directly connected server, and no entry before this one makes
`require_modules` return. The lookup returns a matching rule of the list (the
first one); for the entry `require_modules` sends exactly one local-operator
notification carrying that rule's reason and looks at nothing else. With
`squit_on_deny` zero it goes on with the next entry: its calls for the message
are those of the entries before, this notification, and those of the entries
after. Otherwise it also sends one network-wide notification, calls
`exit_client` with the rule's reason and returns what that call returns. -/
theorem C5_deny_match (BUFSIZE : Nat) (cfg : cfgstruct) (DenyModList : List DenyMod)
    (Modules : List Module) (me : CStr) (sptr : Client) (p : CStr) (pre : List CStr)
    (modbuf : CStr) (rest : List CStr) (flag : Char) (name : CStr) (version : Option CStr)
    (hc : sptr.MyConnect = true) (hs : sptr.IsServer = true) (hne : p ≠ [])
    (htok : reqmods_tokens BUFSIZE p = pre ++ modbuf :: rest)
    (hpre : ∀ u ∈ pre, (require_modules_entry cfg DenyModList Modules me sptr u).2 = false)
    (hp : parse_token modbuf = (flag, name, version))
    (hd : ∃ d ∈ DenyModList, strcasecmp d.name name = 0) :
    ∃ dmod, find_denymod_byname DenyModList name = some dmod ∧ dmod ∈ DenyModList ∧
      strcasecmp dmod.name name = 0 ∧
      (cfg.squit_on_deny = 0 →
        require_modules_entry cfg DenyModList Modules me sptr modbuf
            = ([Event.sendto_umode (Notice.denied sptr.name name dmod.reason)], false) ∧
          require_modules_loop cfg DenyModList Modules me sptr (modbuf :: rest)
            = (Event.sendto_umode (Notice.denied sptr.name name dmod.reason) ::
                (require_modules_loop cfg DenyModList Modules me sptr rest).1,
               (require_modules_loop cfg DenyModList Modules me sptr rest).2) ∧
          require_modules BUFSIZE cfg DenyModList Modules me sptr (some p)
            = (pre.flatMap
                  (fun u => (require_modules_entry cfg DenyModList Modules me sptr u).1) ++
                Event.sendto_umode (Notice.denied sptr.name name dmod.reason) ::
                  (require_modules_loop cfg DenyModList Modules me sptr rest).1,
               (require_modules_loop cfg DenyModList Modules me sptr rest).2)) ∧
      (cfg.squit_on_deny ≠ 0 →
        require_modules_entry cfg DenyModList Modules me sptr modbuf
            = ([Event.sendto_umode (Notice.denied sptr.name name dmod.reason),
                Event.sendto_umode_global (Notice.abortingReason me sptr.name dmod.reason),
                Event.exit_client sptr dmod.reason], true) ∧
          require_modules_loop cfg DenyModList Modules me sptr (modbuf :: rest)
            = ([Event.sendto_umode (Notice.denied sptr.name name dmod.reason),
                Event.sendto_umode_global (Notice.abortingReason me sptr.name dmod.reason),
                Event.exit_client sptr dmod.reason], RetVal.ofExitClient) ∧
          require_modules BUFSIZE cfg DenyModList Modules me sptr (some p)
            = (pre.flatMap
                  (fun u => (require_modules_entry cfg DenyModList Modules me sptr u).1) ++
                [Event.sendto_umode (Notice.denied sptr.name name dmod.reason),
                 Event.sendto_umode_global (Notice.abortingReason me sptr.name dmod.reason),
                 Event.exit_client sptr dmod.reason],
               RetVal.ofExitClient)) := by
  obtain ⟨dmod, hf⟩ := find_denymod_byname_of_match DenyModList name hd
  obtain ⟨hmem, hz⟩ := find_denymod_byname_some DenyModList name dmod hf
  have he := require_modules_entry_eq cfg DenyModList Modules me sptr modbuf flag name version hp
  have hmsg := require_modules_at_entry BUFSIZE cfg DenyModList Modules me sptr p pre modbuf rest
    hc hs hne htok hpre
  refine ⟨dmod, hf, hmem, hz, ?_, ?_⟩
  · intro h0
    have h1 : require_modules_entry cfg DenyModList Modules me sptr modbuf
        = ([Event.sendto_umode (Notice.denied sptr.name name dmod.reason)], false) := by
      rw [he]; simp [require_modules_decide, hf, h0]
    have h2 := require_modules_loop_continue cfg DenyModList Modules me sptr modbuf rest _ h1
    refine ⟨h1, h2, ?_⟩
    rw [hmsg, h2]
    rfl
  · intro h0
    have h1 : require_modules_entry cfg DenyModList Modules me sptr modbuf
        = ([Event.sendto_umode (Notice.denied sptr.name name dmod.reason),
            Event.sendto_umode_global (Notice.abortingReason me sptr.name dmod.reason),
            Event.exit_client sptr dmod.reason], true) := by
      rw [he]; simp [require_modules_decide, hf, h0]
    have h2 := require_modules_loop_exit cfg DenyModList Modules me sptr modbuf rest _ h1
    refine ⟨h1, h2, ?_⟩
    rw [hmsg, h2]

/-- C5 at the spec's scenario A: rule (chanfilter, banned), `squit_on_deny` off, and
the message `Lbar:3.0.0 Lchanfilter:3.2 Gfoomodule:4.0` from a directly
connected server: one local-operator notification with the reason `banned`,
then the next entry is processed (a missing Global module, reported
network-wide), and the link stays open. -/
theorem C5_deny_match_witness :
    (ex_peer.MyConnect = true ∧ ex_peer.IsServer = true ∧
        "Lbar:3.0.0 Lchanfilter:3.2 Gfoomodule:4.0".toList ≠ [] ∧
        reqmods_tokens 512 "Lbar:3.0.0 Lchanfilter:3.2 Gfoomodule:4.0".toList
          = ["Lbar:3.0.0".toList] ++ "Lchanfilter:3.2".toList :: ["Gfoomodule:4.0".toList] ∧
        (∀ u ∈ ["Lbar:3.0.0".toList],
          (require_modules_entry ex_cfg_warn [ex_deny] [ex_bar] ex_me ex_peer u).2 = false) ∧
        parse_token "Lchanfilter:3.2".toList = ('L', "chanfilter".toList, some "3.2".toList) ∧
        (∃ d ∈ [ex_deny], strcasecmp d.name "chanfilter".toList = 0) ∧
        ex_cfg_warn.squit_on_deny = 0) ∧
      require_modules 512 ex_cfg_warn [ex_deny] [ex_bar] ex_me ex_peer
          (some "Lbar:3.0.0 Lchanfilter:3.2 Gfoomodule:4.0".toList)
        = ([Event.sendto_umode
              (Notice.denied ex_peer.name "chanfilter".toList "banned".toList),
            Event.sendto_umode_global (Notice.missing "foomodule".toList)],
           RetVal.zero) :=
  ⟨by decide,
    let ⟨dmod, hf, _, _, h0, _⟩ := C5_deny_match 512 ex_cfg_warn [ex_deny] [ex_bar] ex_me ex_peer
      "Lbar:3.0.0 Lchanfilter:3.2 Gfoomodule:4.0".toList ["Lbar:3.0.0".toList]
      "Lchanfilter:3.2".toList ["Gfoomodule:4.0".toList] 'L' "chanfilter".toList
      (some "3.2".toList) (by decide) (by decide) (by decide) (by decide) (by decide)
      (by decide) (by decide)
    have hd : dmod = ex_deny := Option.some.inj (hf.symm.trans (by decide))
    by rw [(h0 (by decide)).2.2, hd]; decide⟩

/-- C6: a received entry with flag 'G' whose name matches no deny rule and for
which the strict catalog lookup finds no module (as it does when the catalog
holds no fully loaded module of that name). The message comes from a
directly connected server, and no entry before this one makes
`require_modules` return. For the entry `require_modules` sends the network-wide
notification that a globally required module is missing. With
`squit_on_missing` zero that is all and it goes on with the next entry: its
calls for the message are those of the entries before, this notification,
and those of the entries after. Otherwise it sends a second network-wide
notification, calls `exit_client` with the reason "Missing globally required
module" and returns what that call returns. -/
theorem C6_global_missing (BUFSIZE : Nat) (cfg : cfgstruct) (DenyModList : List DenyMod)
    (Modules : List Module) (me : CStr) (sptr : Client) (p : CStr) (pre : List CStr)
    (modbuf : CStr) (rest : List CStr) (flag : Char) (name : CStr) (version : Option CStr)
    (hc : sptr.MyConnect = true) (hs : sptr.IsServer = true) (hne : p ≠ [])
    (htok : reqmods_tokens BUFSIZE p = pre ++ modbuf :: rest)
    (hpre : ∀ u ∈ pre, (require_modules_entry cfg DenyModList Modules me sptr u).2 = false)
    (hp : parse_token modbuf = (flag, name, version))
    (hflag : flag = 'G')
    (hd : ∀ d ∈ DenyModList, strcasecmp d.name name ≠ 0)
    (hm : find_modptr_byname Modules name 1 = none) :
    (cfg.squit_on_missing = 0 →
        require_modules_entry cfg DenyModList Modules me sptr modbuf
            = ([Event.sendto_umode_global (Notice.missing name)], false) ∧
          require_modules_loop cfg DenyModList Modules me sptr (modbuf :: rest)
            = (Event.sendto_umode_global (Notice.missing name) ::
                (require_modules_loop cfg DenyModList Modules me sptr rest).1,
               (require_modules_loop cfg DenyModList Modules me sptr rest).2) ∧
          require_modules BUFSIZE cfg DenyModList Modules me sptr (some p)
            = (pre.flatMap
                  (fun u => (require_modules_entry cfg DenyModList Modules me sptr u).1) ++
                Event.sendto_umode_global (Notice.missing name) ::
                  (require_modules_loop cfg DenyModList Modules me sptr rest).1,
               (require_modules_loop cfg DenyModList Modules me sptr rest).2)) ∧
      (cfg.squit_on_missing ≠ 0 →
        require_modules_entry cfg DenyModList Modules me sptr modbuf
            = ([Event.sendto_umode_global (Notice.missing name),
                Event.sendto_umode_global (Notice.aborting me sptr.name),
                Event.exit_client sptr "Missing globally required module".toList], true) ∧
          require_modules_loop cfg DenyModList Modules me sptr (modbuf :: rest)
            = ([Event.sendto_umode_global (Notice.missing name),
                Event.sendto_umode_global (Notice.aborting me sptr.name),
                Event.exit_client sptr "Missing globally required module".toList],
               RetVal.ofExitClient) ∧
          require_modules BUFSIZE cfg DenyModList Modules me sptr (some p)
            = (pre.flatMap
                  (fun u => (require_modules_entry cfg DenyModList Modules me sptr u).1) ++
                [Event.sendto_umode_global (Notice.missing name),
                 Event.sendto_umode_global (Notice.aborting me sptr.name),
                 Event.exit_client sptr "Missing globally required module".toList],
               RetVal.ofExitClient)) := by
  have hf := (find_denymod_byname_eq_none_iff DenyModList name).2 hd
  have he := require_modules_entry_eq cfg DenyModList Modules me sptr modbuf flag name version hp
  have hmsg := require_modules_at_entry BUFSIZE cfg DenyModList Modules me sptr p pre modbuf rest
    hc hs hne htok hpre
  refine ⟨?_, ?_⟩
  · intro h0
    have h1 : require_modules_entry cfg DenyModList Modules me sptr modbuf
        = ([Event.sendto_umode_global (Notice.missing name)], false) := by
      rw [he]; simp [require_modules_decide, hf, hm, hflag, h0]
    have h2 := require_modules_loop_continue cfg DenyModList Modules me sptr modbuf rest _ h1
    refine ⟨h1, h2, ?_⟩
    rw [hmsg, h2]
    rfl
  · intro h0
    have h1 : require_modules_entry cfg DenyModList Modules me sptr modbuf
        = ([Event.sendto_umode_global (Notice.missing name),
            Event.sendto_umode_global (Notice.aborting me sptr.name),
            Event.exit_client sptr "Missing globally required module".toList], true) := by
      rw [he]; simp [require_modules_decide, hf, hm, hflag, h0]
    have h2 := require_modules_loop_exit cfg DenyModList Modules me sptr modbuf rest _ h1
    refine ⟨h1, h2, ?_⟩
    rw [hmsg, h2]

/-- C6 at the spec's scenario C with the switches on: the message `Lbar:3.0.0
Gfoomodule:4.0 Lchanfilter:3.2` from a directly connected server and a catalog
without `foomodule`: two network-wide notifications, then the link is
terminated with the reason "Missing globally required module"; the denied
entry behind is not looked at. -/
theorem C6_global_missing_witness :
    (ex_peer.MyConnect = true ∧ ex_peer.IsServer = true ∧
        "Lbar:3.0.0 Gfoomodule:4.0 Lchanfilter:3.2".toList ≠ [] ∧
        reqmods_tokens 512 "Lbar:3.0.0 Gfoomodule:4.0 Lchanfilter:3.2".toList
          = ["Lbar:3.0.0".toList] ++ "Gfoomodule:4.0".toList :: ["Lchanfilter:3.2".toList] ∧
        (∀ u ∈ ["Lbar:3.0.0".toList],
          (require_modules_entry ex_cfg_squit [ex_deny] [ex_bar] ex_me ex_peer u).2 = false) ∧
        parse_token "Gfoomodule:4.0".toList = ('G', "foomodule".toList, some "4.0".toList) ∧
        'G' = 'G' ∧ (∀ d ∈ [ex_deny], strcasecmp d.name "foomodule".toList ≠ 0) ∧
        find_modptr_byname [ex_bar] "foomodule".toList 1 = none ∧
        ex_cfg_squit.squit_on_missing ≠ 0) ∧
      require_modules 512 ex_cfg_squit [ex_deny] [ex_bar] ex_me ex_peer
          (some "Lbar:3.0.0 Gfoomodule:4.0 Lchanfilter:3.2".toList)
        = ([Event.sendto_umode_global (Notice.missing "foomodule".toList),
            Event.sendto_umode_global (Notice.aborting ex_me ex_peer.name),
            Event.exit_client ex_peer "Missing globally required module".toList],
           RetVal.ofExitClient) :=
  ⟨by decide,
    ((C6_global_missing 512 ex_cfg_squit [ex_deny] [ex_bar] ex_me ex_peer
      "Lbar:3.0.0 Gfoomodule:4.0 Lchanfilter:3.2".toList ["Lbar:3.0.0".toList]
      "Gfoomodule:4.0".toList ["Lchanfilter:3.2".toList] 'G' "foomodule".toList
      (some "4.0".toList) (by decide) (by decide) (by decide) (by decide) (by decide)
      (by decide) rfl (by decide) (by decide)).2 (by decide)).2.2.trans (by decide)⟩

/-- C7: an entry whose name matches no deny rule, for which the strict catalog
lookup finds no module, and whose flag is not 'G' ('L' or any other
character). `require_modules` makes no call for it and goes on with the next
entry, for every setting of the three switches and with or without a
version. -/
theorem C7_local_missing_ignored (cfg : cfgstruct) (DenyModList : List DenyMod)
    (Modules : List Module) (me : CStr) (sptr : Client) (modbuf : CStr) (rest : List CStr)
    (flag : Char) (name : CStr) (version : Option CStr)
    (hp : parse_token modbuf = (flag, name, version))
    (hflag : flag ≠ 'G')
    (hd : ∀ d ∈ DenyModList, strcasecmp d.name name ≠ 0)
    (hm : find_modptr_byname Modules name 1 = none) :
    require_modules_entry cfg DenyModList Modules me sptr modbuf = ([], false) ∧
      require_modules_loop cfg DenyModList Modules me sptr (modbuf :: rest)
        = require_modules_loop cfg DenyModList Modules me sptr rest := by
  have hf := (find_denymod_byname_eq_none_iff DenyModList name).2 hd
  have he := require_modules_entry_eq cfg DenyModList Modules me sptr modbuf flag name version hp
  have h1 : require_modules_entry cfg DenyModList Modules me sptr modbuf = ([], false) := by
    rw [he]; simp [require_modules_decide, hf, hm, hflag]
  refine ⟨h1, ?_⟩
  rw [require_modules_loop_continue cfg DenyModList Modules me sptr modbuf rest _ h1]
  simp

/-- C7 at the spec's scenario E with all switches on: token `Lunknownmodule`. -/
theorem C7_local_missing_ignored_witness :
    (parse_token "Lunknownmodule".toList = ('L', "unknownmodule".toList, none) ∧
        'L' ≠ 'G' ∧ (∀ d ∈ [ex_deny], strcasecmp d.name "unknownmodule".toList ≠ 0) ∧
        find_modptr_byname [ex_bar] "unknownmodule".toList 1 = none) ∧
      (require_modules_entry ex_cfg_squit [ex_deny] [ex_bar] ex_me ex_peer
          "Lunknownmodule".toList = ([], false) ∧
        require_modules_loop ex_cfg_squit [ex_deny] [ex_bar] ex_me ex_peer
            ("Lunknownmodule".toList :: ["Gbar:3.0.0".toList])
          = require_modules_loop ex_cfg_squit [ex_deny] [ex_bar] ex_me ex_peer
              ["Gbar:3.0.0".toList]) :=
  ⟨by decide, C7_local_missing_ignored ex_cfg_squit [ex_deny] [ex_bar] ex_me ex_peer
    "Lunknownmodule".toList ["Gbar:3.0.0".toList] 'L' "unknownmodule".toList none (by decide)
    (by decide) (by decide) (by decide)⟩

/-- C8: a received entry whose name matches no deny rule and for which the strict
catalog lookup returns the module `mod` (a fully loaded module of the catalog
whose name equals the entry's up to case). The message comes from a directly
connected server, and no entry before this one makes `require_modules` return.
When the peer's version is absent or `strcasecmp` of the local and the peer's
version is not 0, `require_modules` sends one local-operator notification
naming both versions; with `squit_on_mismatch` zero it goes on with the next
entry, otherwise it sends one network-wide notification, calls `exit_client`
with the reason "Module version mismatch" and returns what that call returns.
When the version is present and `strcasecmp` gives 0 it makes no call for the
entry. The comparison is over the whole strings: for strings without NUL it
gives 0 exactly for equality after `tolower`, so a version that is a proper
prefix of the other is a mismatch. -/
theorem C8_version_check (BUFSIZE : Nat) (cfg : cfgstruct) (DenyModList : List DenyMod)
    (Modules : List Module) (me : CStr) (sptr : Client) (p : CStr) (pre : List CStr)
    (modbuf : CStr) (rest : List CStr) (flag : Char) (name : CStr) (version : Option CStr)
    (mod : Module)
    (hc : sptr.MyConnect = true) (hs : sptr.IsServer = true) (hne : p ≠ [])
    (htok : reqmods_tokens BUFSIZE p = pre ++ modbuf :: rest)
    (hpre : ∀ u ∈ pre, (require_modules_entry cfg DenyModList Modules me sptr u).2 = false)
    (hp : parse_token modbuf = (flag, name, version))
    (hd : ∀ d ∈ DenyModList, strcasecmp d.name name ≠ 0)
    (hm : find_modptr_byname Modules name 1 = some mod) :
    ((version = none ∨ ∃ v, version = some v ∧ strcasecmp mod.version v ≠ 0) →
        (cfg.squit_on_mismatch = 0 →
          require_modules_entry cfg DenyModList Modules me sptr modbuf
              = ([Event.sendto_umode (Notice.mismatch name mod.version version)], false) ∧
            require_modules_loop cfg DenyModList Modules me sptr (modbuf :: rest)
              = (Event.sendto_umode (Notice.mismatch name mod.version version) ::
                  (require_modules_loop cfg DenyModList Modules me sptr rest).1,
                 (require_modules_loop cfg DenyModList Modules me sptr rest).2) ∧
            require_modules BUFSIZE cfg DenyModList Modules me sptr (some p)
              = (pre.flatMap
                    (fun u => (require_modules_entry cfg DenyModList Modules me sptr u).1) ++
                  Event.sendto_umode (Notice.mismatch name mod.version version) ::
                    (require_modules_loop cfg DenyModList Modules me sptr rest).1,
                 (require_modules_loop cfg DenyModList Modules me sptr rest).2)) ∧
        (cfg.squit_on_mismatch ≠ 0 →
          require_modules_entry cfg DenyModList Modules me sptr modbuf
              = ([Event.sendto_umode (Notice.mismatch name mod.version version),
                  Event.sendto_umode_global (Notice.aborting me sptr.name),
                  Event.exit_client sptr "Module version mismatch".toList], true) ∧
            require_modules_loop cfg DenyModList Modules me sptr (modbuf :: rest)
              = ([Event.sendto_umode (Notice.mismatch name mod.version version),
                  Event.sendto_umode_global (Notice.aborting me sptr.name),
                  Event.exit_client sptr "Module version mismatch".toList],
                 RetVal.ofExitClient) ∧
            require_modules BUFSIZE cfg DenyModList Modules me sptr (some p)
              = (pre.flatMap
                    (fun u => (require_modules_entry cfg DenyModList Modules me sptr u).1) ++
                  [Event.sendto_umode (Notice.mismatch name mod.version version),
                   Event.sendto_umode_global (Notice.aborting me sptr.name),
                   Event.exit_client sptr "Module version mismatch".toList],
                 RetVal.ofExitClient))) ∧
      (∀ v, version = some v → strcasecmp mod.version v = 0 →
        require_modules_entry cfg DenyModList Modules me sptr modbuf = ([], false) ∧
          require_modules_loop cfg DenyModList Modules me sptr (modbuf :: rest)
            = require_modules_loop cfg DenyModList Modules me sptr rest ∧
          require_modules BUFSIZE cfg DenyModList Modules me sptr (some p)
            = (pre.flatMap
                  (fun u => (require_modules_entry cfg DenyModList Modules me sptr u).1) ++
                (require_modules_loop cfg DenyModList Modules me sptr rest).1,
               (require_modules_loop cfg DenyModList Modules me sptr rest).2)) ∧
      (∀ v : CStr, (∀ c ∈ mod.version, c.toNat ≠ 0) → (∀ c ∈ v, c.toNat ≠ 0) →
        (strcasecmp mod.version v = 0 ↔ mod.version.map tolower = v.map tolower)) ∧
      (∀ (v s : CStr) (c : Char), c.toNat ≠ 0 → mod.version = v ++ c :: s →
        strcasecmp mod.version v ≠ 0) ∧
      (mod ∈ Modules ∧ strcasecmp mod.name name = 0 ∧ mod.loaded = true) := by
  have hf := (find_denymod_byname_eq_none_iff DenyModList name).2 hd
  have he := require_modules_entry_eq cfg DenyModList Modules me sptr modbuf flag name version hp
  have hfound := find_modptr_byname_some Modules name 1 mod hm
  have hmsg := require_modules_at_entry BUFSIZE cfg DenyModList Modules me sptr p pre modbuf rest
    hc hs hne htok hpre
  refine ⟨?_, ?_, ?_, ?_, ⟨hfound.1, hfound.2.1, hfound.2.2 (by decide)⟩⟩
  · intro hmis
    have hcond : version = none ∨ ¬ (strcasecmp mod.version (version.getD []) = 0) := by
      rcases hmis with h | ⟨v, hv, hne⟩
      · exact Or.inl h
      · right; rw [hv]; exact hne
    refine ⟨?_, ?_⟩
    · intro h0
      have h1 : require_modules_entry cfg DenyModList Modules me sptr modbuf
          = ([Event.sendto_umode (Notice.mismatch name mod.version version)], false) := by
        rw [he]; simp only [require_modules_decide, hf, hm, if_pos hcond]
        simp [h0]
      have h2 := require_modules_loop_continue cfg DenyModList Modules me sptr modbuf rest _ h1
      refine ⟨h1, h2, ?_⟩
      rw [hmsg, h2]
      rfl
    · intro h0
      have h1 : require_modules_entry cfg DenyModList Modules me sptr modbuf
          = ([Event.sendto_umode (Notice.mismatch name mod.version version),
              Event.sendto_umode_global (Notice.aborting me sptr.name),
              Event.exit_client sptr "Module version mismatch".toList], true) := by
        rw [he]; simp only [require_modules_decide, hf, hm, if_pos hcond]
        simp [h0]
      have h2 := require_modules_loop_exit cfg DenyModList Modules me sptr modbuf rest _ h1
      refine ⟨h1, h2, ?_⟩
      rw [hmsg, h2]
  · intro v hv hz
    have hcond : ¬ (version = none ∨ ¬ (strcasecmp mod.version (version.getD []) = 0)) := by
      rw [hv]; simp [hz]
    have h1 : require_modules_entry cfg DenyModList Modules me sptr modbuf = ([], false) := by
      rw [he]; simp only [require_modules_decide, hf, hm, if_neg hcond]
    have h2 : require_modules_loop cfg DenyModList Modules me sptr (modbuf :: rest)
        = require_modules_loop cfg DenyModList Modules me sptr rest := by
      rw [require_modules_loop_continue cfg DenyModList Modules me sptr modbuf rest _ h1]
      simp
    refine ⟨h1, h2, ?_⟩
    rw [hmsg, h2]
  · intro v h1 h2
    exact strcasecmp_eq_zero_iff mod.version v h1 h2
  · intro v s c hc hv
    rw [hv]
    exact (strcasecmp_longer_ne_zero v s c hc).1

/-- C8 at a catalog with `bar` at version 3.0.0-alpha and `chanfilter` at 3.2, with
`squit_on_mismatch` on, and the message `Gchanfilter:3.2 Gbar:3.0.0 Lfoo:1` from a
directly connected server: the first entry matches and causes no call, the
second carries a proper prefix of the local version and ends the link with
the reason "Module version mismatch". -/
theorem C8_version_check_witness :
    (ex_peer.MyConnect = true ∧ ex_peer.IsServer = true ∧
        "Gchanfilter:3.2 Gbar:3.0.0 Lfoo:1".toList ≠ [] ∧
        reqmods_tokens 512 "Gchanfilter:3.2 Gbar:3.0.0 Lfoo:1".toList
          = ["Gchanfilter:3.2".toList] ++ "Gbar:3.0.0".toList :: ["Lfoo:1".toList] ∧
        (∀ u ∈ ["Gchanfilter:3.2".toList],
          (require_modules_entry ex_cfg_squit [] [ex_chanfilter, ex_bar_alpha] ex_me ex_peer
            u).2 = false) ∧
        parse_token "Gbar:3.0.0".toList = ('G', "bar".toList, some "3.0.0".toList) ∧
        (∀ d ∈ ([] : List DenyMod), strcasecmp d.name "bar".toList ≠ 0) ∧
        find_modptr_byname [ex_chanfilter, ex_bar_alpha] "bar".toList 1 = some ex_bar_alpha ∧
        (some "3.0.0".toList = none ∨
          ∃ v, some "3.0.0".toList = some v ∧ strcasecmp ex_bar_alpha.version v ≠ 0) ∧
        ex_cfg_squit.squit_on_mismatch ≠ 0) ∧
      require_modules 512 ex_cfg_squit [] [ex_chanfilter, ex_bar_alpha] ex_me ex_peer
          (some "Gchanfilter:3.2 Gbar:3.0.0 Lfoo:1".toList)
        = ([Event.sendto_umode
              (Notice.mismatch "bar".toList "3.0.0-alpha".toList (some "3.0.0".toList)),
            Event.sendto_umode_global (Notice.aborting ex_me ex_peer.name),
            Event.exit_client ex_peer "Module version mismatch".toList],
           RetVal.ofExitClient) :=
  ⟨⟨by decide, by decide, by decide, by decide, by decide, by decide, by decide, by decide,
      Or.inr ⟨"3.0.0".toList, rfl, by decide⟩, by decide⟩,
    (((C8_version_check 512 ex_cfg_squit [] [ex_chanfilter, ex_bar_alpha] ex_me ex_peer
      "Gchanfilter:3.2 Gbar:3.0.0 Lfoo:1".toList ["Gchanfilter:3.2".toList]
      "Gbar:3.0.0".toList ["Lfoo:1".toList] 'G' "bar".toList (some "3.0.0".toList) ex_bar_alpha
      (by decide) (by decide) (by decide) (by decide) (by decide) (by decide) (by decide)
      (by decide)).1
        (Or.inr ⟨"3.0.0".toList, rfl, by decide⟩)).2 (by decide)).2.2.trans (by decide)⟩

/-- C9: short-circuit. For a message from a directly connected server: if some
entry makes `require_modules` return (it does so exactly when it calls
`exit_client`), the calls made for the whole message are those of the entries
up to and including the first such entry, in message order, nothing after
it is evaluated, and the outcome is that of the message cut after that
entry; if no entry does, the calls are those of all entries in message order
and the function returns 0. -/
theorem C9_short_circuit (BUFSIZE : Nat) (cfg : cfgstruct) (DenyModList : List DenyMod)
    (Modules : List Module) (me : CStr) (sptr : Client) (p : CStr)
    (hc : sptr.MyConnect = true) (hs : sptr.IsServer = true) (hne : p ≠ []) :
    (∀ (pre : List CStr) (t : CStr) (post : List CStr),
        reqmods_tokens BUFSIZE p = pre ++ t :: post →
        (∀ u ∈ pre, (require_modules_entry cfg DenyModList Modules me sptr u).2 = false) →
        (require_modules_entry cfg DenyModList Modules me sptr t).2 = true →
        require_modules BUFSIZE cfg DenyModList Modules me sptr (some p)
            = ((pre ++ [t]).flatMap
                (fun u => (require_modules_entry cfg DenyModList Modules me sptr u).1),
               RetVal.ofExitClient) ∧
          (∀ p2 : CStr, p2 ≠ [] → reqmods_tokens BUFSIZE p2 = pre ++ [t] →
            require_modules BUFSIZE cfg DenyModList Modules me sptr (some p)
              = require_modules BUFSIZE cfg DenyModList Modules me sptr (some p2))) ∧
      ((∀ u ∈ reqmods_tokens BUFSIZE p,
          (require_modules_entry cfg DenyModList Modules me sptr u).2 = false) →
        require_modules BUFSIZE cfg DenyModList Modules me sptr (some p)
          = ((reqmods_tokens BUFSIZE p).flatMap
              (fun u => (require_modules_entry cfg DenyModList Modules me sptr u).1),
             RetVal.zero)) ∧
      (∀ u : CStr, (require_modules_entry cfg DenyModList Modules me sptr u).2 = true ↔
        ∃ c, Event.exit_client sptr c ∈
          (require_modules_entry cfg DenyModList Modules me sptr u).1) := by
  have hrun : ∀ q : CStr, q ≠ [] →
      require_modules BUFSIZE cfg DenyModList Modules me sptr (some q)
        = require_modules_loop cfg DenyModList Modules me sptr (reqmods_tokens BUFSIZE q) := by
    intro q hq
    simp [require_modules, hc, hs, hq]
  refine ⟨?_, ?_, ?_⟩
  · intro pre t post htok hpre ht
    have h1 := require_modules_loop_upto cfg DenyModList Modules me sptr pre t post hpre ht
    refine ⟨?_, ?_⟩
    · rw [hrun p hne, htok, h1]
    · intro p2 hp2 htok2
      have h2 := require_modules_loop_upto cfg DenyModList Modules me sptr pre t [] hpre ht
      rw [hrun p hne, hrun p2 hp2, htok, htok2, h1, h2]
  · intro hall
    rw [hrun p hne]
    exact require_modules_loop_all cfg DenyModList Modules me sptr _ hall
  · intro u
    exact require_modules_decide_exit_iff cfg DenyModList Modules me sptr _ _ _

/-- C9 at the spec's scenario B: rule (chanfilter, banned), `squit_on_deny` on, and
a message whose second of three entries is denied. -/
theorem C9_short_circuit_witness :
    (ex_peer.MyConnect = true ∧ ex_peer.IsServer = true ∧
        "Lbar:3.0.0 Lchanfilter:3.2 Gfoomodule:4.0".toList ≠ [] ∧
        reqmods_tokens 512 "Lbar:3.0.0 Lchanfilter:3.2 Gfoomodule:4.0".toList
          = ["Lbar:3.0.0".toList] ++ "Lchanfilter:3.2".toList :: ["Gfoomodule:4.0".toList] ∧
        (∀ u ∈ ["Lbar:3.0.0".toList],
          (require_modules_entry ex_cfg_squit [ex_deny] [ex_bar] ex_me ex_peer u).2 = false) ∧
        (require_modules_entry ex_cfg_squit [ex_deny] [ex_bar] ex_me ex_peer
          "Lchanfilter:3.2".toList).2 = true) ∧
      require_modules 512 ex_cfg_squit [ex_deny] [ex_bar] ex_me ex_peer
          (some "Lbar:3.0.0 Lchanfilter:3.2 Gfoomodule:4.0".toList)
        = ((["Lbar:3.0.0".toList] ++ ["Lchanfilter:3.2".toList]).flatMap
            (fun u => (require_modules_entry ex_cfg_squit [ex_deny] [ex_bar] ex_me ex_peer u).1),
           RetVal.ofExitClient) :=
  ⟨by decide,
    ((C9_short_circuit 512 ex_cfg_squit [ex_deny] [ex_bar] ex_me ex_peer
      "Lbar:3.0.0 Lchanfilter:3.2 Gfoomodule:4.0".toList (by decide) (by decide) (by decide)).1
        ["Lbar:3.0.0".toList] "Lchanfilter:3.2".toList ["Gfoomodule:4.0".toList]
        (by decide) (by decide) (by decide)).1⟩

/-- C10, as stated, fails on the version: a token whose first colon lies beyond
the 63rd byte behind the flag has a colon but is parsed with the version
absent, and a version that runs past the 63rd byte is not the text behind
the first colon but that text cut short. -/
theorem C10_version_not_text_after_colon :
    (':' ∈ ex_token_late_colon.tail ∧ (parse_token ex_token_late_colon).2.2 = none) ∧
      (parse_token ex_token_long_version).2.2
        ≠ some ((ex_token_long_version.tail.dropWhile (fun c => c != ':')).tail) := by
  decide

/-- C10, amended: for every non-empty token, the flag is the token's first
character; the name is the first 63 bytes of the text between the flag and
the first colon (or the end of the token), so it never exceeds 63 bytes; the
version is read from the first 63 bytes behind the flag only: it is absent
when those bytes hold no colon, and otherwise it is what of those 63 bytes
follows their first colon. For a token of at most 63 bytes behind the flag
this is: absent when the token has no colon behind the flag, otherwise the
text behind the first colon. A longer token is cut, not rejected. -/
theorem C10_parse_token (flag : Char) (rest : CStr) :
    (parse_token (flag :: rest)).1 = flag ∧
      (parse_token (flag :: rest)).2.1 = (rest.takeWhile (fun c => c != ':')).take 63 ∧
      (parse_token (flag :: rest)).2.1.length ≤ 63 ∧
      (parse_token (flag :: rest)).2.2
        = (if ':' ∈ rest.take 63
            then some (((rest.take 63).dropWhile (fun c => c != ':')).tail) else none) ∧
      (rest.length ≤ 63 →
        (parse_token (flag :: rest)).2.2
          = (if ':' ∈ rest then some ((rest.dropWhile (fun c => c != ':')).tail) else none)) := by
  have hname : (parse_token (flag :: rest)).2.1
      = (rest.takeWhile (fun c => c != ':')).take 63 := by
    simp only [parse_token, strlcpy, namesize, split_colon_fst]
    exact (List.take_takeWhile _ 63).symm
  have hver : (parse_token (flag :: rest)).2.2
      = (if ':' ∈ rest.take 63
          then some (((rest.take 63).dropWhile (fun c => c != ':')).tail) else none) := by
    simp only [parse_token, strlcpy, namesize, split_colon_snd]
  refine ⟨rfl, hname, ?_, hver, ?_⟩
  · rw [hname, List.length_take]
    omega
  · intro hlen
    rw [hver, List.take_of_length_le hlen]

/-! ## Lemmas: `strcmp` against a literal -/

theorem strcmp_eq_zero_take (lit x : CStr) (hl : ∀ c ∈ lit, c.toNat ≠ 0)
    (h : strcmp x lit = 0) : x.take lit.length = lit := by
  induction lit generalizing x with
  | nil => simp
  | cons b bs ih =>
    have hb := hl b (by simp)
    cases x with
    | nil =>
      simp only [strcmp] at h
      omega
    | cons a as =>
      simp only [strcmp] at h
      by_cases hab : a = b
      · simp only [hab, if_true] at h
        simp [hab, ih as (fun c hc => hl c (List.mem_cons_of_mem _ hc)) h]
      · simp only [hab, if_false] at h
        exact absurd h (char_toNat_diff_ne_zero a b hab)

theorem strcmp_deny_missing (x : CStr) (h1 : strcmp x "squit-on-deny".toList = 0)
    (h2 : strcmp x "squit-on-missing".toList = 0) : False := by
  have t1 := strcmp_eq_zero_take _ x (by decide) h1
  have t2 := strcmp_eq_zero_take _ x (by decide) h2
  have : (x.take "squit-on-missing".toList.length).take "squit-on-deny".toList.length
      = x.take "squit-on-deny".toList.length := by
    rw [List.take_take]; congr 1
  rw [t1, t2] at this
  exact absurd this (by decide)

theorem strcmp_deny_mismatch (x : CStr) (h1 : strcmp x "squit-on-deny".toList = 0)
    (h2 : strcmp x "squit-on-mismatch".toList = 0) : False := by
  have t1 := strcmp_eq_zero_take _ x (by decide) h1
  have t2 := strcmp_eq_zero_take _ x (by decide) h2
  have : (x.take "squit-on-mismatch".toList.length).take "squit-on-deny".toList.length
      = x.take "squit-on-deny".toList.length := by
    rw [List.take_take]; congr 1
  rw [t1, t2] at this
  exact absurd this (by decide)

theorem strcmp_missing_mismatch (x : CStr) (h1 : strcmp x "squit-on-missing".toList = 0)
    (h2 : strcmp x "squit-on-mismatch".toList = 0) : False := by
  have t1 := strcmp_eq_zero_take _ x (by decide) h1
  have t2 := strcmp_eq_zero_take _ x (by decide) h2
  have : (x.take "squit-on-mismatch".toList.length).take "squit-on-missing".toList.length
      = x.take "squit-on-missing".toList.length := by
    rw [List.take_take]; congr 1
  rw [t1, t2] at this
  exact absurd this (by decide)

/-! ## Lemmas: the policy switches -/

theorem configrun_set_step_deny (cv : Option CStr → Int) (cfg : cfgstruct)
    (cep : ConfigDirective) :
    (configrun_set_step cv cfg cep).squit_on_deny
      = if strcmp cep.ce_varname "squit-on-deny".toList = 0 then cv cep.ce_vardata
        else cfg.squit_on_deny := by
  unfold configrun_set_step
  split
  · rfl
  · split
    · rfl
    · split <;> rfl

theorem configrun_set_step_missing (cv : Option CStr → Int) (cfg : cfgstruct)
    (cep : ConfigDirective) :
    (configrun_set_step cv cfg cep).squit_on_missing
      = if strcmp cep.ce_varname "squit-on-missing".toList = 0 then cv cep.ce_vardata
        else cfg.squit_on_missing := by
  unfold configrun_set_step
  by_cases h1 : strcmp cep.ce_varname "squit-on-deny".toList = 0
  · have h2 : ¬ strcmp cep.ce_varname "squit-on-missing".toList = 0 :=
      fun h2 => strcmp_deny_missing _ h1 h2
    rw [if_pos h1, if_neg h2]
  · by_cases h2 : strcmp cep.ce_varname "squit-on-missing".toList = 0
    · rw [if_neg h1, if_pos h2, if_pos h2]
    · rw [if_neg h1, if_neg h2, if_neg h2]
      split <;> rfl

theorem configrun_set_step_mismatch (cv : Option CStr → Int) (cfg : cfgstruct)
    (cep : ConfigDirective) :
    (configrun_set_step cv cfg cep).squit_on_mismatch
      = if strcmp cep.ce_varname "squit-on-mismatch".toList = 0 then cv cep.ce_vardata
        else cfg.squit_on_mismatch := by
  unfold configrun_set_step
  by_cases h1 : strcmp cep.ce_varname "squit-on-deny".toList = 0
  · have h3 : ¬ strcmp cep.ce_varname "squit-on-mismatch".toList = 0 :=
      fun h3 => strcmp_deny_mismatch _ h1 h3
    rw [if_pos h1, if_neg h3]
  · by_cases h2 : strcmp cep.ce_varname "squit-on-missing".toList = 0
    · have h3 : ¬ strcmp cep.ce_varname "squit-on-mismatch".toList = 0 :=
        fun h3 => strcmp_missing_mismatch _ h2 h3
      rw [if_neg h1, if_pos h2, if_neg h3]
    · by_cases h3 : strcmp cep.ce_varname "squit-on-mismatch".toList = 0
      · rw [if_neg h1, if_neg h2, if_pos h3, if_pos h3]
      · rw [if_neg h1, if_neg h2, if_neg h3, if_neg h3]

/-- A field of `cfg` after the directive loop: the value of the last directive of
the field's name, or the old value when there is none. -/
theorem configrun_set_foldl_field (cv : Option CStr → Int) (name : CStr)
    (field : cfgstruct → Int)
    (hstep : ∀ cfg cep, field (configrun_set_step cv cfg cep)
      = if strcmp cep.ce_varname name = 0 then cv cep.ce_vardata else field cfg)
    (entries : List ConfigDirective) (cfg : cfgstruct) :
    field (entries.foldl (configrun_set_step cv) cfg)
      = match last_directive name entries with
        | some d => cv d.ce_vardata
        | none => field cfg := by
  induction entries generalizing cfg with
  | nil => simp [last_directive]
  | cons cep rest ih =>
    simp only [List.foldl_cons, last_directive]
    rw [ih]
    cases hl : last_directive name rest with
    | some d => rfl
    | none =>
      simp only [hstep]
      split <;> rfl

/-! ## Lemmas: the lookup as a search for the first name match -/

theorem find_modptr_byname_eq_find (Modules : List Module) (name : CStr) (strict : Nat) :
    find_modptr_byname Modules name strict
      = match Modules.find? (fun m => decide (strcasecmp m.name name = 0)) with
        | some m => if strict ≠ 0 ∧ m.loaded = false then none else some m
        | none => none := by
  induction Modules with
  | nil => simp [find_modptr_byname]
  | cons m rest ih =>
    simp only [find_modptr_byname, List.find?_cons]
    by_cases hm : strcasecmp m.name name = 0
    · simp [hm]
    · simp [hm, ih]

/-! ## Claims on the sender guard, the strict lookup and the round trip -/

/-- C16: `MOD_TEST` sets the three switches to 0, and `reqmods_configrun_set` on a
block then leaves in each switch the yes/no value (`config_checkval`) of the
last directive of the switch's name in the block, and 0 when the block has
no directive of that name; the result does not depend on what the switches
held before `MOD_TEST`. -/
theorem C16_policy_config_from_block (config_checkval : Option CStr → Int) (st : ReqState)
    (ce : ConfigEntry) :
    (MOD_TEST st).cfg = { squit_on_deny := 0, squit_on_missing := 0, squit_on_mismatch := 0 } ∧
      reqmods_configrun_set config_checkval (MOD_TEST st).cfg ce
        = (1, { squit_on_deny :=
                  (match last_directive "squit-on-deny".toList ce.ce_entries with
                    | some d => config_checkval d.ce_vardata
                    | none => 0),
                squit_on_missing :=
                  (match last_directive "squit-on-missing".toList ce.ce_entries with
                    | some d => config_checkval d.ce_vardata
                    | none => 0),
                squit_on_mismatch :=
                  (match last_directive "squit-on-mismatch".toList ce.ce_entries with
                    | some d => config_checkval d.ce_vardata
                    | none => 0) }) ∧
      (∀ st2 : ReqState, reqmods_configrun_set config_checkval (MOD_TEST st2).cfg ce
        = reqmods_configrun_set config_checkval (MOD_TEST st).cfg ce) := by
  refine ⟨rfl, ?_, fun _ => rfl⟩
  have h1 := configrun_set_foldl_field config_checkval "squit-on-deny".toList
    cfgstruct.squit_on_deny (configrun_set_step_deny config_checkval) ce.ce_entries
    (MOD_TEST st).cfg
  have h2 := configrun_set_foldl_field config_checkval "squit-on-missing".toList
    cfgstruct.squit_on_missing (configrun_set_step_missing config_checkval) ce.ce_entries
    (MOD_TEST st).cfg
  have h3 := configrun_set_foldl_field config_checkval "squit-on-mismatch".toList
    cfgstruct.squit_on_mismatch (configrun_set_step_mismatch config_checkval) ce.ce_entries
    (MOD_TEST st).cfg
  unfold reqmods_configrun_set
  generalize List.foldl (configrun_set_step config_checkval) (MOD_TEST st).cfg ce.ce_entries
    = X at h1 h2 h3
  cases X with
  | mk a b c =>
    simp only at h1 h2 h3
    rw [h1, h2, h3]
    rfl

/-- C17: `require_modules` returns 0 without any call to `sendto_umode`,
`sendto_umode_global` or `exit_client` when the sender is not a local connection,
or is not a server, or the parameter is missing or empty, whatever the
rules, the catalog and the switches. -/
theorem C17_bad_sender_ignored (BUFSIZE : Nat) (cfg : cfgstruct) (DenyModList : List DenyMod)
    (Modules : List Module) (me : CStr) (sptr : Client) (parv1 : Option CStr)
    (h : sptr.MyConnect = false ∨ sptr.IsServer = false ∨ parv1 = none ∨ parv1 = some []) :
    require_modules BUFSIZE cfg DenyModList Modules me sptr parv1 = ([], RetVal.zero) := by
  unfold require_modules
  cases parv1 with
  | none => rfl
  | some p =>
    rcases h with h | h | h | h
    · simp [h]
    · simp [h]
    · simp at h
    · simp only [Option.some.injEq] at h
      simp [h]

/-- C17 for a message that comes from a client that is not a server, with a
denied module in it and all switches on. -/
theorem C17_bad_sender_ignored_witness :
    (({ name := "nick".toList, MyConnect := true, IsServer := false } : Client).MyConnect = false ∨
        ({ name := "nick".toList, MyConnect := true, IsServer := false } : Client).IsServer = false ∨
        some "Lchanfilter:3.2".toList = none ∨ some "Lchanfilter:3.2".toList = some []) ∧
      require_modules 512 ex_cfg_squit [ex_deny] [ex_bar] ex_me
          { name := "nick".toList, MyConnect := true, IsServer := false }
          (some "Lchanfilter:3.2".toList)
        = ([], RetVal.zero) :=
  ⟨by decide, C17_bad_sender_ignored 512 ex_cfg_squit [ex_deny] [ex_bar] ex_me
    { name := "nick".toList, MyConnect := true, IsServer := false }
    (some "Lchanfilter:3.2".toList) (by decide)⟩

/-- C18, as stated, fails: in a catalog that lists `foo` twice, first not fully
loaded and then fully loaded, the strict lookup returns NULL although the
catalog holds a fully loaded module of that name. -/
theorem C18_first_match_shadows :
    (∃ m ∈ [ex_foo_testing, ex_foo_loaded], m.loaded = true ∧
        strcasecmp m.name "foo".toList = 0) ∧
      find_modptr_byname [ex_foo_testing, ex_foo_loaded] "foo".toList 1 = none := by
  decide

/-- C18, amended: `find_modptr_byname(name, 1)` looks at the first catalog entry whose
name equals `name` up to case and at no other: it returns that entry when
it is fully loaded and NULL otherwise. A module it returns is in the
catalog, fully loaded and of that name. When at most one catalog entry has
that name, it returns a module exactly when the catalog holds a fully
loaded module of that name. -/
theorem C18_strict_lookup (Modules : List Module) (name : CStr) :
    (find_modptr_byname Modules name 1
        = match Modules.find? (fun m => decide (strcasecmp m.name name = 0)) with
          | some m => if m.loaded = true then some m else none
          | none => none) ∧
      (∀ mod, find_modptr_byname Modules name 1 = some mod →
        mod ∈ Modules ∧ mod.loaded = true ∧ strcasecmp mod.name name = 0) ∧
      ((∀ m1 ∈ Modules, ∀ m2 ∈ Modules, strcasecmp m1.name name = 0 →
          strcasecmp m2.name name = 0 → m1 = m2) →
        ((∃ mod, find_modptr_byname Modules name 1 = some mod) ↔
          ∃ m ∈ Modules, m.loaded = true ∧ strcasecmp m.name name = 0)) := by
  have heq : find_modptr_byname Modules name 1
      = match Modules.find? (fun m => decide (strcasecmp m.name name = 0)) with
        | some m => if m.loaded = true then some m else none
        | none => none := by
    rw [find_modptr_byname_eq_find]
    cases Modules.find? (fun m => decide (strcasecmp m.name name = 0)) with
    | none => rfl
    | some m => cases hl : m.loaded <;> simp [hl]
  refine ⟨heq, ?_, ?_⟩
  · intro mod h
    obtain ⟨h1, h2, h3⟩ := find_modptr_byname_some Modules name 1 mod h
    exact ⟨h1, h3 (by decide), h2⟩
  · intro huniq
    constructor
    · rintro ⟨mod, h⟩
      obtain ⟨h1, h2, h3⟩ := find_modptr_byname_some Modules name 1 mod h
      exact ⟨mod, h1, h3 (by decide), h2⟩
    · rintro ⟨m, hm, hl, hz⟩
      rw [heq]
      cases hf : Modules.find? (fun m => decide (strcasecmp m.name name = 0)) with
      | none =>
        have := List.find?_eq_none.1 hf m hm
        simp [hz] at this
      | some m0 =>
        have hz0 : strcasecmp m0.name name = 0 := by
          have := List.find?_some hf
          simpa using this
        have hm0 : m0 ∈ Modules := List.mem_of_find?_eq_some hf
        have : m0 = m := huniq m0 hm0 m hm hz0 hz
        subst this
        exact ⟨m0, by simp [hl]⟩

/-- C19: round trip for a well-formed catalog. For a directly connected peer and
a catalog in which no name holds a space or a colon, no version holds a
space and `1 + |name| + 1 + |version| <= 63` for every entry, parsing the
messages sent by `reqmods_hook_serverconnect` with the tokenizer and splitter of
`require_modules` yields the catalog's (flag, name, version) triples in catalog
order, with flag 'G' exactly for the Global modules and every version
present. -/
theorem C19_roundtrip (BUFSIZE HOSTLEN : Nat) (sptr : Client) (Modules : List Module)
    (hc : sptr.MyConnect = true) (hB : modsize + 1 ≤ sendbufSize BUFSIZE HOSTLEN)
    (hname : ∀ m ∈ Modules, ' ' ∉ m.name ∧ ':' ∉ m.name)
    (hver : ∀ m ∈ Modules, ' ' ∉ m.version)
    (hlen : ∀ m ∈ Modules, 1 + m.name.length + 1 + m.version.length ≤ 63) :
    (reqmods_hook_serverconnect BUFSIZE HOSTLEN sptr Modules).flatMap (parse_message BUFSIZE)
        = Modules.map (fun m => (modflag m, m.name, some m.version)) ∧
      (∀ m : Module, (modflag m = 'G' ↔ m.global = true) ∧ (modflag m = 'L' ↔ m.global = false)) ∧
      (∀ e ∈ (reqmods_hook_serverconnect BUFSIZE HOSTLEN sptr Modules).flatMap
          (parse_message BUFSIZE), e.2.2 ≠ none) := by
  have h := hook_roundtrip BUFSIZE HOSTLEN sptr Modules hc hB hname hver hlen
  refine ⟨h, ?_, ?_⟩
  · intro m
    unfold modflag
    cases m.global <;> simp
  · intro e he
    rw [h] at he
    obtain ⟨m, _, rfl⟩ := List.mem_map.1 he
    simp

/-- C19 at a three-module catalog with `BUFSIZE = 512`, `HOSTLEN = 63`. -/
theorem C19_roundtrip_witness :
    (ex_peer.MyConnect = true ∧ modsize + 1 ≤ sendbufSize 512 63 ∧
        (∀ m ∈ [ex_bar, ex_chanfilter, ex_foo_testing], ' ' ∉ m.name ∧ ':' ∉ m.name) ∧
        (∀ m ∈ [ex_bar, ex_chanfilter, ex_foo_testing], ' ' ∉ m.version) ∧
        (∀ m ∈ [ex_bar, ex_chanfilter, ex_foo_testing],
          1 + m.name.length + 1 + m.version.length ≤ 63)) ∧
      (reqmods_hook_serverconnect 512 63 ex_peer
          [ex_bar, ex_chanfilter, ex_foo_testing]).flatMap (parse_message 512)
        = [ex_bar, ex_chanfilter, ex_foo_testing].map
            (fun m => (modflag m, m.name, some m.version)) :=
  ⟨by decide, (C19_roundtrip 512 63 ex_peer [ex_bar, ex_chanfilter, ex_foo_testing]
    (by decide) (by decide) (by decide) (by decide) (by decide)).1⟩

/-- C20 fails on the code: `reqmods_configrun_set` does not look at the name of the
set entry. It returns 1 for every entry and applies any directive named
`squit-on-deny`, `squit-on-missing` or `squit-on-mismatch`. The entry
`antirandom { threshold 7; }` of another module, which `reqmods_configtest_set`
passes over with 0, gets the result 1; the entry `anti-flood { squit-on-deny
yes; }`, passed over with 0 as well, gets the result 1 and switches
`squit_on_deny` on. -/
theorem C20_configrun_set_takes_any_entry :
    (∀ (config_checkval : Option CStr → Int) (cfg : cfgstruct) (ce : ConfigEntry),
        (reqmods_configrun_set config_checkval cfg ce).1 = 1) ∧
      reqmods_configtest_set ex_set_antirandom 0 = (0, 0) ∧
      reqmods_configrun_set ex_checkval ex_cfg_warn ex_set_antirandom = (1, ex_cfg_warn) ∧
      reqmods_configrun ex_checkval ex_state ex_set_antirandom ConfigType.CONFIG_SET
        = some (1, ex_state) ∧
      reqmods_configtest_set ex_set_other 0 = (0, 0) ∧
      reqmods_configrun_set ex_checkval ex_cfg_warn ex_set_other
        = (1, { squit_on_deny := 1, squit_on_missing := 0, squit_on_mismatch := 0 }) ∧
      reqmods_configrun ex_checkval ex_state ex_set_other ConfigType.CONFIG_SET
        = some (1, { ex_state with
            cfg := { squit_on_deny := 1, squit_on_missing := 0, squit_on_mismatch := 0 } }) := by
  refine ⟨fun _ _ _ => rfl, by decide, by decide, by decide, by decide, by decide, by decide⟩

/-! ## Lemmas: applying deny and require blocks -/

/-- What `reqmods_configrun_deny` adds does not depend on the list it is added to. -/
theorem reqmods_configrun_deny_store (L : List DenyMod) (ce : ConfigEntry) (r : Int × List DenyMod)
    (h : reqmods_configrun_deny L ce = some r) :
    ∃ pre, r.2 = pre ++ L ∧ ∀ L2, reqmods_configrun_deny L2 ce = some (r.1, pre ++ L2) := by
  unfold reqmods_configrun_deny at h
  cases hv : ce.ce_vardata with
  | none => simp [hv] at h
  | some v =>
    simp only [hv] at h
    by_cases hm : strcmp v "module".toList ≠ 0
    · rw [if_pos hm] at h
      simp only [Option.some.injEq] at h
      subst h
      refine ⟨[], rfl, ?_⟩
      intro L2
      simp only [reqmods_configrun_deny, hv, if_pos hm, List.nil_append]
    · rw [if_neg hm] at h
      cases hd : (ce.ce_entries.foldl configrun_deny_step (none, none)).1 with
      | none => simp [hd] at h
      | some name =>
        simp only [hd, Option.some.injEq, AddListItem] at h
        subst h
        refine ⟨[DenyMod.mk name
          (deny_reason (ce.ce_entries.foldl configrun_deny_step (none, none)).2)], rfl, ?_⟩
        intro L2
        simp only [reqmods_configrun_deny, hv, if_neg hm, hd, List.singleton_append, AddListItem]

theorem configrun_require_foldl_none (entries : List ConfigDirective) :
    entries.foldl configrun_require_step none = none := by
  induction entries with
  | nil => rfl
  | cons cep rest ih => simpa [List.foldl_cons, configrun_require_step] using ih

/-- Whether the directive loop of `reqmods_configrun_require` runs through depends on
the directives only. -/
theorem configrun_require_foldl_isSome (entries : List ConfigDirective) (M M2 : List Module)
    (b b2 : List CStr) :
    (entries.foldl configrun_require_step (some (M, b))).isSome
      = (entries.foldl configrun_require_step (some (M2, b2))).isSome := by
  induction entries generalizing M M2 b b2 with
  | nil => rfl
  | cons cep rest ih =>
    simp only [List.foldl_cons, configrun_require_step]
    by_cases hn : strcmp cep.ce_varname "name".toList = 0
    · rw [if_pos hn, if_pos hn]
      cases hv : cep.ce_vardata with
      | none => simp only [configrun_require_foldl_none]
      | some v =>
        simp only
        cases find_modptr_byname M v 0 <;> cases find_modptr_byname M2 v 0 <;> exact ih _ _ _ _
    · rw [if_neg hn, if_neg hn]
      exact ih _ _ _ _

theorem reqmods_configrun_require_isSome (M M2 : List Module) (ce : ConfigEntry) :
    (reqmods_configrun_require M ce).isSome = (reqmods_configrun_require M2 ce).isSome := by
  unfold reqmods_configrun_require
  cases hv : ce.ce_vardata with
  | none => rfl
  | some v =>
    simp only
    by_cases hm : strcmp v "module".toList ≠ 0
    · rw [if_pos hm, if_pos hm]; rfl
    · rw [if_neg hm, if_neg hm]
      have := configrun_require_foldl_isSome ce.ce_entries M M2 [] []
      cases h1 : ce.ce_entries.foldl configrun_require_step (some (M, [])) <;>
        cases h2 : ce.ce_entries.foldl configrun_require_step (some (M2, [])) <;>
        simp [h1, h2] at this ⊢

/-- One block: the rules it puts in front of the list are the same from every
state, and it runs through from every state if it does from one. -/
theorem reqmods_configrun_store (cv : Option CStr → Int) (st : ReqState) (ce : ConfigEntry)
    (type : ConfigType) (r : Int × ReqState) (h : reqmods_configrun cv st ce type = some r) :
    ∃ pre, r.2.DenyModList = pre ++ st.DenyModList ∧
      ∀ st2 : ReqState, ∃ r2, reqmods_configrun cv st2 ce type = some r2 ∧
        r2.2.DenyModList = pre ++ st2.DenyModList := by
  cases type with
  | CONFIG_DENY =>
    simp only [reqmods_configrun] at h
    cases hd : reqmods_configrun_deny st.DenyModList ce with
    | none => simp [hd] at h
    | some x =>
      simp only [hd, Option.map_some', Option.some.injEq] at h
      subst h
      obtain ⟨pre, h1, h2⟩ := reqmods_configrun_deny_store _ _ _ hd
      refine ⟨pre, h1, ?_⟩
      intro st2
      refine ⟨(x.1, { st2 with DenyModList := pre ++ st2.DenyModList }), ?_, rfl⟩
      simp only [reqmods_configrun, h2 st2.DenyModList, Option.map_some']
  | CONFIG_REQUIRE =>
    simp only [reqmods_configrun] at h
    cases hd : reqmods_configrun_require st.Modules ce with
    | none => simp [hd] at h
    | some x =>
      simp only [hd, Option.map_some', Option.some.injEq] at h
      subst h
      refine ⟨[], rfl, ?_⟩
      intro st2
      have hs := reqmods_configrun_require_isSome st.Modules st2.Modules ce
      rw [hd] at hs
      cases hd2 : reqmods_configrun_require st2.Modules ce with
      | none => simp [hd2] at hs
      | some y =>
        refine ⟨(y.1, { st2 with Modules := y.2.1 }), ?_, rfl⟩
        simp only [reqmods_configrun, hd2, Option.map_some']
  | CONFIG_SET =>
    simp only [reqmods_configrun, Option.some.injEq] at h
    subst h
    refine ⟨[], rfl, ?_⟩
    intro st2
    exact ⟨_, rfl, rfl⟩
  | CONFIG_OTHER =>
    simp only [reqmods_configrun, Option.some.injEq] at h
    subst h
    refine ⟨[], rfl, ?_⟩
    intro st2
    exact ⟨_, rfl, rfl⟩

/-- A whole configuration: likewise. -/
theorem apply_config_store (cv : Option CStr → Int) (blocks : List (ConfigEntry × ConfigType))
    (st st1 : ReqState) (h : apply_config cv st blocks = some st1) :
    ∃ pre, st1.DenyModList = pre ++ st.DenyModList ∧
      ∀ st2 : ReqState, ∃ st3, apply_config cv st2 blocks = some st3 ∧
        st3.DenyModList = pre ++ st2.DenyModList := by
  induction blocks generalizing st with
  | nil =>
    simp only [apply_config, Option.some.injEq] at h
    subst h
    exact ⟨[], rfl, fun st2 => ⟨st2, rfl, rfl⟩⟩
  | cons b rest ih =>
    simp only [apply_config] at h
    cases hr : reqmods_configrun cv st b.1 b.2 with
    | none => simp [hr] at h
    | some r =>
      simp only [hr] at h
      obtain ⟨pre1, h1, h2⟩ := reqmods_configrun_store cv st b.1 b.2 r hr
      obtain ⟨pre2, h3, h4⟩ := ih r.2 h
      refine ⟨pre2 ++ pre1, ?_, ?_⟩
      · rw [h3, h1, List.append_assoc]
      · intro st2
        obtain ⟨r2, h5, h6⟩ := h2 st2
        obtain ⟨st3, h7, h8⟩ := h4 r2.2
        refine ⟨st3, ?_, ?_⟩
        · simp only [apply_config, h5, h7]
        · rw [h8, h6, List.append_assoc]

/-! ## Claims on the Policy Store -/

/-- C11, as stated, fails: applying the block `deny module { name chanfilter; reason
banned; }` twice to the empty store leaves two rules, applying it once leaves
one. -/
theorem C11_second_apply_adds_again :
    (apply_config ex_checkval ex_state [(ex_deny_block, ConfigType.CONFIG_DENY)]).bind
        (fun st => apply_config ex_checkval st [(ex_deny_block, ConfigType.CONFIG_DENY)])
      ≠ apply_config ex_checkval ex_state [(ex_deny_block, ConfigType.CONFIG_DENY)] ∧
    ((apply_config ex_checkval ex_state [(ex_deny_block, ConfigType.CONFIG_DENY)]).bind
        (fun st => apply_config ex_checkval st [(ex_deny_block, ConfigType.CONFIG_DENY)])).map
      (fun st => st.DenyModList.length) = some 2 := by
  decide

/-- C11, amended: reload is unload, then apply. For every configuration and every
starting state from which `MOD_UNLOAD` followed by `reqmods_configrun` on each
block runs through, doing the same again from the state reached runs through
and leaves the same rules; the rules reached do not depend on the starting
state. Applied a second time without `MOD_UNLOAD`, the configuration adds its
rules again in front of those present. -/
theorem C11_reload_idempotent (config_checkval : Option CStr → Int)
    (blocks : List (ConfigEntry × ConfigType)) (st st1 : ReqState)
    (h : apply_config config_checkval (MOD_UNLOAD st) blocks = some st1) :
    (∃ st2, apply_config config_checkval (MOD_UNLOAD st1) blocks = some st2 ∧
        st2.DenyModList = st1.DenyModList) ∧
      (∀ st3 st4 : ReqState, apply_config config_checkval (MOD_UNLOAD st3) blocks = some st4 →
        st4.DenyModList = st1.DenyModList) ∧
      (∃ st5, apply_config config_checkval st1 blocks = some st5 ∧
        st5.DenyModList = st1.DenyModList ++ st1.DenyModList) := by
  obtain ⟨pre, h1, h2⟩ := apply_config_store config_checkval blocks _ _ h
  have hpre : st1.DenyModList = pre := by
    rw [h1]; simp [ MOD_UNLOAD]
  refine ⟨?_, ?_, ?_⟩
  · obtain ⟨st2, h3, h4⟩ := h2 (MOD_UNLOAD st1)
    refine ⟨st2, h3, ?_⟩
    rw [h4, hpre]; simp [ MOD_UNLOAD]
  · intro st3 st4 h34
    obtain ⟨st6, h3, h4⟩ := h2 (MOD_UNLOAD st3)
    rw [h34] at h3
    simp only [Option.some.injEq] at h3
    subst h3
    rw [h4, hpre]; simp [ MOD_UNLOAD]
  · obtain ⟨st5, h3, h4⟩ := h2 st1
    refine ⟨st5, h3, ?_⟩
    rw [h4, hpre]

/-- C11, amended, at a configuration with a deny, a require and a set block,
reloaded over a store that holds a stale rule. -/
theorem C11_reload_idempotent_witness :
    apply_config ex_checkval (MOD_UNLOAD { ex_state with DenyModList := [ex_deny, ex_deny] })
        [(ex_deny_block, ConfigType.CONFIG_DENY), (ex_require_block, ConfigType.CONFIG_REQUIRE),
          (ex_set_block, ConfigType.CONFIG_SET)]
      = some { DenyModList := [ex_deny],
               Modules := [{ ex_bar with global := true }],
               cfg := { squit_on_deny := 1, squit_on_missing := 0, squit_on_mismatch := 0 } } ∧
    ∃ st2, apply_config ex_checkval
        (MOD_UNLOAD { DenyModList := [ex_deny],
                      Modules := [{ ex_bar with global := true }],
                      cfg := { squit_on_deny := 1, squit_on_missing := 0, squit_on_mismatch := 0 } })
        [(ex_deny_block, ConfigType.CONFIG_DENY), (ex_require_block, ConfigType.CONFIG_REQUIRE),
          (ex_set_block, ConfigType.CONFIG_SET)] = some st2 ∧
      st2.DenyModList = [ex_deny] :=
  ⟨by decide, (C11_reload_idempotent ex_checkval
    [(ex_deny_block, ConfigType.CONFIG_DENY), (ex_require_block, ConfigType.CONFIG_REQUIRE),
      (ex_set_block, ConfigType.CONFIG_SET)]
    { ex_state with DenyModList := [ex_deny, ex_deny] }
    { DenyModList := [ex_deny],
      Modules := [{ ex_bar with global := true }],
      cfg := { squit_on_deny := 1, squit_on_missing := 0, squit_on_mismatch := 0 } }
    (by decide)).1⟩

/-- C12: add then find. For a `deny module` block whose directive loop leaves the
name `n` and the reason `r` (NULL when no `reason` directive gives one),
`reqmods_configrun_deny` returns 1 and puts one rule in front of the list, with
name `n` and with reason `r`, or the fixed default when `r` is NULL or empty.
After it `find_denymod_byname` returns that rule for every name `n` compares equal
to up to case, whatever the list held before, and for every other name
returns what it returned before. The blocks `name n; reason r;` and `name n;`
are of this kind. -/
theorem C12_add_then_find (DenyModList : List DenyMod) (ce : ConfigEntry) (v n : CStr)
    (r : Option CStr) (hv : ce.ce_vardata = some v) (hm : strcmp v "module".toList = 0)
    (hf : ce.ce_entries.foldl configrun_deny_step (none, none) = (some n, r)) :
    ∃ dmod, reqmods_configrun_deny DenyModList ce = some (1, dmod :: DenyModList) ∧
      dmod.name = n ∧
      dmod.reason = (match r with
        | some t => if t = [] then "A forbidden module is being used".toList else t
        | none => "A forbidden module is being used".toList) ∧
      (∀ n2, strcasecmp n n2 = 0 → find_denymod_byname (dmod :: DenyModList) n2 = some dmod) ∧
      (∀ n2, strcasecmp n n2 ≠ 0 →
        find_denymod_byname (dmod :: DenyModList) n2 = find_denymod_byname DenyModList n2) ∧
      (∀ (n3 : CStr) (r3 : Option CStr),
        [({ ce_varname := "name".toList, ce_vardata := some n3 } : ConfigDirective),
          { ce_varname := "reason".toList, ce_vardata := r3 }].foldl configrun_deny_step
            (none, none) = (some n3, r3) ∧
        [({ ce_varname := "name".toList, ce_vardata := some n3 } : ConfigDirective)].foldl
            configrun_deny_step (none, none) = (some n3, none)) := by
  refine ⟨{ name := n, reason := deny_reason r }, ?_, rfl, ?_, ?_, ?_, ?_⟩
  · simp only [reqmods_configrun_deny, hv, hf, AddListItem]
    rw [if_neg (by simpa using hm)]
  · cases r with
    | none => rfl
    | some t =>
      simp only [deny_reason, default_reason]
      by_cases ht : t = []
      · simp [ht]
      · have : t.length ≠ 0 := fun e => ht (List.length_eq_zero.1 e)
        simp [ht, this]
  · intro n2 h2
    simp [find_denymod_byname, h2]
  · intro n2 h2
    simp [find_denymod_byname, h2]
  · intro n3 r3
    have e1 : strcmp "name".toList "name".toList = 0 := by decide
    have e2 : ¬ strcmp "reason".toList "name".toList = 0 := by decide
    have e3 : strcmp "reason".toList "reason".toList = 0 := by decide
    constructor
    · simp only [List.foldl_cons, List.foldl_nil, configrun_deny_step, e1, e2, e3, ↓reduceIte]
    · simp only [List.foldl_cons, List.foldl_nil, configrun_deny_step, e1, ↓reduceIte]

/-- C12 at the block `deny module { name chanfilter; }` added to a store that
already holds a rule for `chanfilter` with the reason `banned`: the lookup of
`CHANFILTER` now gives the new rule with the default reason. -/
theorem C12_add_then_find_witness :
    (({ ce_varname := "deny".toList, ce_vardata := some "module".toList,
        ce_entries := [{ ce_varname := "name".toList,
                         ce_vardata := some "chanfilter".toList }] } : ConfigEntry).ce_vardata
        = some "module".toList ∧ strcmp "module".toList "module".toList = 0 ∧
      ({ ce_varname := "deny".toList, ce_vardata := some "module".toList,
         ce_entries := [{ ce_varname := "name".toList,
                          ce_vardata := some "chanfilter".toList }] } : ConfigEntry).ce_entries.foldl
        configrun_deny_step (none, none) = (some "chanfilter".toList, none)) ∧
    ∃ dmod, reqmods_configrun_deny [ex_deny]
        { ce_varname := "deny".toList, ce_vardata := some "module".toList,
          ce_entries := [{ ce_varname := "name".toList,
                           ce_vardata := some "chanfilter".toList }] }
        = some (1, dmod :: [ex_deny]) ∧
      dmod.name = "chanfilter".toList ∧
      dmod.reason = "A forbidden module is being used".toList ∧
      find_denymod_byname (dmod :: [ex_deny]) "CHANFILTER".toList = some dmod :=
  ⟨by decide,
    let ⟨dmod, h1, h2, h3, h4, _⟩ := C12_add_then_find [ex_deny]
      { ce_varname := "deny".toList, ce_vardata := some "module".toList,
        ce_entries := [{ ce_varname := "name".toList,
                         ce_vardata := some "chanfilter".toList }] }
      "module".toList "chanfilter".toList none rfl (by decide) (by decide)
    ⟨dmod, h1, h2, h3, h4 "CHANFILTER".toList (by decide)⟩⟩

/-! ## Lemmas: validation of deny and require blocks -/

theorem find_modptr_byname_loose_isSome (Modules : List Module) (v : CStr) :
    (find_modptr_byname Modules v 0).isSome = true ↔ ∃ m ∈ Modules, strcasecmp m.name v = 0 := by
  induction Modules with
  | nil => simp [find_modptr_byname]
  | cons m rest ih =>
    simp only [find_modptr_byname]
    by_cases hm : strcasecmp m.name v = 0
    · simp [hm]
    · simp [hm, ih]

theorem configtest_deny_step_eq (Modules : List Module) (st : Int × Int) (cep : ConfigDirective) :
    configtest_deny_step Modules st cep
      = (st.1 + (if deny_directive_error Modules cep = true then 1 else 0),
         if directive_gives_name cep = true then 1 else st.2) := by
  unfold configtest_deny_step deny_directive_error directive_gives_name directive_blank
  generalize "name".toList = nm
  generalize "reason".toList = rs
  by_cases h1 : cep.ce_varname = []
  · simp [h1]
  · have h1l : ¬ cep.ce_varname.length = 0 := fun e => h1 (List.length_eq_zero.1 e)
    rw [if_neg h1l]
    cases hv : cep.ce_vardata with
    | none => simp [h1]
    | some v =>
      by_cases h2 : v = []
      · simp [h1, h2]
      · have h2l : ¬ v.length = 0 := fun e => h2 (List.length_eq_zero.1 e)
        simp only [if_neg h2l]
        by_cases hn : strcmp cep.ce_varname nm = 0
        · simp only [if_pos hn]
          cases (find_modptr_byname Modules v 0).isSome <;> simp [h1, h2, hn]
        · simp only [if_neg hn]
          by_cases hr : strcmp cep.ce_varname rs = 0
          · simp [h1, h2, hn, hr]
          · simp [h1, h2, hn, hr]

theorem configtest_require_step_eq (Modules : List Module) (st : Int × Int)
    (cep : ConfigDirective) :
    configtest_require_step Modules st cep
      = (st.1 + (if require_directive_error Modules cep = true then 1 else 0),
         if directive_gives_name cep = true then 1 else st.2) := by
  unfold configtest_require_step require_directive_error directive_gives_name directive_blank
  generalize "name".toList = nm
  by_cases h1 : cep.ce_varname = []
  · simp [h1]
  · have h1l : ¬ cep.ce_varname.length = 0 := fun e => h1 (List.length_eq_zero.1 e)
    rw [if_neg h1l]
    cases hv : cep.ce_vardata with
    | none => simp [h1]
    | some v =>
      by_cases h2 : v = []
      · simp [h1, h2]
      · have h2l : ¬ v.length = 0 := fun e => h2 (List.length_eq_zero.1 e)
        simp only [if_neg h2l]
        by_cases hn : strcmp cep.ce_varname nm = 0
        · simp only [if_pos hn]
          cases hf : find_modptr_byname Modules v 0 <;> simp [h1, h2, hn]
        · simp [h1, h2, hn]

/-- The directive loop of a validation counts the directives in error and notes
whether a usable `name` was seen. -/
theorem configtest_foldl_eq (step : Int × Int → ConfigDirective → Int × Int)
    (err : ConfigDirective → Bool)
    (hstep : ∀ st cep, step st cep
      = (st.1 + (if err cep = true then 1 else 0),
         if directive_gives_name cep = true then 1 else st.2))
    (entries : List ConfigDirective) (st : Int × Int) :
    entries.foldl step st
      = (st.1 + (entries.countP err : Nat),
         if entries.any directive_gives_name = true then 1 else st.2) := by
  induction entries generalizing st with
  | nil => simp
  | cons cep rest ih =>
    rw [List.foldl_cons, ih, hstep]
    simp only [List.countP_cons, List.any_cons]
    by_cases he : err cep = true <;> by_cases hg : directive_gives_name cep = true
    · simp [he, hg]; omega
    · simp [he, hg]; omega
    · simp [he, hg]
    · simp [he, hg]

theorem directive_blank_eq_false (cep : ConfigDirective) :
    directive_blank cep = false ↔
      cep.ce_varname ≠ [] ∧ ∃ val, cep.ce_vardata = some val ∧ val ≠ [] := by
  unfold directive_blank
  cases hv : cep.ce_vardata with
  | none => simp
  | some v => simp

theorem deny_directive_error_eq_false (Modules : List Module) (cep : ConfigDirective) :
    deny_directive_error Modules cep = false ↔
      cep.ce_varname ≠ [] ∧ (∃ val, cep.ce_vardata = some val ∧ val ≠ []) ∧
        (strcmp cep.ce_varname "name".toList = 0 ∨ strcmp cep.ce_varname "reason".toList = 0) ∧
        (strcmp cep.ce_varname "name".toList = 0 → ∀ val, cep.ce_vardata = some val →
          ∀ m ∈ Modules, strcasecmp m.name val ≠ 0) := by
  unfold deny_directive_error
  generalize "name".toList = nm
  generalize "reason".toList = rs
  rw [Bool.or_eq_false_iff, directive_blank_eq_false]
  constructor
  · rintro ⟨⟨h1, val, hv, h2⟩, h3⟩
    refine ⟨h1, ⟨val, hv, h2⟩, ?_, ?_⟩
    · by_cases hn : strcmp cep.ce_varname nm = 0
      · exact Or.inl hn
      · rw [if_neg hn] at h3
        right
        simpa using h3
    · intro hn val2 hv2 m hm hz
      rw [if_pos hn, hv] at h3
      rw [hv] at hv2
      simp only [Option.some.injEq] at hv2
      subst hv2
      have : (find_modptr_byname Modules val 0).isSome = true :=
        (find_modptr_byname_loose_isSome Modules val).2 ⟨m, hm, hz⟩
      dsimp only at h3
      rw [this] at h3
      simp at h3
  · rintro ⟨h1, ⟨val, hv, h2⟩, h3, h4⟩
    refine ⟨⟨h1, val, hv, h2⟩, ?_⟩
    by_cases hn : strcmp cep.ce_varname nm = 0
    · rw [if_pos hn, hv]
      dsimp only
      cases hf : (find_modptr_byname Modules val 0).isSome with
      | false => rfl
      | true =>
        obtain ⟨m, hm, hz⟩ := (find_modptr_byname_loose_isSome Modules val).1 hf
        exact absurd hz (h4 hn val hv m hm)
    · rw [if_neg hn]
      rcases h3 with h3 | h3
      · exact absurd h3 hn
      · simp [h3]

theorem require_directive_error_eq_false (Modules : List Module) (cep : ConfigDirective) :
    require_directive_error Modules cep = false ↔
      cep.ce_varname ≠ [] ∧ (∃ val, cep.ce_vardata = some val ∧ val ≠ []) ∧
        strcmp cep.ce_varname "name".toList = 0 ∧
        (∀ val, cep.ce_vardata = some val → ∃ m ∈ Modules, strcasecmp m.name val = 0) := by
  unfold require_directive_error
  generalize "name".toList = nm
  rw [Bool.or_eq_false_iff, directive_blank_eq_false]
  constructor
  · rintro ⟨⟨h1, val, hv, h2⟩, h3⟩
    by_cases hn : strcmp cep.ce_varname nm = 0
    · refine ⟨h1, ⟨val, hv, h2⟩, hn, ?_⟩
      intro val2 hv2
      rw [if_pos hn, hv] at h3
      rw [hv] at hv2
      simp only [Option.some.injEq] at hv2
      subst hv2
      apply (find_modptr_byname_loose_isSome Modules val).1
      cases hf : find_modptr_byname Modules val 0 with
      | none => simp [hf] at h3
      | some m => rfl
    · rw [if_neg hn] at h3
      simp at h3
  · rintro ⟨h1, ⟨val, hv, h2⟩, hn, h4⟩
    refine ⟨⟨h1, val, hv, h2⟩, ?_⟩
    rw [if_pos hn, hv]
    dsimp only
    have := (find_modptr_byname_loose_isSome Modules val).2 (h4 val hv)
    cases hf : find_modptr_byname Modules val 0 with
    | none => simp [hf] at this
    | some m => rfl

theorem directive_gives_name_iff (cep : ConfigDirective) :
    directive_gives_name cep = true ↔
      directive_blank cep = false ∧ strcmp cep.ce_varname "name".toList = 0 := by
  unfold directive_gives_name
  generalize "name".toList = nm
  simp

/-- The error count of a validation is 0 exactly when no directive is in error and
a usable `name` directive is there. -/
theorem configtest_count_eq_zero (err : ConfigDirective → Bool) (entries : List ConfigDirective) :
    entries.countP err + (if entries.any directive_gives_name = true then 0 else 1) = 0 ↔
      (∀ cep ∈ entries, err cep = false) ∧ ∃ cep ∈ entries, directive_gives_name cep = true := by
  constructor
  · intro h
    have h1 : entries.countP err = 0 := by omega
    have h2 : entries.any directive_gives_name = true := by
      by_contra hc
      rw [if_neg hc] at h
      omega
    refine ⟨?_, ?_⟩
    · intro cep hc
      have := List.countP_eq_zero.1 h1 cep hc
      simpa using this
    · simpa using h2
  · rintro ⟨h1, h2⟩
    have h3 : entries.countP err = 0 := by
      apply List.countP_eq_zero.2
      intro cep hc
      simp [h1 cep hc]
    have h4 : entries.any directive_gives_name = true := by simpa using h2
    rw [h3, if_pos h4]

/-- The value a validation returns and leaves in `*errs` for a `module` block. -/
theorem configtest_result_eq (step : Int × Int → ConfigDirective → Int × Int)
    (err : ConfigDirective → Bool)
    (hstep : ∀ st cep, step st cep
      = (st.1 + (if err cep = true then 1 else 0),
         if directive_gives_name cep = true then 1 else st.2))
    (entries : List ConfigDirective) :
    (let st := entries.foldl step (0, 0)
     let errors := if st.2 = 0 then st.1 + 1 else st.1
     ((if errors ≠ 0 then (-1 : Int) else 1), errors))
      = ((if entries.countP err + (if entries.any directive_gives_name = true then 0 else 1) = 0
            then (1 : Int) else -1),
         ((entries.countP err + (if entries.any directive_gives_name = true then 0 else 1) : Nat)
            : Int)) := by
  rw [configtest_foldl_eq step err hstep]
  by_cases ha : entries.any directive_gives_name = true
  · simp only [ha, if_true]
    by_cases hc : entries.countP err = 0
    · simp [hc]
    · have : ¬ ((entries.countP err : Nat) : Int) = 0 := by omega
      simp [hc, this]
  · simp only [ha, if_false]
    have : ¬ (((entries.countP err : Nat) : Int) + 1 = 0) := by omega
    simp [this]

/-! ## Claims on the validation of deny and require blocks -/

/-- C13: `reqmods_configtest_deny`. A block whose type is not `module` returns 0 and
leaves `*errs` as it was. For a `deny module` block the function counts one
error for every directive that is blank, is a `name` whose value the loose
catalog lookup finds, or is neither `name` nor `reason`, and one more when no
usable `name` directive is there; it leaves that count in `*errs` and returns
1 when the count is 0 and -1 otherwise (the count being then at least 1).
The count is 0 exactly when every directive has a non-blank name and a
non-blank value and is `name` or `reason`, no `name` value equals up to case
the name of a module in the catalog, loaded or not, and a `name` directive is
present. -/
theorem C13_configtest_deny (Modules : List Module) (ce : ConfigEntry) (errs : Int) (v : CStr)
    (hv : ce.ce_vardata = some v) :
    (strcmp v "module".toList ≠ 0 → reqmods_configtest_deny Modules ce errs = some (0, errs)) ∧
      (strcmp v "module".toList = 0 →
        ∃ n : Nat,
          n = ce.ce_entries.countP (deny_directive_error Modules)
              + (if ce.ce_entries.any directive_gives_name = true then 0 else 1) ∧
          reqmods_configtest_deny Modules ce errs
            = some ((if n = 0 then (1 : Int) else -1), (n : Int)) ∧
          (n ≠ 0 → 1 ≤ n) ∧
          (n = 0 ↔
            (∀ cep ∈ ce.ce_entries,
              cep.ce_varname ≠ [] ∧ (∃ val, cep.ce_vardata = some val ∧ val ≠ []) ∧
              (strcmp cep.ce_varname "name".toList = 0 ∨
                strcmp cep.ce_varname "reason".toList = 0) ∧
              (strcmp cep.ce_varname "name".toList = 0 → ∀ val, cep.ce_vardata = some val →
                ∀ m ∈ Modules, strcasecmp m.name val ≠ 0)) ∧
            ∃ cep ∈ ce.ce_entries, strcmp cep.ce_varname "name".toList = 0)) := by
  refine ⟨?_, ?_⟩
  · intro hm
    simp only [reqmods_configtest_deny, hv]
    rw [if_pos hm]
  · intro hm
    refine ⟨_, rfl, ?_, fun h => Nat.one_le_iff_ne_zero.2 h, ?_⟩
    · simp only [reqmods_configtest_deny, hv]
      rw [if_neg (by simpa using hm)]
      exact congrArg some
        (configtest_result_eq _ _ (configtest_deny_step_eq Modules) ce.ce_entries)
    · rw [configtest_count_eq_zero]
      constructor
      · rintro ⟨h1, cep, hc, hg⟩
        refine ⟨fun c hcm => (deny_directive_error_eq_false Modules c).1 (h1 c hcm), cep, hc, ?_⟩
        exact ((directive_gives_name_iff cep).1 hg).2
      · rintro ⟨h1, cep, hc, hn⟩
        refine ⟨fun c hcm => (deny_directive_error_eq_false Modules c).2 (h1 c hcm), cep, hc, ?_⟩
        obtain ⟨g1, g2, _, _⟩ := h1 cep hc
        exact (directive_gives_name_iff cep).2 ⟨(directive_blank_eq_false cep).2 ⟨g1, g2⟩, hn⟩

/-- C13 at the block `deny module { name bar; colour red; }` with `bar` in the
catalog: two errors, the value returned is -1. -/
theorem C13_configtest_deny_witness :
    (({ ce_varname := "deny".toList, ce_vardata := some "module".toList,
        ce_entries := [{ ce_varname := "name".toList, ce_vardata := some "bar".toList },
                       { ce_varname := "colour".toList, ce_vardata := some "red".toList }] }
        : ConfigEntry).ce_vardata = some "module".toList ∧
      strcmp "module".toList "module".toList = 0) ∧
    reqmods_configtest_deny [ex_bar]
        { ce_varname := "deny".toList, ce_vardata := some "module".toList,
          ce_entries := [{ ce_varname := "name".toList, ce_vardata := some "bar".toList },
                         { ce_varname := "colour".toList, ce_vardata := some "red".toList }] } 0
      = some (-1, 2) :=
  ⟨by decide,
    let ⟨n, h1, h2, _, _⟩ := (C13_configtest_deny [ex_bar]
      { ce_varname := "deny".toList, ce_vardata := some "module".toList,
        ce_entries := [{ ce_varname := "name".toList, ce_vardata := some "bar".toList },
                       { ce_varname := "colour".toList, ce_vardata := some "red".toList }] }
      0 "module".toList rfl).2 (by decide)
    have hn : n = 2 := h1.trans (by decide)
    by rw [h2, hn]; rfl⟩

/-- C14: `reqmods_configtest_require`. A block whose type is not `module` returns 0 and
leaves `*errs` as it was. For a `require module` block the function counts one
error for every directive that is blank, is a `name` whose value the loose
catalog lookup does not find, or is not `name` (a `reason` directive
included), and one more when no usable `name` directive is there; it leaves
that count in `*errs` and returns 1 when the count is 0 and -1 otherwise. The
count is 0 exactly when every directive has a non-blank name and a
non-blank value and is `name`, every `name` value equals up to case the name
of some module in the catalog, whatever its load state, and a `name`
directive is present. -/
theorem C14_configtest_require (Modules : List Module) (ce : ConfigEntry) (errs : Int)
    (v : CStr) (hv : ce.ce_vardata = some v) :
    (strcmp v "module".toList ≠ 0 →
        reqmods_configtest_require Modules ce errs = some (0, errs)) ∧
      (strcmp v "module".toList = 0 →
        ∃ n : Nat,
          n = ce.ce_entries.countP (require_directive_error Modules)
              + (if ce.ce_entries.any directive_gives_name = true then 0 else 1) ∧
          reqmods_configtest_require Modules ce errs
            = some ((if n = 0 then (1 : Int) else -1), (n : Int)) ∧
          (n ≠ 0 → 1 ≤ n) ∧
          (n = 0 ↔
            (∀ cep ∈ ce.ce_entries,
              cep.ce_varname ≠ [] ∧ (∃ val, cep.ce_vardata = some val ∧ val ≠ []) ∧
              strcmp cep.ce_varname "name".toList = 0 ∧
              (∀ val, cep.ce_vardata = some val →
                ∃ m ∈ Modules, strcasecmp m.name val = 0)) ∧
            ∃ cep ∈ ce.ce_entries, strcmp cep.ce_varname "name".toList = 0)) := by
  refine ⟨?_, ?_⟩
  · intro hm
    simp only [reqmods_configtest_require, hv]
    rw [if_pos hm]
  · intro hm
    refine ⟨_, rfl, ?_, fun h => Nat.one_le_iff_ne_zero.2 h, ?_⟩
    · simp only [reqmods_configtest_require, hv]
      rw [if_neg (by simpa using hm)]
      exact congrArg some
        (configtest_result_eq _ _ (configtest_require_step_eq Modules) ce.ce_entries)
    · rw [configtest_count_eq_zero]
      constructor
      · rintro ⟨h1, cep, hc, hg⟩
        refine ⟨fun c hcm => (require_directive_error_eq_false Modules c).1 (h1 c hcm),
          cep, hc, ?_⟩
        exact ((directive_gives_name_iff cep).1 hg).2
      · rintro ⟨h1, cep, hc, hn⟩
        refine ⟨fun c hcm => (require_directive_error_eq_false Modules c).2 (h1 c hcm),
          cep, hc, ?_⟩
        obtain ⟨g1, g2, _, _⟩ := h1 cep hc
        exact (directive_gives_name_iff cep).2 ⟨(directive_blank_eq_false cep).2 ⟨g1, g2⟩, hn⟩

/-- C14 at the block `require module { name BAR; reason needed; }` with `bar` in the
catalog: the name is found, the `reason` directive is the one error. -/
theorem C14_configtest_require_witness :
    (({ ce_varname := "require".toList, ce_vardata := some "module".toList,
        ce_entries := [{ ce_varname := "name".toList, ce_vardata := some "BAR".toList },
                       { ce_varname := "reason".toList, ce_vardata := some "needed".toList }] }
        : ConfigEntry).ce_vardata = some "module".toList ∧
      strcmp "module".toList "module".toList = 0) ∧
    reqmods_configtest_require [ex_bar]
        { ce_varname := "require".toList, ce_vardata := some "module".toList,
          ce_entries := [{ ce_varname := "name".toList, ce_vardata := some "BAR".toList },
                         { ce_varname := "reason".toList, ce_vardata := some "needed".toList }] } 0
      = some (-1, 1) :=
  ⟨by decide,
    let ⟨n, h1, h2, _, _⟩ := (C14_configtest_require [ex_bar]
      { ce_varname := "require".toList, ce_vardata := some "module".toList,
        ce_entries := [{ ce_varname := "name".toList, ce_vardata := some "BAR".toList },
                       { ce_varname := "reason".toList, ce_vardata := some "needed".toList }] }
      0 "module".toList rfl).2 (by decide)
    have hn : n = 1 := h1.trans (by decide)
    by rw [h2, hn]; rfl⟩

/-! ## Lemmas: raising a module to Global -/

theorem mark_global_byname_names (Modules : List Module) (v : CStr) :
    (mark_global_byname Modules v).map (fun m => m.name) = Modules.map (fun m => m.name) := by
  induction Modules with
  | nil => rfl
  | cons m rest ih =>
    simp only [mark_global_byname]
    split
    · rfl
    · simp [ih]

theorem mark_global_byname_length (Modules : List Module) (v : CStr) :
    (mark_global_byname Modules v).length = Modules.length := by
  have := congrArg List.length (mark_global_byname_names Modules v)
  simpa using this

theorem mark_global_byname_not_found (Modules : List Module) (v : CStr)
    (h : find_modptr_byname Modules v 0 = none) : mark_global_byname Modules v = Modules := by
  induction Modules with
  | nil => rfl
  | cons m rest ih =>
    simp only [find_modptr_byname] at h
    simp only [mark_global_byname]
    by_cases hm : strcasecmp m.name v = 0
    · simp [hm] at h
    · rw [if_neg hm] at h
      rw [if_neg hm, ih h]

theorem find_modptr_byname_loose_names (Modules : List Module) (v : CStr) :
    (find_modptr_byname Modules v 0).isSome = true ↔
      ∃ n ∈ Modules.map (fun m => m.name), strcasecmp n v = 0 := by
  rw [find_modptr_byname_loose_isSome]
  simp

theorem find_modptr_byname_loose_congr (M M2 : List Module) (v : CStr)
    (h : M2.map (fun m => m.name) = M.map (fun m => m.name)) :
    (find_modptr_byname M2 v 0).isSome = (find_modptr_byname M v 0).isSome := by
  apply Bool.eq_iff_iff.2
  rw [find_modptr_byname_loose_names, find_modptr_byname_loose_names, h]

/-- One step of the directive loop from a state that is not `none`. -/
theorem configrun_require_step_some (M : List Module) (b : List CStr) (cep : ConfigDirective) :
    configrun_require_step (some (M, b)) cep
      = if strcmp cep.ce_varname "name".toList = 0 then
          (match cep.ce_vardata with
            | none => none
            | some v =>
              some (mark_global_byname M v,
                if (find_modptr_byname M v 0).isSome = true then b else b ++ [v]))
        else some (M, b) := by
  simp only [configrun_require_step]
  split
  · cases cep.ce_vardata with
    | none => rfl
    | some v =>
      simp only
      cases hf : find_modptr_byname M v 0 with
      | none => simp [mark_global_byname_not_found M v hf]
      | some m => simp
  · rfl

theorem firstMatch_names (Modules : List Module) (v : CStr) (i : Nat) :
    FirstMatch Modules v i ↔
      (∃ n, (Modules.map (fun m => m.name))[i]? = some n ∧ strcasecmp n v = 0) ∧
        ∀ j, j < i → ∀ nj, (Modules.map (fun m => m.name))[j]? = some nj →
          strcasecmp nj v ≠ 0 := by
  unfold FirstMatch
  simp only [List.getElem?_map, Option.map_eq_some']
  constructor
  · rintro ⟨⟨m, hm, hz⟩, h2⟩
    refine ⟨⟨m.name, ⟨m, hm, rfl⟩, hz⟩, ?_⟩
    rintro j hj nj ⟨mj, hmj, rfl⟩
    exact h2 j hj mj hmj
  · rintro ⟨⟨n, ⟨m, hm, rfl⟩, hz⟩, h2⟩
    refine ⟨⟨m, hm, hz⟩, ?_⟩
    intro j hj mj hmj
    exact h2 j hj mj.name ⟨mj, hmj, rfl⟩

theorem firstMatch_congr (M M2 : List Module) (v : CStr) (i : Nat)
    (h : M2.map (fun m => m.name) = M.map (fun m => m.name)) :
    FirstMatch M2 v i ↔ FirstMatch M v i := by
  rw [firstMatch_names, firstMatch_names, h]

theorem firstMatch_zero (m : Module) (rest : List Module) (v : CStr)
    (h : strcasecmp m.name v = 0) (i : Nat) : FirstMatch (m :: rest) v i ↔ i = 0 := by
  unfold FirstMatch
  constructor
  · rintro ⟨_, h2⟩
    by_contra hi
    exact h2 0 (Nat.pos_of_ne_zero hi) m (by simp) h
  · rintro rfl
    exact ⟨⟨m, by simp, h⟩, fun j hj => absurd hj (Nat.not_lt_zero j)⟩

theorem firstMatch_succ (m : Module) (rest : List Module) (v : CStr)
    (h : strcasecmp m.name v ≠ 0) (i : Nat) :
    FirstMatch (m :: rest) v (i + 1) ↔ FirstMatch rest v i := by
  unfold FirstMatch
  constructor
  · rintro ⟨⟨mi, hmi, hz⟩, h2⟩
    refine ⟨⟨mi, by simpa using hmi, hz⟩, ?_⟩
    intro j hj mj hmj
    exact h2 (j + 1) (by omega) mj (by simpa using hmj)
  · rintro ⟨⟨mi, hmi, hz⟩, h2⟩
    refine ⟨⟨mi, by simpa using hmi, hz⟩, ?_⟩
    intro j hj mj hmj
    cases j with
    | zero =>
      simp only [List.getElem?_cons_zero, Option.some.injEq] at hmj
      subst hmj
      exact h
    | succ k => exact h2 k (by omega) mj (by simpa using hmj)

theorem firstMatch_zero_not (m : Module) (rest : List Module) (v : CStr)
    (h : strcasecmp m.name v ≠ 0) : ¬ FirstMatch (m :: rest) v 0 := by
  rintro ⟨⟨m0, hm0, hz⟩, _⟩
  simp only [List.getElem?_cons_zero, Option.some.injEq] at hm0
  subst hm0
  exact h hz

/-- What `mark_global_byname` does to the module at index `i`: nothing but setting
the Global flag when `i` is the first index whose name matches. -/
theorem mark_global_byname_get (Modules : List Module) (v : CStr) (i : Nat) (m : Module)
    (h : Modules[i]? = some m) :
    ∃ m2, (mark_global_byname Modules v)[i]? = some m2 ∧ m2.name = m.name ∧
      m2.version = m.version ∧ m2.loaded = m.loaded ∧
      (m2.global = true ↔ m.global = true ∨ FirstMatch Modules v i) := by
  induction Modules generalizing i with
  | nil => simp at h
  | cons a rest ih =>
    simp only [mark_global_byname]
    by_cases ha : strcasecmp a.name v = 0
    · rw [if_pos ha]
      cases i with
      | zero =>
        simp only [List.getElem?_cons_zero, Option.some.injEq] at h
        subst h
        refine ⟨{ a with global := true }, by simp, rfl, rfl, rfl, ?_⟩
        simp [firstMatch_zero a rest v ha]
      | succ k =>
        refine ⟨m, by simpa using h, rfl, rfl, rfl, ?_⟩
        have : ¬ FirstMatch (a :: rest) v (k + 1) := by
          rw [firstMatch_zero a rest v ha]; omega
        simp [this]
    · rw [if_neg ha]
      cases i with
      | zero =>
        simp only [List.getElem?_cons_zero, Option.some.injEq] at h
        subst h
        refine ⟨a, by simp, rfl, rfl, rfl, ?_⟩
        simp [firstMatch_zero_not a rest v ha]
      | succ k =>
        obtain ⟨m2, h1, h2, h3, h4, h5⟩ := ih k (by simpa using h)
        refine ⟨m2, by simpa using h1, h2, h3, h4, ?_⟩
        rw [h5, firstMatch_succ a rest v ha]

/-! ## Lemmas: the directive loop of `reqmods_configrun_require` -/

theorem requiredAt_congr (M M2 : List Module) (entries : List ConfigDirective) (i : Nat)
    (h : M2.map (fun m => m.name) = M.map (fun m => m.name)) :
    RequiredAt M2 entries i ↔ RequiredAt M entries i := by
  unfold RequiredAt
  constructor
  · rintro ⟨cep, hc, hn, val, hv, hf⟩
    exact ⟨cep, hc, hn, val, hv, (firstMatch_congr M M2 val i h).1 hf⟩
  · rintro ⟨cep, hc, hn, val, hv, hf⟩
    exact ⟨cep, hc, hn, val, hv, (firstMatch_congr M M2 val i h).2 hf⟩

theorem requiredAt_cons_other (M : List Module) (cep : ConfigDirective)
    (rest : List ConfigDirective) (i : Nat)
    (hn : ¬ strcmp cep.ce_varname "name".toList = 0) :
    RequiredAt M (cep :: rest) i ↔ RequiredAt M rest i := by
  unfold RequiredAt
  constructor
  · rintro ⟨c, hc, hcn, rest2⟩
    rcases List.mem_cons.1 hc with h | h
    · subst h; exact absurd hcn hn
    · exact ⟨c, h, hcn, rest2⟩
  · rintro ⟨c, hc, hcn, rest2⟩
    exact ⟨c, List.mem_cons_of_mem _ hc, hcn, rest2⟩

theorem requiredAt_cons_name (M : List Module) (cep : ConfigDirective)
    (rest : List ConfigDirective) (i : Nat) (val : CStr)
    (hn : strcmp cep.ce_varname "name".toList = 0) (hv : cep.ce_vardata = some val) :
    RequiredAt M (cep :: rest) i ↔ FirstMatch M val i ∨ RequiredAt M rest i := by
  unfold RequiredAt
  constructor
  · rintro ⟨c, hc, hcn, v2, hv2, hf⟩
    rcases List.mem_cons.1 hc with h | h
    · subst h
      rw [hv] at hv2
      simp only [Option.some.injEq] at hv2
      subst hv2
      exact Or.inl hf
    · exact Or.inr ⟨c, h, hcn, v2, hv2, hf⟩
  · rintro (hf | ⟨c, hc, hcn, rest2⟩)
    · exact ⟨cep, by simp, hn, val, hv, hf⟩
    · exact ⟨c, List.mem_cons_of_mem _ hc, hcn, rest2⟩

/-- The loop changes no name. -/
theorem configrun_require_foldl_names (entries : List ConfigDirective) (M M2 : List Module)
    (b b2 : List CStr)
    (h : entries.foldl configrun_require_step (some (M, b)) = some (M2, b2)) :
    M2.map (fun m => m.name) = M.map (fun m => m.name) := by
  induction entries generalizing M b with
  | nil =>
    simp only [List.foldl_nil, Option.some.injEq, Prod.mk.injEq] at h
    rw [h.1]
  | cons cep rest ih =>
    rw [List.foldl_cons, configrun_require_step_some] at h
    by_cases hn : strcmp cep.ce_varname "name".toList = 0
    · rw [if_pos hn] at h
      cases hv : cep.ce_vardata with
      | none =>
        rw [hv] at h
        simp only [configrun_require_foldl_none] at h
        exact absurd h (by simp)
      | some val =>
        rw [hv] at h
        rw [ih _ _ h, mark_global_byname_names]
    · rw [if_neg hn] at h
      exact ih _ _ h

/-- What the loop does to the module at index `i`. -/
theorem configrun_require_foldl_get (entries : List ConfigDirective) (M M2 : List Module)
    (b b2 : List CStr)
    (h : entries.foldl configrun_require_step (some (M, b)) = some (M2, b2)) (i : Nat)
    (m : Module) (hm : M[i]? = some m) :
    ∃ m2, M2[i]? = some m2 ∧ m2.name = m.name ∧ m2.version = m.version ∧
      m2.loaded = m.loaded ∧ (m2.global = true ↔ m.global = true ∨ RequiredAt M entries i) := by
  induction entries generalizing M b m with
  | nil =>
    simp only [List.foldl_nil, Option.some.injEq, Prod.mk.injEq] at h
    refine ⟨m, by rw [← h.1]; exact hm, rfl, rfl, rfl, ?_⟩
    simp [RequiredAt]
  | cons cep rest ih =>
    rw [List.foldl_cons, configrun_require_step_some] at h
    by_cases hn : strcmp cep.ce_varname "name".toList = 0
    · rw [if_pos hn] at h
      cases hv : cep.ce_vardata with
      | none =>
        rw [hv] at h
        simp only [configrun_require_foldl_none] at h
        exact absurd h (by simp)
      | some val =>
        rw [hv] at h
        obtain ⟨m1, g1, g2, g3, g4, g5⟩ := mark_global_byname_get M val i m hm
        obtain ⟨m2, k1, k2, k3, k4, k5⟩ := ih _ _ h m1 g1
        refine ⟨m2, k1, k2.trans g2, k3.trans g3, k4.trans g4, ?_⟩
        rw [k5, g5, requiredAt_cons_name M cep rest i val hn hv,
          requiredAt_congr M _ rest i (mark_global_byname_names M val)]
        exact or_assoc
    · rw [if_neg hn] at h
      obtain ⟨m2, k1, k2, k3, k4, k5⟩ := ih _ _ h m hm
      refine ⟨m2, k1, k2, k3, k4, ?_⟩
      rw [k5, requiredAt_cons_other M cep rest i hn]

/-- Whether the loop runs through, and the names it reports, depend on the names in
the catalog only. -/
theorem configrun_require_foldl_bugs (entries : List ConfigDirective) (M M2 : List Module)
    (b : List CStr) (h : M2.map (fun m => m.name) = M.map (fun m => m.name)) :
    (entries.foldl configrun_require_step (some (M2, b))).map (fun r => r.2)
      = (entries.foldl configrun_require_step (some (M, b))).map (fun r => r.2) := by
  induction entries generalizing M M2 b with
  | nil => rfl
  | cons cep rest ih =>
    rw [List.foldl_cons, List.foldl_cons, configrun_require_step_some,
      configrun_require_step_some]
    by_cases hn : strcmp cep.ce_varname "name".toList = 0
    · rw [if_pos hn, if_pos hn]
      cases hv : cep.ce_vardata with
      | none => rfl
      | some val =>
        simp only
        rw [find_modptr_byname_loose_congr M M2 val h]
        apply ih
        rw [mark_global_byname_names, mark_global_byname_names, h]
    · rw [if_neg hn, if_neg hn]
      exact ih _ _ _ h

/-- When every directive is a `name` whose value is in the catalog, the loop runs
through and reports nothing. -/
theorem configrun_require_foldl_ok (entries : List ConfigDirective) (M : List Module)
    (b : List CStr)
    (h : ∀ cep ∈ entries, strcmp cep.ce_varname "name".toList = 0 →
      ∃ val, cep.ce_vardata = some val ∧ ∃ m ∈ M, strcasecmp m.name val = 0) :
    ∃ M2, entries.foldl configrun_require_step (some (M, b)) = some (M2, b) := by
  induction entries generalizing M with
  | nil => exact ⟨M, rfl⟩
  | cons cep rest ih =>
    rw [List.foldl_cons, configrun_require_step_some]
    by_cases hn : strcmp cep.ce_varname "name".toList = 0
    · rw [if_pos hn]
      obtain ⟨val, hv, hfound⟩ := h cep (by simp) hn
      rw [hv]
      simp only
      rw [if_pos ((find_modptr_byname_loose_isSome M val).2 hfound)]
      apply ih
      intro c hc hcn
      obtain ⟨val2, hv2, m, hm, hz⟩ := h c (List.mem_cons_of_mem _ hc) hcn
      refine ⟨val2, hv2, ?_⟩
      have h1 : (find_modptr_byname M val2 0).isSome = true :=
        (find_modptr_byname_loose_isSome M val2).2 ⟨m, hm, hz⟩
      rw [← find_modptr_byname_loose_congr M (mark_global_byname M val) val2
        (mark_global_byname_names M val)] at h1
      exact (find_modptr_byname_loose_isSome _ val2).1 h1
    · rw [if_neg hn]
      exact ih M (fun c hc hcn => h c (List.mem_cons_of_mem _ hc) hcn)

theorem module_eq_of_fields (m m2 : Module) (h1 : m2.name = m.name)
    (h2 : m2.version = m.version) (h3 : m2.loaded = m.loaded)
    (h4 : m2.global = true ↔ m.global = true) : m2 = m := by
  cases m with
  | mk n v g l =>
    cases m2 with
    | mk n2 v2 g2 l2 =>
      simp only at h1 h2 h3 h4
      subst h1 h2 h3
      have : g2 = g := by
        cases g <;> cases g2 <;> simp at h4 ⊢
      rw [this]

/-- Running the loop again on its own result changes nothing. -/
theorem configrun_require_foldl_again (entries : List ConfigDirective) (M M2 : List Module)
    (bugs : List CStr)
    (h : entries.foldl configrun_require_step (some (M, [])) = some (M2, bugs)) :
    entries.foldl configrun_require_step (some (M2, [])) = some (M2, bugs) := by
  have hnames := configrun_require_foldl_names entries M M2 [] bugs h
  have hb := configrun_require_foldl_bugs entries M M2 [] hnames
  rw [h] at hb
  cases h2 : entries.foldl configrun_require_step (some (M2, [])) with
  | none => rw [h2] at hb; simp at hb
  | some r =>
    obtain ⟨M3, bugs3⟩ := r
    rw [h2] at hb
    simp only [Option.map_some', Option.some.injEq] at hb
    subst hb
    have hnames3 := configrun_require_foldl_names entries M2 M3 [] _ h2
    have hlen2 : M2.length = M.length := by
      have := congrArg List.length hnames
      simpa using this
    have hlen3 : M3.length = M2.length := by
      have := congrArg List.length hnames3
      simpa using this
    have : M3 = M2 := by
      apply List.ext_getElem?
      intro i
      cases hi : M2[i]? with
      | none =>
        rw [List.getElem?_eq_none_iff] at hi ⊢
        omega
      | some m2 =>
        have hlt : i < M.length := by
          have := (List.getElem?_eq_some_iff.1 hi).1
          omega
        obtain ⟨m, hm⟩ : ∃ m, M[i]? = some m := ⟨M[i], List.getElem?_eq_getElem hlt⟩
        obtain ⟨m2b, a1, _, _, _, a5⟩ := configrun_require_foldl_get entries M M2 [] _ h i m hm
        rw [hi] at a1
        simp only [Option.some.injEq] at a1
        subst a1
        obtain ⟨m3, c1, c2, c3, c4, c5⟩ :=
          configrun_require_foldl_get entries M2 M3 [] _ h2 i m2 hi
        rw [c1]
        congr 1
        apply module_eq_of_fields m2 m3 c2 c3 c4
        rw [c5, requiredAt_congr M M2 entries i hnames, a5]
        constructor
        · rintro (h | h)
          · exact h
          · exact Or.inr h
        · exact Or.inl
    rw [this]

/-- A `require module` block that validation passes without error holds only `name`
directives whose values are in the catalog. -/
theorem configtest_require_passed (Modules : List Module) (ce : ConfigEntry) (errs : Int)
    (v : CStr) (hv : ce.ce_vardata = some v) (hm : strcmp v "module".toList = 0)
    (h : reqmods_configtest_require Modules ce errs = some (1, 0)) :
    ∀ cep ∈ ce.ce_entries, strcmp cep.ce_varname "name".toList = 0 ∧
      ∃ val, cep.ce_vardata = some val ∧ ∃ m ∈ Modules, strcasecmp m.name val = 0 := by
  simp only [reqmods_configtest_require, hv] at h
  rw [if_neg (by simpa using hm)] at h
  have hr := configtest_result_eq _ _ (configtest_require_step_eq Modules) ce.ce_entries
  have h2 : (((if ce.ce_entries.countP (require_directive_error Modules)
        + (if ce.ce_entries.any directive_gives_name = true then 0 else 1) = 0
        then (1 : Int) else -1),
      ((ce.ce_entries.countP (require_directive_error Modules)
        + (if ce.ce_entries.any directive_gives_name = true then 0 else 1) : Nat) : Int))
      : Int × Int) = (1, 0) := by
    rw [← hr]
    exact Option.some.inj h
  have h3 : ce.ce_entries.countP (require_directive_error Modules)
      + (if ce.ce_entries.any directive_gives_name = true then 0 else 1) = 0 := by
    have := congrArg Prod.snd h2
    simp only at this
    exact_mod_cast this
  obtain ⟨h4, _⟩ := (configtest_count_eq_zero _ _).1 h3
  intro cep hc
  obtain ⟨_, ⟨val, g1, _⟩, g2, g3⟩ := (require_directive_error_eq_false Modules cep).1 (h4 cep hc)
  exact ⟨g2, val, g1, g3 val g1⟩

/-! ## Claim on applying a require block -/

/-- C15: `reqmods_configrun_require` changes the catalog only by raising modules to
Global. A block whose type is not `module` returns 0 and leaves the catalog
as it was. When the function runs through on a `require module` block it
returns 1, the catalog keeps its length and order, every module keeps its
name, version and load state, and a module is Global afterwards exactly
when it was Global before or is the first catalog entry whose name equals
up to case the value of a `name` directive of the block; so no Global flag
is cleared. Run again on the catalog it left, it leaves that catalog
unchanged. When `reqmods_configtest_require` returned 1 with no error for the
same block and catalog, the function runs through and reports no module as
not found. -/
theorem C15_configrun_require (Modules : List Module) (ce : ConfigEntry) (v : CStr)
    (hv : ce.ce_vardata = some v) :
    (strcmp v "module".toList ≠ 0 →
        reqmods_configrun_require Modules ce = some (0, Modules, [])) ∧
      (strcmp v "module".toList = 0 →
        (∀ (ret : Int) (Modules2 : List Module) (bugs : List CStr),
          reqmods_configrun_require Modules ce = some (ret, Modules2, bugs) →
          ret = 1 ∧ Modules2.length = Modules.length ∧
          (∀ (i : Nat) (m : Module), Modules[i]? = some m →
            ∃ m2, Modules2[i]? = some m2 ∧ m2.name = m.name ∧ m2.version = m.version ∧
              m2.loaded = m.loaded ∧
              (m2.global = true ↔ m.global = true ∨ RequiredAt Modules ce.ce_entries i) ∧
              (m.global = true → m2.global = true)) ∧
          reqmods_configrun_require Modules2 ce = some (1, Modules2, bugs)) ∧
        (∀ errs : Int, reqmods_configtest_require Modules ce errs = some (1, 0) →
          ∃ Modules2, reqmods_configrun_require Modules ce = some (1, Modules2, []))) := by
  refine ⟨?_, ?_⟩
  · intro hm
    simp only [reqmods_configrun_require, hv]
    rw [if_pos hm]
  · intro hm
    have hm2 : ¬ strcmp v "module".toList ≠ 0 := by simpa using hm
    refine ⟨?_, ?_⟩
    · intro ret Modules2 bugs h
      simp only [reqmods_configrun_require, hv] at h
      rw [if_neg hm2] at h
      cases hf : ce.ce_entries.foldl configrun_require_step (some (Modules, [])) with
      | none => rw [hf] at h; simp at h
      | some r =>
        obtain ⟨M2, b2⟩ := r
        rw [hf] at h
        simp only [Option.some.injEq, Prod.mk.injEq] at h
        obtain ⟨h1, h2, h3⟩ := h
        subst h1 h2 h3
        refine ⟨rfl, ?_, ?_, ?_⟩
        · have := congrArg List.length
            (configrun_require_foldl_names ce.ce_entries Modules M2 [] b2 hf)
          simpa using this
        · intro i m hmi
          obtain ⟨m2, k1, k2, k3, k4, k5⟩ :=
            configrun_require_foldl_get ce.ce_entries Modules M2 [] b2 hf i m hmi
          exact ⟨m2, k1, k2, k3, k4, k5, fun hg => k5.2 (Or.inl hg)⟩
        · simp only [reqmods_configrun_require, hv]
          rw [if_neg hm2, configrun_require_foldl_again ce.ce_entries Modules M2 b2 hf]
    · intro errs ht
      have hall := configtest_require_passed Modules ce errs v hv hm ht
      obtain ⟨M2, hf⟩ := configrun_require_foldl_ok ce.ce_entries Modules []
        (fun cep hc _ => (hall cep hc).2)
      refine ⟨M2, ?_⟩
      simp only [reqmods_configrun_require, hv]
      rw [if_neg hm2, hf]

/-- C15 at the block `require module { name bar; }` and a catalog that lists `bar`
twice: validation passes and the first `bar` only is raised to Global. -/
theorem C15_configrun_require_witness :
    (ex_require_block.ce_vardata = some "module".toList ∧
        strcmp "module".toList "module".toList = 0 ∧
        reqmods_configrun_require [ex_chanfilter, ex_bar, ex_bar_alpha] ex_require_block
          = some (1, [ex_chanfilter, { ex_bar with global := true }, ex_bar_alpha], [])) ∧
      reqmods_configrun_require [ex_chanfilter, { ex_bar with global := true }, ex_bar_alpha]
          ex_require_block
        = some (1, [ex_chanfilter, { ex_bar with global := true }, ex_bar_alpha], []) :=
  ⟨by decide,
    (((C15_configrun_require [ex_chanfilter, ex_bar, ex_bar_alpha] ex_require_block
      "module".toList rfl).2 (by decide)).1 1
        [ex_chanfilter, { ex_bar with global := true }, ex_bar_alpha] [] (by decide)).2.2.2⟩

end ReqMods
